import Mathlib

/-!
hildon-desktop: orientation and stacking utilities.

A shallow embedding of `src/util/hd-util.c` (geometry rotation and key-frame
curves) and `src/mb/hd-desktop.c` (desktop stacking), with the properties of
the specification stated and proved over it.

Conventions of the embedding:

* `gint` / `guint` are 32-bit.  Values are carried as `Int` / `Nat` and every
  C operation that can leave the range is followed by an explicit reduction
  modulo `2 ^ 32` (`toGuint`, `toGint`).
* `float` values are carried as exact rationals where a property is about the
  interpolation formula (arithmetic taken exactly).  A second embedding of
  `hd_key_frame_interpolate` carries them as binary32 values (`CFloat`), with
  rounding to nearest, infinities and NaN, for the properties that depend on
  the arithmetic of `float`.
* A C operation whose behaviour is undefined (array access out of bounds,
  float-to-int conversion out of range) makes the embedded function return
  `none`.
-/

namespace HildonDesktop

/-! ## 32-bit machine integers -/

/-- Conversion of an integer value to `guint`: reduction modulo `2 ^ 32`. -/
def toGuint (z : Int) : Int := z % 4294967296

/-- Conversion of an integer value to `gint`: the representative of `z`
modulo `2 ^ 32` in the two's-complement range. -/
def toGint (z : Int) : Int := (z + 2147483648) % 4294967296 - 2147483648

/-- The values a `gint` can hold. -/
def isGint (z : Int) : Prop := -2147483648 ≤ z ∧ z < 2147483648

/-- The values a `guint` can hold. -/
def isGuint (n : Nat) : Prop := n < 4294967296

instance (z : Int) : Decidable (isGint z) := by unfold isGint; infer_instance

instance (n : Nat) : Decidable (isGuint n) := by unfold isGuint; infer_instance

/-! ## GeometryTransform: `hd_util_rotate_geometry` -/

/-- The Clutter rectangle `ClutterGeometry { gint x, y; guint width, height; }`. -/
structure ClutterGeometry where
  x : Int
  y : Int
  width : Nat
  height : Nat
deriving DecidableEq, Repr

/-- All four fields are representable in their C types. -/
def ClutterGeometry.wf (g : ClutterGeometry) : Prop :=
  isGint g.x ∧ isGint g.y ∧ isGuint g.width ∧ isGuint g.height

instance (g : ClutterGeometry) : Decidable g.wf := by
  unfold ClutterGeometry.wf; infer_instance

/-- Embedding of `hd_util_rotate_geometry (geo, scrw, scrh)`, statement by
statement.  The rectangle is updated in place in C; here the updated rectangle
is returned together with the `gboolean` result.

The sums mix `gint` and `guint`, so C evaluates them as `guint`
(`toGuint`), and the store into the `gint` field converts back (`toGint`). -/
def hd_util_rotate_geometry (geo : ClutterGeometry) (scrw scrh : Nat) :
    ClutterGeometry × Bool :=
  -- tmp = geo->width; geo->width = geo->height; geo->height = tmp;
  let tmp : Int := toGint geo.width
  let geo := { geo with width := geo.height }
  let geo := { geo with height := (toGuint tmp).toNat }
  if scrw > scrh then
    -- tmp = geo->x; geo->x = geo->y; geo->y = scrh - (tmp + geo->height);
    let tmp := geo.x
    let geo := { geo with x := geo.y }
    let geo := { geo with y := toGint (toGuint (scrh - toGuint (toGuint tmp + geo.height))) }
    (geo, true)
  else
    -- tmp = geo->y; geo->y = geo->x; geo->x = scrw - (tmp + geo->width);
    let tmp := geo.y
    let geo := { geo with y := geo.x }
    let geo := { geo with x := toGint (toGuint (scrw - toGuint (toGuint tmp + geo.width))) }
    (geo, false)

/-- Reference definition of the rotation, following the specification's
wording (`rotate_rect`): width and height are swapped; towards landscape
(`screen_width > screen_height`) the new x is the old y and the new y is
`screen_height - (old x + new height)`; otherwise the new y is the old x and
the new x is `screen_width - (old y + new width)`.  The differences are
formed over the integers and then stored in the rectangle's 32-bit signed
coordinate fields. -/
def rotate_rect (r : ClutterGeometry) (screen_width screen_height : Nat) :
    ClutterGeometry × Bool :=
  if screen_width > screen_height then
    ({ x := r.y
       y := toGint ((screen_height : Int) - (r.x + (r.width : Int)))
       width := r.height
       height := r.width }, true)
  else
    ({ x := toGint ((screen_width : Int) - (r.y + (r.height : Int)))
       y := r.x
       width := r.height
       height := r.width }, false)

/-! ## KeyframeCurve: `hd_key_frame_list_create`, `hd_key_frame_interpolate` -/

/-- The C structure `struct _HdKeyFrameList { float *keyframes; int count; }`.
`keyframes` is the allocated array (its length is the allocated size), `count`
the stored number of key frames. -/
structure HdKeyFrameList where
  keyframes : List ℚ
  count : Int
deriving DecidableEq, Repr

/-- The structure's invariant: `count` is the number of values held, and it
is representable in the C type `int`. -/
def HdKeyFrameList.wf (k : HdKeyFrameList) : Prop :=
  (k.keyframes.length : Int) = k.count ∧ isGint k.count

instance (k : HdKeyFrameList) : Decidable k.wf := by
  unfold HdKeyFrameList.wf; infer_instance

/-- The `fail:` label of `hd_key_frame_list_create`: `count = 2`, a fresh
two-element array, `keyframes[0] = 0.0f`, `keyframes[1] = 1.0f`. -/
def key_frame_ramp : HdKeyFrameList := ⟨[0, 1], 2⟩

/-- The pre-scan of `hd_key_frame_list_create`: one per comma, plus one when
the last character is not a comma.  Only called on strings of length at
least 2, so `key_copy[strlen(key_copy)-1]` is the last character. -/
def scan_count (key_copy : List Char) : Nat :=
  -- for (p=key_copy;*p;p++) if (*p==',') k->count++;
  let count := key_copy.count ','
  -- if (key_copy[strlen(key_copy)-1]!=',') k->count++;
  if key_copy.getLast? ≠ some ',' then count + 1 else count

/-- The reading loop `for (p=key_copy;*p;)` of `hd_key_frame_list_create`.
`p` is the unread rest of the string, `i` the write index, `keyframes` the
allocated array.  A store outside the array is undefined behaviour (`none`).
Every iteration but the last consumes a character, so `strlen + 1` units of
`fuel` are enough; running out of fuel is reported as `none` as well. -/
def read_keys (atof : List Char → ℚ) :
    Nat → List Char → Nat → List ℚ → Option (Nat × List ℚ)
  | 0, _, _, _ => none
  | fuel + 1, p, i, keyframes =>
    if p = [] then some (i, keyframes)
    else
      -- while (*comma && *comma!=',') comma++;  *comma = 0;
      let segment := p.takeWhile (fun c => c ≠ ',')
      let comma := p.dropWhile (fun c => c ≠ ',')
      -- k->keyframes[i++] = atof(p);
      if i < keyframes.length then
        let keyframes := keyframes.set i (atof segment)
        match comma with
        | [] => read_keys atof fuel [] (i + 1) keyframes       -- p = comma
        | _ :: next => read_keys atof fuel next (i + 1) keyframes  -- p = comma+1
      else none

/-- Embedding of `hd_key_frame_list_create (keys)`.  `keys = none` is the null
pointer; a C string is the list of its characters before the terminating NUL.
The C library's `atof` is a parameter.  The result is `none` only if the C
function has no defined result.  `k->count` and `i` are C `int`s; they are
counted here in `Nat`, which is exact for strings of fewer than `2 ^ 31`
characters. -/
def hd_key_frame_list_create (atof : List Char → ℚ) (keys : Option (List Char)) :
    Option HdKeyFrameList :=
  match keys with
  | none => some key_frame_ramp                     -- if (!keys || ...) goto fail;
  | some keys =>
    if keys.length ≤ 1 then some key_frame_ramp     -- strlen(keys)<=1: goto fail;
    else
      let key_copy := keys
      let count := scan_count key_copy
      if count < 2 then some key_frame_ramp         -- if (k->count<2) goto fail;
      else
        -- k->keyframes = (float*)g_malloc0(sizeof(float) * k->count);
        let keyframes : List ℚ := List.replicate count 0
        match read_keys atof (key_copy.length + 1) key_copy 0 keyframes with
        | none => none
        | some (i, keyframes) => some ⟨keyframes, i⟩ -- k->count = i;

/-- The conversion `(int)v` of a `float`: truncation towards zero.  It is
undefined (`none`) when the truncated value is not representable in `int`. -/
def float_to_int (v : ℚ) : Option Int :=
  let t : Int := if 0 ≤ v then ⌊v⌋ else ⌈v⌉
  if -2147483648 ≤ t ∧ t < 2147483648 then some t else none

/-- Embedding of `hd_key_frame_interpolate (k, x)`; `k = none` is the null
pointer.  The result is `none` when the C function has no defined result: the
conversion `(int)v` overflows, or an array element outside the allocated array
is read. -/
def hd_key_frame_interpolate (k : Option HdKeyFrameList) (x : ℚ) : Option ℚ :=
  match k with
  | none => some x                                  -- if (!k || ...) return x;
  | some k =>
    if k.count < 2 then some x                      -- k->count < 2: return x;
    else
      let v : ℚ := x * ((k.count - 1 : Int) : ℚ)    -- v = x * (k->count-1);
      match float_to_int v with                     -- idx = (int)v;
      | none => none
      | some idx =>
        let n : ℚ := v - (idx : ℚ)                  -- n = v - idx;
        -- if (idx >= k->count-1) { idx = k->count-2; n = 1; }
        let (idx, n) := if idx ≥ k.count - 1 then (k.count - 2, (1 : ℚ)) else (idx, n)
        -- if (idx<0) { idx = 0; n = 0; }
        let (idx, n) := if idx < 0 then ((0 : Int), (0 : ℚ)) else (idx, n)
        -- return k->keyframes[idx]*(1-n) + k->keyframes[idx+1]*n;
        match k.keyframes[idx.toNat]?, k.keyframes[(idx + 1).toNat]? with
        | some a, some b => some (a * (1 - n) + b * n)
        | _, _ => none

/-! ### Specification-level notions for key-frame strings -/

/-- The segment count of the specification: the number of commas, plus one
when the last character is not a comma. -/
def segment_count (s : List Char) : Nat :=
  s.count ',' + (if s.getLast? = some ',' then 0 else 1)

/-- The segments of a key-frame string: the pieces between commas; a trailing
comma does not open a further segment. -/
def segments (s : List Char) : List (List Char) :=
  if s.getLast? = some ',' then (s.splitOn ',').dropLast else s.splitOn ','

/-! ### A model of `atof` on decimal input -/

/-- The C `isspace` in the "C" locale. -/
def isspace (c : Char) : Bool :=
  c = ' ' || c = '\t' || c = '\n' || c = '\x0b' || c = '\x0c' || c = '\r'

/-- Value of a string of decimal digits. -/
def digits_value (ds : List Char) : Nat :=
  ds.foldl (fun n c => 10 * n + (c.toNat - '0'.toNat)) 0

/-- An optional sign: whether it is a minus, and the rest of the input. -/
def read_sign : List Char → Bool × List Char
  | '-' :: t => (true, t)
  | '+' :: t => (false, t)
  | s => (false, s)

/-- The optional exponent part `e[+-]ddd` of a decimal floating constant; an
`e` that is not followed by digits is not part of the number. -/
def read_exponent : List Char → Int
  | [] => 0
  | c :: t =>
    if c = 'e' ∨ c = 'E' then
      let st := read_sign t
      let ed := st.2.takeWhile Char.isDigit
      if ed = [] then 0
      else if st.1 then -(digits_value ed : Int) else (digits_value ed : Int)
    else 0

/-- The decimal floating constant at the start of `s`, in the form of ISO C
`strtod` in the "C" locale: optional white space, an optional sign, digits
with an optional radix point, an optional exponent.  The result is the sign,
the digits read as one natural number and the power of ten that scales them;
`none` when `s` has no such prefix (no digit where the number should start). -/
def parse_decimal (s : List Char) : Option (Bool × Nat × Int) :=
  let st := read_sign (s.dropWhile isspace)
  let ip := st.2.takeWhile Char.isDigit
  let r := st.2.dropWhile Char.isDigit
  let fr : List Char × List Char :=
    match r with
    | '.' :: t => (t.takeWhile Char.isDigit, t.dropWhile Char.isDigit)
    | _ => ([], r)
  if ip = [] ∧ fr.1 = [] then none
  else some (st.1, digits_value (ip ++ fr.1), read_exponent fr.2 - (fr.1.length : Int))

/-- The exact value `± m * 10 ^ e`. -/
def decimal_value (neg : Bool) (m : Nat) (e : Int) : ℚ :=
  let q : ℚ := if 0 ≤ e then ((m * 10 ^ e.toNat : Nat) : ℚ) else mkRat m (10 ^ (-e).toNat)
  if neg then -q else q

/-- Modelled from the C standard: `atof` belongs to the C library and is not
part of the repository.  This is its value, taken exactly, on the decimal
form of `strtod`: the longest decimal prefix is converted and `0` is returned
when there is none.  The hexadecimal, `inf` and `nan` forms are not covered. -/
def atof_decimal (s : List Char) : ℚ :=
  match parse_decimal s with
  | none => 0
  | some (neg, m, e) => decimal_value neg m e

/-! ## StackCoordinator: `hd_desktop_stack` -/

/-- An X window identifier.  A window-manager client is identified by its
window (`client->window->xwindow`). -/
abbrev Window := Nat

/-- The requests `hd_desktop_stack` issues: to the window manager's stack
(`mb_wm_stack_move_top`, `mb_wm_client_stack`) and, for the atom
`HD_ATOM_HILDON_APPLET_ON_CURRENT_DESKTOP`, to the display server
(`XChangeProperty`, `XDeleteProperty`). -/
inductive Request where
  | stack_move_top (client : Window)
  | client_stack (client : Window) (flags : Int)
  | change_property (xwindow : Window) (value : Nat)
  | delete_property (xwindow : Window)
deriving DecidableEq, Repr

/-- What `hd_desktop_stack` acts on: the on-current-desktop property of every
window (`none` when the window does not carry it, otherwise its single 32-bit
cardinal) and the requests issued so far, oldest first. -/
structure Display where
  on_current_desktop : Window → Option Nat
  requests : List Request

/-- `XChangeProperty (xdpy, xwindow, on_current_desktop, XA_CARDINAL, 32,
PropModeReplace, &value, 1)`. -/
def XChangeProperty (dpy : Display) (xwindow : Window) (value : Nat) : Display :=
  { on_current_desktop := fun w => if w = xwindow then some value else dpy.on_current_desktop w
    requests := dpy.requests ++ [Request.change_property xwindow value] }

/-- `XDeleteProperty (xdpy, xwindow, on_current_desktop)`; deleting a property
that is not there changes nothing in the store. -/
def XDeleteProperty (dpy : Display) (xwindow : Window) : Display :=
  { on_current_desktop := fun w => if w = xwindow then none else dpy.on_current_desktop w
    requests := dpy.requests ++ [Request.delete_property xwindow] }

/-- `mb_wm_stack_move_top (client)`: a stacking request, no property access. -/
def mb_wm_stack_move_top (dpy : Display) (client : Window) : Display :=
  { dpy with requests := dpy.requests ++ [Request.stack_move_top client] }

/-- `mb_wm_client_stack (client, flags)`: a stacking request, no property
access. -/
def mb_wm_client_stack (dpy : Display) (client : Window) (flags : Int) : Display :=
  { dpy with requests := dpy.requests ++ [Request.client_stack client flags] }

/-- What `hd_desktop_stack` obtains from its collaborators, none of which is
part of the sources at hand:
`need_desktop` is `STATE_NEED_DESKTOP (hd_render_manager_get_state ())`,
`current_applets` is `hd_home_view_get_all_applets` of the current view,
`not_visible_views` lists `hd_home_view_get_all_applets` of every view
returned by `hd_home_get_not_visible_views`,
`transients` is `mb_wm_client_get_transients (client)` and
`is_home_applet` is `HD_IS_HOME_APPLET`. -/
structure StackInputs where
  need_desktop : Bool
  current_applets : List Window
  not_visible_views : List (List Window)
  transients : List Window
  is_home_applet : Window → Bool

/-- The first loop of `hd_desktop_stack`: every applet of the current view is
stacked, and its property is written with value 1 when the render state needs
the desktop and deleted otherwise. -/
def stack_current_applets (need_desktop : Bool) (flags : Int) :
    List Window → Display → Display
  | [], dpy => dpy
  | a :: applets, dpy =>
    let on_desktop : Nat := 1
    let dpy := mb_wm_client_stack dpy a flags
    let dpy := if need_desktop then XChangeProperty dpy a on_desktop
               else XDeleteProperty dpy a
    stack_current_applets need_desktop flags applets dpy

/-- The inner loop over the applets of one non-visible view. -/
def delete_view_marks : List Window → Display → Display
  | [], dpy => dpy
  | a :: applets, dpy => delete_view_marks applets (XDeleteProperty dpy a)

/-- The loop over the non-visible views. -/
def delete_not_visible_marks : List (List Window) → Display → Display
  | [], dpy => dpy
  | v :: views, dpy => delete_not_visible_marks views (delete_view_marks v dpy)

/-- The last loop of `hd_desktop_stack`, over the transients of the desktop:
`g_assert (!HD_IS_HOME_APPLET (l->data))` aborts (`none`) on an applet,
otherwise the transient is stacked. -/
def stack_transients (is_home_applet : Window → Bool) (flags : Int) :
    List Window → Display → Option Display
  | [], dpy => some dpy
  | l :: ls, dpy =>
    if is_home_applet l then none
    else stack_transients is_home_applet flags ls (mb_wm_client_stack dpy l flags)

/-- Embedding of `hd_desktop_stack (client, flags)`.  The result is `none` when
the assertion in the last loop fails. -/
def hd_desktop_stack (inp : StackInputs) (client : Window) (flags : Int)
    (dpy : Display) : Option Display :=
  let dpy := mb_wm_stack_move_top dpy client
  let dpy := stack_current_applets inp.need_desktop flags inp.current_applets dpy
  let dpy := delete_not_visible_marks inp.not_visible_views dpy
  stack_transients inp.is_home_applet flags inp.transients dpy

/-- The property requests among the requests of `hd_desktop_stack`: the
`XChangeProperty` and `XDeleteProperty` calls. -/
def Request.is_property_request : Request → Bool
  | Request.change_property _ _ => true
  | Request.delete_property _ => true
  | _ => false

/-- The property writes proper: the `XChangeProperty` calls. -/
def Request.is_change_property : Request → Bool
  | Request.change_property _ _ => true
  | _ => false

/-- The stacking requests among the requests of `hd_desktop_stack`:
`mb_wm_stack_move_top` and `mb_wm_client_stack`. -/
def Request.is_stacking_request : Request → Bool
  | Request.stack_move_top _ => true
  | Request.client_stack _ _ => true
  | _ => false

/-- The requests the first loop of `hd_desktop_stack` issues for one applet of
the current view. -/
def current_applet_requests (need_desktop : Bool) (flags : Int) (a : Window) :
    List Request :=
  [Request.client_stack a flags,
   if need_desktop then Request.change_property a 1 else Request.delete_property a]

/-- The requests of one call of `hd_desktop_stack`, listed from its text: the
move to the top, the first loop, the loops over the non-visible views, the
loop over the transients. -/
def stack_call_requests (inp : StackInputs) (client : Window) (flags : Int) :
    List Request :=
  [Request.stack_move_top client]
    ++ inp.current_applets.flatMap (current_applet_requests inp.need_desktop flags)
    ++ inp.not_visible_views.flatten.map Request.delete_property
    ++ inp.transients.map (fun l => Request.client_stack l flags)

/-! ## StackCoordinator: `hd_desktop_stacking_layer` -/

/-- Modelled from the spec: the matchbox enumeration `MBWMStackLayerType` is
declared outside the sources at hand; these are the two layers
`hd_desktop_stacking_layer` can return, the bottom and the middle one. -/
inductive MBWMStackLayerType where
  | MBWMStackLayerBottom
  | MBWMStackLayerMid
deriving DecidableEq, Repr

/-- The 32-bit complement `~mask`. -/
def complement32 (mask : Nat) : Nat := 4294967295 ^^^ mask

/-- Embedding of `hd_desktop_stacking_layer (client)`.  `need_desktop` is
`STATE_NEED_DESKTOP (hd_render_manager_get_state ())`, `flag_desktop` the
matchbox constant `MBWindowManagerFlagDesktop` (declared outside the sources
at hand), `wm_flags` the 32-bit word `client->wmref->flags`.  The result is
the layer and the updated flag word. -/
def hd_desktop_stacking_layer (need_desktop : Bool) (flag_desktop : Nat)
    (wm_flags : Nat) : MBWMStackLayerType × Nat :=
  if need_desktop then
    -- client->wmref->flags |= MBWindowManagerFlagDesktop;
    (MBWMStackLayerType.MBWMStackLayerMid, wm_flags ||| flag_desktop)
  else
    -- client->wmref->flags &= ~MBWindowManagerFlagDesktop;
    (MBWMStackLayerType.MBWMStackLayerBottom, wm_flags &&& complement32 flag_desktop)

/-! ## OrientationController: `hd_util_change_screen_orientation_real` -/

/-- X resource identifiers of the RandR extension. -/
abbrev RRCrtc := Nat

abbrev RROutput := Nat

abbrev RRMode := Nat

/-- A rotation, one bit of the RandR rotation mask. -/
abbrev Rotation := Nat

/-- Constants of `X11/extensions/randr.h` and `X11/X.h`, which are outside
the repository. -/
def RR_Rotate_0 : Rotation := 1

def RR_Rotate_90 : Rotation := 2

def RR_Rotate_180 : Rotation := 4

def RR_Rotate_270 : Rotation := 8

def RRSetConfigSuccess : Nat := 0

def XA_ATOM : Nat := 4

/-- The X constant `None`. -/
def X_None : Nat := 0

/-- The fields of `XRRCrtcInfo` that the code reads. -/
structure XRRCrtcInfo where
  timestamp : Nat
  x : Int
  y : Int
  width : Nat
  height : Nat
  mode : RRMode
  rotation : Rotation
  outputs : List RROutput
  rotations : Nat
deriving DecidableEq, Repr

/-- The fields of `XRRScreenResources` that the code reads; `ncrtc` and
`noutput` are the lengths of the lists. -/
structure XRRScreenResources where
  crtcs : List RRCrtc
  outputs : List RROutput
deriving DecidableEq, Repr

/-- What a successful `XRRGetOutputProperty` returns. -/
structure OutputProperty where
  actual_type : Nat
  actual_format : Nat
  nitems : Nat
  value : Nat
deriving DecidableEq, Repr

/-- The arguments of `XRRSetCrtcConfig` after the resources. -/
structure CrtcConfig where
  crtc : RRCrtc
  timestamp : Nat
  x : Int
  y : Int
  mode : RRMode
  rotation : Rotation
  outputs : List RROutput
deriving DecidableEq, Repr

/-- The arguments of `XRRSetScreenSize`: width, height, and both in
millimetres. -/
structure ScreenSize where
  width : Int
  height : Int
  mm_width : Int
  mm_height : Int
deriving DecidableEq, Repr

/-- Every call that `hd_util_change_screen_orientation_real`,
`get_primary_crtc`, `randr_supported` and `hd_util_root_window_configured`
make to the display server or to another subsystem, memory release and
logging apart. -/
inductive Call where
  | usleep (usec : Nat)
  | XRRQueryVersion
  | XRRGetScreenResources
  | XRRGetOutputInfo (output : RROutput)
  | XRRGetOutputProperty (output : RROutput)
  | XRRGetOutputPrimary
  | XRRGetCrtcInfo (crtc : RRCrtc)
  | XSync
  | glFinish
  | XGrabServer
  | XUngrabServer
  | XChangeProperty_suppress_root_reconfiguration (value : Nat)
  | XDeleteProperty_suppress_root_reconfiguration
  | XRRSetCrtcConfig (config : CrtcConfig)
  | XRRSetScreenSize (size : ScreenSize)
  | hd_rotate_input_devices
  | hd_render_manager_flip_input_viewport
  | mb_wm_util_async_trap_x_errors
  | mb_wm_util_async_untrap_x_errors
deriving DecidableEq, Repr

/-- The calls that change something: the server grab and its release, the
property write and delete, the CRTC configuration, the screen resize, the
input-device remap and the input-viewport flip.  The others are queries,
synchronisation and waiting. -/
def Call.changes_state : Call → Bool
  | Call.XGrabServer => true
  | Call.XUngrabServer => true
  | Call.XChangeProperty_suppress_root_reconfiguration _ => true
  | Call.XDeleteProperty_suppress_root_reconfiguration => true
  | Call.XRRSetCrtcConfig _ => true
  | Call.XRRSetScreenSize _ => true
  | Call.hd_rotate_input_devices => true
  | Call.hd_render_manager_flip_input_viewport => true
  | _ => false

/-- What the display connection answers and does not change during the calls
modelled here: the reply to `XRRQueryVersion` (`none` when the query fails),
to `XRRGetScreenResources` (`none` for `NULL`), the CRTC of
`XRRGetOutputInfo` (`none` for `NULL`), the reply to `XRRGetOutputProperty`
for the connector type (`none` when it fails), the connector-type atom of a
panel, `XRRGetOutputPrimary`, the Xlib macros `DisplayWidth`, `DisplayHeight`,
`DisplayWidthMM`, `DisplayHeightMM`, the size of every mode, and the status
with which the server answers a CRTC configuration request. -/
structure XEnvironment where
  rr_version : Option (Int × Int)
  resources : Option XRRScreenResources
  output_crtc : RROutput → Option RRCrtc
  output_connector_type : RROutput → Option OutputProperty
  rr_connector_panel : Nat
  output_primary : RROutput
  display_width : Int
  display_height : Int
  display_width_mm : Int
  display_height_mm : Int
  mode_size : RRMode → Nat × Nat
  crtc_config_status : CrtcConfig → Nat

/-- The state of the display server that the rotation changes: the
configuration of every CRTC (as `XRRGetCrtcInfo` reports it, `none` for an
unknown CRTC), the size of the virtual screen, the suppress-root-
reconfiguration property of the root window (`none` when absent) and whether
the server is grabbed. -/
structure Hardware where
  crtcs : RRCrtc → Option XRRCrtcInfo
  screen_size : ScreenSize
  suppress_root_reconfiguration : Option Nat
  grabbed : Bool

/-- The display server as the process sees it, with the calls made so far,
oldest first. -/
structure XServer where
  env : XEnvironment
  hw : Hardware
  calls : List Call

/-- Record a call. -/
def XServer.call (srv : XServer) (c : Call) : XServer :=
  { srv with calls := srv.calls ++ [c] }

/-- The file-scope and function-scope `static` variables of `hd-util.c` that
the rotation code uses: `randr_supported` (-1 until probed),
`crtc` (`none` stands for `~0UL`), `display_is_portrait` and
`initially_rotated` (both -1 until set). -/
structure Statics where
  randr_supported : Int
  crtc : Option RRCrtc
  display_is_portrait : Int
  initially_rotated : Int
deriving DecidableEq, Repr

/-- The statics at program start. -/
def Statics.initial : Statics := ⟨-1, none, -1, -1⟩

/-- Modelled from the RandR protocol: the display server is outside the
repository.  `XRRSetCrtcConfig` returns the server's status; on
`RRSetConfigSuccess` the CRTC takes the position, mode, rotation and outputs
of the request, and reports the size of the mode, with width and height
exchanged under a rotation by 90 or 270 degrees and `0 x 0` when the mode is
`None` (the CRTC is disabled).  On any other status nothing changes. -/
def XRRSetCrtcConfig (srv : XServer) (config : CrtcConfig) : Nat × XServer :=
  let srv := srv.call (Call.XRRSetCrtcConfig config)
  let status := srv.env.crtc_config_status config
  if status = RRSetConfigSuccess then
    match srv.hw.crtcs config.crtc with
    | none => (status, srv)
    | some info =>
      let size : Nat × Nat := if config.mode = X_None then (0, 0) else srv.env.mode_size config.mode
      let size : Nat × Nat :=
        if config.rotation = RR_Rotate_90 ∨ config.rotation = RR_Rotate_270
        then (size.2, size.1) else size
      let info : XRRCrtcInfo :=
        { info with x := config.x, y := config.y, mode := config.mode,
                    rotation := config.rotation, outputs := config.outputs,
                    width := size.1, height := size.2 }
      (status,
       { srv with hw := { srv.hw with
          crtcs := fun c => if c = config.crtc then some info else srv.hw.crtcs c } })
  else (status, srv)

/-- Modelled from the RandR protocol: `XRRSetScreenSize` sets the size of the
virtual screen. -/
def XRRSetScreenSize (srv : XServer) (size : ScreenSize) : XServer :=
  let srv := srv.call (Call.XRRSetScreenSize size)
  { srv with hw := { srv.hw with screen_size := size } }

/-- `XChangeProperty` of the root window's
`MBWM_ATOM_MAEMO_SUPPRESS_ROOT_RECONFIGURATION`, one 32-bit cardinal. -/
def XChangeProperty_suppress (srv : XServer) (value : Nat) : XServer :=
  let srv := srv.call (Call.XChangeProperty_suppress_root_reconfiguration value)
  { srv with hw := { srv.hw with suppress_root_reconfiguration := some value } }

/-- `XDeleteProperty` of the same property; deleting an absent property leaves
the store as it is. -/
def XDeleteProperty_suppress (srv : XServer) : XServer :=
  let srv := srv.call Call.XDeleteProperty_suppress_root_reconfiguration
  { srv with hw := { srv.hw with suppress_root_reconfiguration := none } }

def XGrabServer (srv : XServer) : XServer :=
  let srv := srv.call Call.XGrabServer
  { srv with hw := { srv.hw with grabbed := true } }

def XUngrabServer (srv : XServer) : XServer :=
  let srv := srv.call Call.XUngrabServer
  { srv with hw := { srv.hw with grabbed := false } }

/-- Embedding of `randr_supported (wm)`: the version is queried once and the
answer is cached in the static `randr_supported`; accepted are `major > 1` and
`major == 1 && minor >= 3`. -/
def randr_supported (st : Statics) (srv : XServer) : Bool × Statics × XServer :=
  if st.randr_supported = -1 then
    -- Status ok = XRRQueryVersion (wm->xdpy, &rr_major, &rr_minor);
    let srv := srv.call Call.XRRQueryVersion
    let st : Statics :=
      match srv.env.rr_version with
      | some (rr_major, rr_minor) =>
        if rr_major > 1 ∨ (rr_major = 1 ∧ rr_minor ≥ 3)
        then { st with randr_supported := 1 }
        else { st with randr_supported := 0 }
      | none => { st with randr_supported := 0 }
    (decide (st.randr_supported ≠ 0), st, srv)
  else
    (decide (st.randr_supported ≠ 0), st, srv)

/-- The loop of `get_primary_crtc` over `res->outputs`: the CRTC of the first
output whose connector-type property is the single 32-bit atom of a panel;
outputs without info are skipped. -/
def find_panel_crtc : List RROutput → XServer → Option RRCrtc × XServer
  | [], srv => (none, srv)
  | output :: outputs, srv =>
    let srv := srv.call (Call.XRRGetOutputInfo output)
    match srv.env.output_crtc output with
    | none => find_panel_crtc outputs srv                    -- continue
    | some crtc =>
      let srv := srv.call (Call.XRRGetOutputProperty output)
      match srv.env.output_connector_type output with
      | some reply =>
        if reply.actual_type = XA_ATOM ∧ reply.actual_format = 32 ∧ reply.nitems = 1
            ∧ reply.value = srv.env.rr_connector_panel
        then (some crtc, srv)                                -- ret = output->crtc; break
        else find_panel_crtc outputs srv
      | none => find_panel_crtc outputs srv

/-- Embedding of `get_primary_crtc (wm, res)`; `none` stands for `~0UL`. -/
def get_primary_crtc (srv : XServer) (res : XRRScreenResources) :
    Option RRCrtc × XServer :=
  match res.crtcs with
  | [crtc] => (some crtc, srv)               -- if (res->ncrtc == 1) return res->crtcs[0];
  | _ =>
    match find_panel_crtc res.outputs srv with
    | (some crtc, srv) => (some crtc, srv)
    | (none, srv) =>
      -- RROutput primary = XRRGetOutputPrimary (...);
      let srv := srv.call Call.XRRGetOutputPrimary
      if srv.env.output_primary = X_None then (none, srv)
      else
        -- output = XRRGetOutputInfo (wm->xdpy, res, primary); if (output) ret = output->crtc;
        let srv := srv.call (Call.XRRGetOutputInfo srv.env.output_primary)
        (srv.env.output_crtc srv.env.output_primary, srv)

/-- The first part of `hd_util_change_screen_orientation_real`, up to
`XRRGetCrtcInfo`: the wait, the version check, the screen resources, the
primary CRTC (cached in the static `crtc`) and its info.  `none` is any of
the four early `return FALSE` / `goto err_res`. -/
def probe_crtc (st : Statics) (srv : XServer) :
    Option (RRCrtc × XRRCrtcInfo) × Statics × XServer :=
  let srv := srv.call (Call.usleep 100000)
  match randr_supported st srv with
  | (false, st, srv) => (none, st, srv)                      -- return FALSE;
  | (true, st, srv) =>
    let srv := srv.call Call.XRRGetScreenResources
    match srv.env.resources with
    | none => (none, st, srv)                                -- return FALSE;
    | some res =>
      -- if (crtc == ~0UL) crtc = get_primary_crtc (wm, res);
      let found : Option RRCrtc × XServer :=
        if st.crtc = none then get_primary_crtc srv res else (st.crtc, srv)
      let st : Statics := { st with crtc := found.1 }
      let srv := found.2
      match st.crtc with
      | none => (none, st, srv)                              -- goto err_res;
      | some crtc =>
        let srv := srv.call (Call.XRRGetCrtcInfo crtc)
        match srv.hw.crtcs crtc with
        | none => (none, st, srv)                            -- goto err_res;
        | some crtc_info => (some (crtc, crtc_info), st, srv)

/-- The condition under which the CRTC counts as rotated by the firmware:
rotation 0 with `width < height`, or rotation 270 with `width > height`. -/
def is_pre_rotated (crtc_info : XRRCrtcInfo) : Bool :=
  (crtc_info.rotation = RR_Rotate_0 ∧ crtc_info.width < crtc_info.height)
  ∨ (crtc_info.rotation = RR_Rotate_270 ∧ crtc_info.width > crtc_info.height)

/-- The middle part of `hd_util_change_screen_orientation_real`, from
`if (display_is_portrait == -1)` to the capture of `initially_rotated`: the
rotation `want`, the screen size for `XRRSetScreenSize` and the statics.
`want` and the size are `none` as long as the C variables are unassigned. -/
def choose_rotation (env : XEnvironment) (st : Statics) (crtc_info : XRRCrtcInfo)
    (goto_portrait do_change : Bool) : Option Rotation × Option ScreenSize × Statics :=
  -- if (display_is_portrait == -1) display_is_portrait = FALSE;
  let st : Statics :=
    if st.display_is_portrait = -1 then { st with display_is_portrait := 0 } else st
  let chosen : Option Rotation × Option ScreenSize × Statics :=
    if goto_portrait then
      let want : Option Rotation := if do_change then some RR_Rotate_90 else none
      let size : Option ScreenSize :=
        if do_change then
          some ⟨min env.display_width env.display_height,
                max env.display_width env.display_height,
                min env.display_width_mm env.display_height_mm,
                max env.display_width_mm env.display_height_mm⟩
        else none
      if is_pre_rotated crtc_info then
        -- want = RR_Rotate_0; display_is_portrait = TRUE;
        (some RR_Rotate_0, size, { st with display_is_portrait := 1 })
      else (want, size, st)
    else
      let want : Option Rotation := if do_change then some RR_Rotate_0 else none
      let size : Option ScreenSize :=
        if do_change then
          some ⟨max env.display_width env.display_height,
                min env.display_width env.display_height,
                max env.display_width_mm env.display_height_mm,
                min env.display_width_mm env.display_height_mm⟩
        else none
      if is_pre_rotated crtc_info then
        -- want = RR_Rotate_270; display_is_portrait = TRUE;
        (some RR_Rotate_270, size, { st with display_is_portrait := 1 })
      else (want, size, st)
  -- if (initially_rotated == -1) initially_rotated = rotation != 0 && rotation != 180;
  let st := chosen.2.2
  let st : Statics :=
    if st.initially_rotated = -1 then
      { st with initially_rotated :=
          if crtc_info.rotation ≠ RR_Rotate_0 ∧ crtc_info.rotation ≠ RR_Rotate_180
          then 1 else 0 }
    else st
  (chosen.1, chosen.2.1, st)

/-- The transition proper, from `XSync` to `hd_rotate_input_devices`, followed
by the test of `status` after the labels: the result is `rv` as returned. -/
def rotate_crtc (srv : XServer) (crtc : RRCrtc) (crtc_info : XRRCrtcInfo)
    (want : Rotation) (size : ScreenSize) : Bool × XServer :=
  let srv := srv.call Call.XSync
  let srv := srv.call Call.glFinish
  let srv := XGrabServer srv
  let srv := XChangeProperty_suppress srv 1
  -- XRRSetCrtcConfig (..., crtc_info->timestamp, 0, 0, None, RR_Rotate_0, NULL, 0);
  let srv := (XRRSetCrtcConfig srv ⟨crtc, crtc_info.timestamp, 0, 0, X_None, RR_Rotate_0, []⟩).2
  let srv := XRRSetScreenSize srv size
  -- status = XRRSetCrtcConfig (..., crtc_info->x, crtc_info->y, crtc_info->mode, want, ...);
  let configured := XRRSetCrtcConfig srv
    ⟨crtc, crtc_info.timestamp, crtc_info.x, crtc_info.y, crtc_info.mode, want,
     crtc_info.outputs⟩
  let status := configured.1
  let srv := configured.2
  let srv := XUngrabServer srv
  let srv := srv.call Call.XSync
  let srv := srv.call Call.hd_rotate_input_devices
  -- rv = TRUE; ... if (rv == TRUE && do_change)
  if status ≠ RRSetConfigSuccess then (false, srv)           -- return FALSE;
  else (true, srv.call Call.hd_render_manager_flip_input_viewport)

/-- Embedding of `hd_util_change_screen_orientation_real (wm, goto_portrait,
do_change)`: the value returned, the statics and the display server after the
call. -/
def hd_util_change_screen_orientation_real (st : Statics) (srv : XServer)
    (goto_portrait do_change : Bool) : Bool × Statics × XServer :=
  match probe_crtc st srv with
  | (none, st, srv) => (false, st, srv)
  | (some (crtc, crtc_info), st, srv) =>
    match choose_rotation srv.env st crtc_info goto_portrait do_change with
    | (want, size, st) =>
      if do_change then
        match want, size with
        | some want, some size =>
          if crtc_info.rotations &&& want = 0 then (false, st, srv)   -- goto err_crtc_info;
          else if crtc_info.rotation = want then (false, st, srv)     -- goto err_crtc_info;
          else
            let done := rotate_crtc srv crtc crtc_info want size
            (done.1, st, done.2)
        | _, _ => (false, st, srv)   -- not reached: both are assigned under do_change
      else (true, st, srv)                                            -- rv = TRUE;

/-- Embedding of `hd_util_change_screen_orientation (wm, goto_portrait)`. -/
def hd_util_change_screen_orientation (st : Statics) (srv : XServer)
    (goto_portrait : Bool) : Bool × Statics × XServer :=
  hd_util_change_screen_orientation_real st srv goto_portrait true

/-- Embedding of `hd_util_root_window_configured (wm)`: X errors are trapped
around the delete, so none is raised. -/
def hd_util_root_window_configured (srv : XServer) : XServer :=
  let srv := srv.call Call.mb_wm_util_async_trap_x_errors
  let srv := XDeleteProperty_suppress srv
  let srv := srv.call Call.XSync
  srv.call Call.mb_wm_util_async_untrap_x_errors

/-- Embedding of `hd_util_display_portraitness_init (wm)`; a failing
`g_assert (display_is_portrait == -1)` aborts (`none`). -/
def hd_util_display_portraitness_init (st : Statics) (srv : XServer) :
    Option (Statics × XServer) :=
  if st.display_is_portrait = -1 then
    some (hd_util_change_screen_orientation_real st srv false false).2
  else none

/-- The value of `want` when `do_change` is set, written out from the two
branches of `hd_util_change_screen_orientation_real`. -/
def target_rotation (crtc_info : XRRCrtcInfo) (goto_portrait : Bool) : Rotation :=
  if is_pre_rotated crtc_info then
    (if goto_portrait then RR_Rotate_0 else RR_Rotate_270)
  else
    (if goto_portrait then RR_Rotate_90 else RR_Rotate_0)

/-- The screen size passed to `XRRSetScreenSize`: `MIN`/`MAX` of the display's
pixel and millimetre dimensions towards portrait, `MAX`/`MIN` towards
landscape. -/
def target_size (env : XEnvironment) (goto_portrait : Bool) : ScreenSize :=
  if goto_portrait then
    ⟨min env.display_width env.display_height,
     max env.display_width env.display_height,
     min env.display_width_mm env.display_height_mm,
     max env.display_width_mm env.display_height_mm⟩
  else
    ⟨max env.display_width env.display_height,
     min env.display_width env.display_height,
     max env.display_width_mm env.display_height_mm,
     min env.display_width_mm env.display_height_mm⟩

/-- The call from `srv` to `srv'` touched nothing: the hardware state is the
same and every call made in between is a query, a synchronisation or a wait. -/
def XServer.only_queried (srv srv' : XServer) : Prop :=
  srv'.env = srv.env ∧ srv'.hw = srv.hw
  ∧ ∃ queries, srv'.calls = srv.calls ++ queries
      ∧ ∀ c ∈ queries, Call.changes_state c = false

/-! ### Example displays -/

/-- A display connection with RandR 1.3, one CRTC (63) and one output (66), an
800x480 screen of 77x46 mm, whose server answers every CRTC configuration
request with `status`. -/
def example_env (status : CrtcConfig → Nat) : XEnvironment :=
  { rr_version := some (1, 3)
    resources := some ⟨[63], [66]⟩
    output_crtc := fun _ => some 63
    output_connector_type := fun _ => none
    rr_connector_panel := 100
    output_primary := 66
    display_width := 800
    display_height := 480
    display_width_mm := 77
    display_height_mm := 46
    mode_size := fun _ => (800, 480)
    crtc_config_status := status }

/-- The example display with CRTC 63 in the given rotation and size; the CRTC
supports all four rotations; no property set, nothing called yet. -/
def example_display (status : CrtcConfig → Nat) (rotation : Rotation)
    (width height : Nat) : XServer :=
  { env := example_env status
    hw := { crtcs := fun c =>
              if c = 63 then some ⟨0, 0, 0, width, height, 70, rotation, [66], 15⟩ else none
            screen_size := ⟨800, 480, 77, 46⟩
            suppress_root_reconfiguration := none
            grabbed := false }
    calls := [] }

/-- A server that accepts every CRTC configuration request. -/
def accept_all : CrtcConfig → Nat := fun _ => RRSetConfigSuccess

/-- A server that accepts the request that disables a CRTC and answers every
other one with `RRSetConfigFailed` (3). -/
def accept_disable_only : CrtcConfig → Nat :=
  fun config => if config.mode = X_None then RRSetConfigSuccess else 3

/-! ## PropertyChannel: `hd_util_get_win_prop_data_and_validate`,
`hd_util_set_screen_size_property` -/

/-- The X status `Success`. -/
def Success : Int := 0

/-- What `XGetWindowProperty` hands back to
`hd_util_get_win_prop_data_and_validate`: its status, the data pointer
(`none` for `NULL`, as Xlib leaves it when the window has no such property),
the format and the number of items.  Xlib is outside the repository, so the
reply is an input of the embedding. -/
structure WindowPropertyReply where
  status : Int
  prop_data : Option (List Nat)
  format_ret : Int
  items_ret : Nat
deriving DecidableEq, Repr

/-- The calls of `hd_util_get_win_prop_data_and_validate`. -/
inductive PropertyCall where
  | mb_wm_util_async_trap_x_errors
  | XGetWindowProperty
  | mb_wm_util_async_untrap_x_errors
  | XFree
deriving DecidableEq, Repr

/-- The outcome of `hd_util_get_win_prop_data_and_validate`: the pointer
returned (`none` for `NULL`), the caller's `*n_items_ret` after the call
(`none` when the caller passed no pointer) and the calls made. -/
structure ValidatedProperty where
  data : Option (List Nat)
  n_items_ret : Option Int
  calls : List PropertyCall
deriving DecidableEq, Repr

/-- Embedding of `hd_util_get_win_prop_data_and_validate`.  `ulong_bits` is the
width of `unsigned long`, the type of `items_ret`: the comparison with the
`gint` `expected_n_items` is made in that type, and the store into
`*n_items_ret` converts back to `gint`.  `n_items_ret` is the value the
caller's variable holds before the call, `none` for a null pointer. -/
def hd_util_get_win_prop_data_and_validate (ulong_bits : Nat) (reply : WindowPropertyReply)
    (expected_format expected_n_items : Int) (n_items_ret : Option Int) :
    ValidatedProperty :=
  -- mb_wm_util_async_trap_x_errors; status = XGetWindowProperty (...); untrap
  let calls : List PropertyCall :=
    [PropertyCall.mb_wm_util_async_trap_x_errors, PropertyCall.XGetWindowProperty,
     PropertyCall.mb_wm_util_async_untrap_x_errors]
  -- fail: if (prop_data) XFree(prop_data); return NULL;
  let fail : ValidatedProperty :=
    ⟨none, n_items_ret,
     if reply.prop_data = none then calls else calls ++ [PropertyCall.XFree]⟩
  if reply.status ≠ Success ∨ reply.prop_data = none then fail
  else if expected_format ≠ 0 ∧ reply.format_ret ≠ expected_format then fail
  else if expected_n_items ≠ 0
      ∧ (reply.items_ret : Int) ≠ expected_n_items % (2 : Int) ^ ulong_bits then fail
  else
    -- if (n_items_ret) *n_items_ret = items_ret; return prop_data;
    ⟨reply.prop_data, n_items_ret.map (fun _ => toGint reply.items_ret), calls⟩

/-- The arguments of the `XChangeProperty` call of
`hd_util_set_screen_size_property` that depend on the function's input: the
format, the number of elements and the array `value`, whose elements are
`none` as long as they are not assigned. -/
structure ScreenSizeProperty where
  format : Nat
  nelements : Nat
  value : List (Option Nat)
deriving DecidableEq, Repr

/-- Embedding of `hd_util_set_screen_size_property (wm, is_portrait)`.
`landscape_width` and `landscape_height` are the values of the macros
`HD_COMP_MGR_LANDSCAPE_WIDTH` and `HD_COMP_MGR_LANDSCAPE_HEIGHT`, which are
defined outside the sources at hand; `is_portrait` is a `gboolean`, an `int`.
The elements of `unsigned value[2]` are the items of the property. -/
def hd_util_set_screen_size_property (landscape_width landscape_height : Nat)
    (is_portrait : Int) : ScreenSizeProperty :=
  let value : List (Option Nat) := [none, none]
  -- value[!!is_portrait] = HD_COMP_MGR_LANDSCAPE_WIDTH;
  let value := value.set (if is_portrait ≠ 0 then 1 else 0)
    (some (landscape_width % 4294967296))
  -- value[ !is_portrait] = HD_COMP_MGR_LANDSCAPE_HEIGHT;
  let value := value.set (if is_portrait ≠ 0 then 0 else 1)
    (some (landscape_height % 4294967296))
  -- XChangeProperty (..., XA_CARDINAL, 32, PropModeReplace, (unsigned char *)value, 2);
  ⟨32, 2, value⟩

/-- The calls of the first part of `hd_util_change_screen_orientation_real`:
the wait and the RandR queries. -/
def Call.is_probe : Call → Bool
  | Call.usleep _ => true
  | Call.XRRQueryVersion => true
  | Call.XRRGetScreenResources => true
  | Call.XRRGetOutputInfo _ => true
  | Call.XRRGetOutputProperty _ => true
  | Call.XRRGetOutputPrimary => true
  | Call.XRRGetCrtcInfo _ => true
  | _ => false

/-- Every call made from `srv` to `srv'` is a wait or a RandR query. -/
def XServer.only_probed (srv srv' : XServer) : Prop :=
  ∃ probes, srv'.calls = srv.calls ++ probes ∧ ∀ c ∈ probes, Call.is_probe c = true

/-! ## Key frames as binary32 values

`hd_key_frame_interpolate` over the exact rationals, above, answers the
questions about the interpolation formula.  What the function returns for
key frames that are infinite, and for lists so long that `count - 1` is not a
`float`, depends on the arithmetic of the type `float` itself; the embedding
below carries it. -/

/-- Modelled from IEEE 754: a value of the C type `float` (binary32), which is
a finite number, an infinity or a NaN.  The sign of a zero is not kept: no
operation of `hd_key_frame_interpolate` tells the two zeros apart. -/
inductive CFloat where
  | finite (value : ℚ)
  | infinity (negative : Bool)
  | nan
deriving DecidableEq, Repr

/-- Rounding to the nearest integer, ties to the even one. -/
def round_half_even (m : ℚ) : Int :=
  if m - ⌊m⌋ < 1 / 2 then ⌊m⌋
  else if 1 / 2 < m - ⌊m⌋ then ⌊m⌋ + 1
  else if ⌊m⌋ % 2 = 0 then ⌊m⌋ else ⌊m⌋ + 1

/-- Modelled from IEEE 754: the spacing of the binary32 values around `q`:
`2 ^ (e - 23)` for the binary exponent `e` of `q`, which is at least `-126`
(below that the values are subnormal, with spacing `2 ^ -149`). -/
def binary32_ulp (q : ℚ) : ℚ := (2 : ℚ) ^ (max (Int.log 2 |q|) (-126) - 23)

/-- Modelled from IEEE 754: rounding of an exact result to binary32, to the
nearest value with ties to even, which is the default rounding mode; a result
that rounds to `2 ^ 128` or beyond becomes an infinity. -/
def binary32_round (q : ℚ) : CFloat :=
  let r : ℚ := (round_half_even (q / binary32_ulp q) : ℚ) * binary32_ulp q
  if (2 : ℚ) ^ 128 ≤ |r| then CFloat.infinity (decide (q < 0)) else CFloat.finite r

/-- Modelled from IEEE 754: negation. -/
def CFloat.neg : CFloat → CFloat
  | CFloat.finite v => CFloat.finite (-v)
  | CFloat.infinity s => CFloat.infinity (!s)
  | CFloat.nan => CFloat.nan

/-- Modelled from IEEE 754: the product of two `float`s.  Zero times an
infinity is a NaN. -/
def CFloat.mul : CFloat → CFloat → CFloat
  | CFloat.finite a, CFloat.finite b => binary32_round (a * b)
  | CFloat.finite a, CFloat.infinity t =>
    if a = 0 then CFloat.nan else CFloat.infinity (xor (decide (a < 0)) t)
  | CFloat.infinity s, CFloat.finite b =>
    if b = 0 then CFloat.nan else CFloat.infinity (xor s (decide (b < 0)))
  | CFloat.infinity s, CFloat.infinity t => CFloat.infinity (xor s t)
  | _, _ => CFloat.nan

/-- Modelled from IEEE 754: the sum of two `float`s.  The sum of two
infinities of opposite sign is a NaN. -/
def CFloat.add : CFloat → CFloat → CFloat
  | CFloat.finite a, CFloat.finite b => binary32_round (a + b)
  | CFloat.finite _, CFloat.infinity t => CFloat.infinity t
  | CFloat.infinity s, CFloat.finite _ => CFloat.infinity s
  | CFloat.infinity s, CFloat.infinity t => if s = t then CFloat.infinity s else CFloat.nan
  | _, _ => CFloat.nan

/-- Modelled from IEEE 754: the difference of two `float`s. -/
def CFloat.sub (a b : CFloat) : CFloat := CFloat.add a (CFloat.neg b)

/-- The conversion of an `int` to `float`, as C applies it to the `int` operand
of a mixed expression: the value rounded to binary32. -/
def CFloat.of_int (z : Int) : CFloat := binary32_round (z : ℚ)

/-- The conversion `(int)v` of a `float`: truncation towards zero, undefined
(`none`) for a value out of the range of `int`, an infinity or a NaN. -/
def CFloat.to_int : CFloat → Option Int
  | CFloat.finite v => float_to_int v
  | _ => none

/-- The C structure `struct _HdKeyFrameList { float *keyframes; int count; }`
with its key frames as `float` values. -/
structure HdKeyFrameList_binary32 where
  keyframes : List CFloat
  count : Int
deriving DecidableEq, Repr

/-- The structure's invariant: `count` is the number of values held, and it
is representable in the C type `int`. -/
def HdKeyFrameList_binary32.wf (k : HdKeyFrameList_binary32) : Prop :=
  (k.keyframes.length : Int) = k.count ∧ isGint k.count

/-- A `float` that is a finite number: `finite q` for a `q` that binary32
holds exactly, that is one that rounding leaves as it is. -/
def CFloat.is_finite_value (a : CFloat) : Prop :=
  ∃ q, a = CFloat.finite q ∧ binary32_round q = CFloat.finite q

/-- Embedding of `hd_key_frame_interpolate (k, x)` over `float` values,
statement by statement as `hd_key_frame_interpolate` above, with every
operation of the C text rounded to binary32 and the `int` operands converted
to `float` where C converts them.  The result is `none` when the C function
has no defined result: the conversion `(int)v` is undefined, or an array
element outside the allocated array is read. -/
def hd_key_frame_interpolate_binary32 (k : Option HdKeyFrameList_binary32) (x : CFloat) :
    Option CFloat :=
  match k with
  | none => some x                                  -- if (!k || ...) return x;
  | some k =>
    if k.count < 2 then some x                      -- k->count < 2: return x;
    else
      -- v = x * (k->count-1);
      let v : CFloat := CFloat.mul x (CFloat.of_int (k.count - 1))
      match CFloat.to_int v with                    -- idx = (int)v;
      | none => none
      | some idx =>
        let n : CFloat := CFloat.sub v (CFloat.of_int idx)   -- n = v - idx;
        -- if (idx >= k->count-1) { idx = k->count-2; n = 1; }
        let (idx, n) := if idx ≥ k.count - 1 then (k.count - 2, CFloat.of_int 1) else (idx, n)
        -- if (idx<0) { idx = 0; n = 0; }
        let (idx, n) := if idx < 0 then ((0 : Int), CFloat.of_int 0) else (idx, n)
        -- return k->keyframes[idx]*(1-n) + k->keyframes[idx+1]*n;
        match k.keyframes[idx.toNat]?, k.keyframes[(idx + 1).toNat]? with
        | some a, some b =>
          some (CFloat.add (CFloat.mul a (CFloat.sub (CFloat.of_int 1) n)) (CFloat.mul b n))
        | _, _ => none

/-! ## Properties of `hd_util_rotate_geometry` -/

theorem toGint_toGuint (z : Int) : toGint (toGuint z) = toGint z := by
  unfold toGint toGuint; omega

theorem toGint_of_isGint {z : Int} (h : isGint z) : toGint z = z := by
  unfold isGint at h; unfold toGint; omega

theorem toGuint_toGint_natCast {n : Nat} (h : isGuint n) :
    (toGuint (toGint (n : Int))).toNat = n := by
  unfold isGuint at h; unfold toGint toGuint; omega

/-- The 32-bit unsigned evaluation `s - (t + d)` of the C expression, stored in
a `gint`, is the integer difference reduced to the `gint` range. -/
theorem toGint_c_difference (s t d : Int) :
    toGint (toGuint (s - toGuint (toGuint t + d))) = toGint (s - (t + d)) := by
  unfold toGint toGuint; omega

theorem hd_util_rotate_geometry_eq_rotate_rect (geo : ClutterGeometry) (scrw scrh : Nat)
    (hw : isGuint geo.width) :
    hd_util_rotate_geometry geo scrw scrh = rotate_rect geo scrw scrh := by
  unfold hd_util_rotate_geometry rotate_rect
  by_cases h : scrw > scrh
  · rw [if_pos h, if_pos h]
    dsimp only
    rw [toGint_c_difference, toGuint_toGint_natCast hw]
  · rw [if_neg h, if_neg h]
    dsimp only
    rw [toGint_c_difference, toGuint_toGint_natCast hw]

theorem rotate_rect_width_isGuint (r : ClutterGeometry) (w h : Nat)
    (hr : isGuint r.height) : isGuint (rotate_rect r w h).1.width := by
  unfold rotate_rect; split <;> exact hr

theorem rotate_rect_involution (r : ClutterGeometry) (w h : Nat) (hr : r.wf)
    (hne : w ≠ h) : (rotate_rect (rotate_rect r w h).1 h w).1 = r := by
  obtain ⟨hx, hy, -, -⟩ := hr
  unfold isGint at hx hy
  obtain ⟨x, y, W, H⟩ := r
  simp only at hx hy
  unfold rotate_rect
  by_cases h1 : w > h
  · have h2 : ¬ h > w := by omega
    rw [if_pos h1, if_neg h2]
    simp only [ClutterGeometry.mk.injEq, and_true, true_and]
    unfold toGint; omega
  · have h2 : h > w := by omega
    rw [if_neg h1, if_pos h2]
    simp only [ClutterGeometry.mk.injEq, and_true, true_and]
    unfold toGint; omega

/-- C1 (as stated, refuted): on a square screen the second rotation does not
undo the first.  Rotating the rectangle `(0, 0, 1, 1)` with screen `(10, 10)`
and then again with the swapped screen `(10, 10)` gives `(9, 9, 1, 1)`. -/
theorem C1_square_screen_not_restored :
    (hd_util_rotate_geometry
        (hd_util_rotate_geometry ⟨0, 0, 1, 1⟩ 10 10).1 10 10).1 = ⟨9, 9, 1, 1⟩
      ∧ (hd_util_rotate_geometry
          (hd_util_rotate_geometry ⟨0, 0, 1, 1⟩ 10 10).1 10 10).1
        ≠ (⟨0, 0, 1, 1⟩ : ClutterGeometry) := by
  decide

/-- C1 (amended): for every rectangle `R` whose fields are representable and
every pair of screen dimensions `w ≠ h`, applying `hd_util_rotate_geometry` to
`R` with `(w, h)` and then to the result with `(h, w)` yields `R` again: x, y,
width and height all equal the original, exactly, in 32-bit arithmetic. -/
theorem C1_rotate_geometry_round_trip (R : ClutterGeometry) (w h : Nat)
    (hR : R.wf) (hne : w ≠ h) :
    (hd_util_rotate_geometry (hd_util_rotate_geometry R w h).1 h w).1 = R := by
  rw [hd_util_rotate_geometry_eq_rotate_rect R w h hR.2.2.1]
  rw [hd_util_rotate_geometry_eq_rotate_rect _ h w
    (rotate_rect_width_isGuint R w h hR.2.2.2)]
  exact rotate_rect_involution R w h hR hne

/-- Witness for C1: a portrait rectangle on an 800x480 screen, including a
coordinate that becomes negative on the way. -/
theorem C1_rotate_geometry_round_trip_witness :
    (⟨-5, 700, 480, 56⟩ : ClutterGeometry).wf ∧ (800 : Nat) ≠ 480 ∧
    (hd_util_rotate_geometry
      (hd_util_rotate_geometry ⟨-5, 700, 480, 56⟩ 800 480).1 480 800).1
      = ⟨-5, 700, 480, 56⟩ :=
  ⟨by decide, by decide,
   C1_rotate_geometry_round_trip ⟨-5, 700, 480, 56⟩ 800 480 (by decide) (by decide)⟩

theorem float_to_int_of_nonneg {v : ℚ} (h0 : 0 ≤ v) (h1 : ⌊v⌋ < 2147483648) :
    float_to_int v = some ⌊v⌋ := by
  have hf : 0 ≤ ⌊v⌋ := Int.floor_nonneg.mpr h0
  unfold float_to_int
  simp only [h0, if_true]
  rw [if_pos ⟨by omega, h1⟩]

theorem float_to_int_of_neg {v : ℚ} (h0 : v < 0) (h1 : -2147483648 ≤ ⌈v⌉) :
    float_to_int v = some ⌈v⌉ := by
  have hc : ⌈v⌉ ≤ 0 := Int.ceil_le.mpr (by exact_mod_cast h0.le)
  unfold float_to_int
  simp only [not_le.mpr h0, if_false]
  rw [if_pos ⟨h1, by omega⟩]

/-- The three ways through `hd_key_frame_interpolate` once `(int)v` is known. -/
theorem hd_key_frame_interpolate_of_idx (k : HdKeyFrameList) (x : ℚ) (idx : Int)
    (h2 : 2 ≤ k.count)
    (hf : float_to_int (x * ((k.count - 1 : Int) : ℚ)) = some idx) :
    hd_key_frame_interpolate (some k) x =
      if idx ≥ k.count - 1 then
        (match k.keyframes[(k.count - 2).toNat]?, k.keyframes[(k.count - 2 + 1).toNat]? with
         | some a, some b => some (a * (1 - 1) + b * 1)
         | _, _ => none)
      else if idx < 0 then
        (match k.keyframes[0]?, k.keyframes[1]? with
         | some a, some b => some (a * (1 - 0) + b * 0)
         | _, _ => none)
      else
        (match k.keyframes[idx.toNat]?, k.keyframes[(idx + 1).toNat]? with
         | some a, some b =>
            some (a * (1 - (x * ((k.count - 1 : Int) : ℚ) - idx))
              + b * (x * ((k.count - 1 : Int) : ℚ) - idx))
         | _, _ => none) := by
  unfold hd_key_frame_interpolate
  simp only [not_lt.mpr h2, if_false, hf]
  by_cases c1 : idx ≥ k.count - 1
  · have c2 : ¬ (k.count - 2 < 0) := by omega
    simp only [c1, if_true, c2, if_false]
  · by_cases c2 : idx < 0
    · simp only [c1, if_false, c2, if_true]
      rfl
    · simp only [c1, if_false, c2]

theorem getElem?_eq_some_getD (l : List ℚ) (i : Nat) (h : i < l.length) :
    l[i]? = some (l.getD i 0) := by
  rw [List.getD_eq_getElem?_getD, List.getElem?_eq_getElem h]; rfl

/-- Inside `[0, 1)` no clamp applies: the value is the linear interpolation
between the bracketing key frames `⌊v⌋` and `⌊v⌋ + 1`. -/
theorem hd_key_frame_interpolate_inner (k : HdKeyFrameList) (hwf : k.wf)
    (h2 : 2 ≤ k.count) (x : ℚ) (hx0 : 0 ≤ x) (hx1 : x < 1) :
    0 ≤ ⌊x * ((k.count - 1 : Int) : ℚ)⌋
    ∧ ⌊x * ((k.count - 1 : Int) : ℚ)⌋.toNat + 1 < k.keyframes.length
    ∧ hd_key_frame_interpolate (some k) x =
      some (k.keyframes.getD ⌊x * ((k.count - 1 : Int) : ℚ)⌋.toNat 0
              * (1 - (x * ((k.count - 1 : Int) : ℚ) - ⌊x * ((k.count - 1 : Int) : ℚ)⌋))
            + k.keyframes.getD (⌊x * ((k.count - 1 : Int) : ℚ)⌋.toNat + 1) 0
              * (x * ((k.count - 1 : Int) : ℚ) - ⌊x * ((k.count - 1 : Int) : ℚ)⌋)) := by
  obtain ⟨hlen, hcl, hcu⟩ := hwf
  have hc : (0 : ℚ) < ((k.count - 1 : Int) : ℚ) := by
    have : (0 : Int) < k.count - 1 := by omega
    exact_mod_cast this
  set v : ℚ := x * ((k.count - 1 : Int) : ℚ) with hv
  have hv0 : 0 ≤ v := mul_nonneg hx0 hc.le
  have hv1 : v < ((k.count - 1 : Int) : ℚ) := by
    have := mul_lt_mul_of_pos_right hx1 hc
    simpa [hv] using this
  have hf0 : 0 ≤ ⌊v⌋ := Int.floor_nonneg.mpr hv0
  have hf1 : ⌊v⌋ < k.count - 1 := Int.floor_lt.mpr hv1
  have hi : ⌊v⌋.toNat + 1 < k.keyframes.length := by omega
  have hfi : float_to_int v = some ⌊v⌋ := float_to_int_of_nonneg hv0 (by omega)
  refine ⟨hf0, hi, ?_⟩
  rw [hd_key_frame_interpolate_of_idx k x ⌊v⌋ h2 hfi]
  rw [if_neg (by omega), if_neg (by omega)]
  have e : (⌊v⌋ + 1).toNat = ⌊v⌋.toNat + 1 := by omega
  rw [e, getElem?_eq_some_getD _ _ (by omega), getElem?_eq_some_getD _ _ hi]

/-- At `x = 0` the value is the first key frame. -/
theorem hd_key_frame_interpolate_zero (k : HdKeyFrameList) (hwf : k.wf)
    (h2 : 2 ≤ k.count) :
    hd_key_frame_interpolate (some k) 0 = k.keyframes.head? := by
  obtain ⟨-, -, he⟩ := hd_key_frame_interpolate_inner k hwf h2 0 le_rfl one_pos
  rw [he]
  obtain ⟨hlen, -⟩ := hwf
  cases hk : k.keyframes with
  | nil => rw [hk] at hlen; simp at hlen; omega
  | cons a l => simp

/-- At `x = 1` the index is clamped to `count - 2` with weight 1: the value is
the last key frame. -/
theorem hd_key_frame_interpolate_one (k : HdKeyFrameList) (hwf : k.wf)
    (h2 : 2 ≤ k.count) :
    hd_key_frame_interpolate (some k) 1 = k.keyframes.getLast? := by
  obtain ⟨hlen, hcl, hcu⟩ := hwf
  have hf : float_to_int (1 * ((k.count - 1 : Int) : ℚ)) = some (k.count - 1) := by
    have h0 : (0 : ℚ) ≤ 1 * ((k.count - 1 : Int) : ℚ) := by
      have : (0 : Int) ≤ k.count - 1 := by omega
      rw [one_mul]; exact_mod_cast this
    have e : ⌊(1 : ℚ) * ((k.count - 1 : Int) : ℚ)⌋ = k.count - 1 := by
      rw [one_mul, Int.floor_intCast]
    have := float_to_int_of_nonneg h0 (by rw [e]; omega)
    rwa [e] at this
  rw [hd_key_frame_interpolate_of_idx k 1 (k.count - 1) h2 hf, if_pos le_rfl]
  have e1 : (k.count - 2 + 1).toNat = k.keyframes.length - 1 := by omega
  have e2 : (k.count - 2).toNat = k.keyframes.length - 2 := by omega
  rw [e1, e2, getElem?_eq_some_getD _ _ (by omega), getElem?_eq_some_getD _ _ (by omega),
    List.getLast?_eq_getElem?, getElem?_eq_some_getD _ _ (by omega)]
  simp

/-! ## Properties of `hd_key_frame_list_create` -/

theorem splitOn_comma_cons (r : List Char) :
    (',' :: r).splitOn ',' = [] :: r.splitOn ',' := by
  simp [List.splitOn]

theorem splitOn_other_cons (c : Char) (hc : c ≠ ',') (r : List Char) :
    (c :: r).splitOn ',' = (r.splitOn ',').modifyHead (List.cons c) := by
  simp [List.splitOn, hc]

/-- Splitting on commas, one piece at a time: the piece before the first comma,
then the split of what follows that comma. -/
theorem splitOn_comma_eq (p : List Char) :
    p.splitOn ',' =
      p.takeWhile (fun c => c ≠ ',') ::
        (match p.dropWhile (fun c => c ≠ ',') with
         | [] => []
         | _ :: next => next.splitOn ',') := by
  induction p with
  | nil => rfl
  | cons c r ih =>
    by_cases hc : c = ','
    · subst hc
      rw [splitOn_comma_cons]
      simp
    · rw [splitOn_other_cons c hc, ih]
      simp [hc]

theorem length_splitOn_comma (p : List Char) :
    (p.splitOn ',').length = p.count ',' + 1 := by
  induction p with
  | nil => rfl
  | cons c r ih =>
    by_cases hc : c = ','
    · subst hc
      rw [splitOn_comma_cons]
      simp [ih]
    · rw [splitOn_other_cons c hc, List.length_modifyHead, ih,
        List.count_cons_of_ne (Ne.symm hc)]

theorem splitOn_comma_ne_nil (p : List Char) : p.splitOn ',' ≠ [] := by
  intro h
  have := length_splitOn_comma p
  rw [h] at this
  simp at this

/-- The number of segments is the segment count of the specification. -/
theorem length_segments (s : List Char) : (segments s).length = segment_count s := by
  unfold segments segment_count
  split
  · rw [List.length_dropLast, length_splitOn_comma]; simp
  · rw [length_splitOn_comma]

theorem scan_count_eq_segment_count (s : List Char) : scan_count s = segment_count s := by
  unfold scan_count segment_count
  by_cases h : s.getLast? = some ','
  · simp [h]
  · simp [h]

/-- The segments of a non-empty string, in the order in which the reading loop
meets them: the piece before the first comma, then the segments of what
follows it, unless nothing follows. -/
theorem segments_eq (p : List Char) :
    segments p =
      p.takeWhile (fun c => c ≠ ',') ::
        (match p.dropWhile (fun c => c ≠ ',') with
         | [] => []
         | _ :: next => if next = [] then [] else segments next) := by
  have hsplit := splitOn_comma_eq p
  have happ := List.takeWhile_append_dropWhile (fun c => decide (c ≠ ',')) p
  cases hd : p.dropWhile (fun c => c ≠ ',') with
  | nil =>
    rw [hd] at hsplit happ
    simp only at hsplit ⊢
    rw [List.append_nil] at happ
    have hlast : p.getLast? ≠ some ',' := by
      intro hl
      have hmem : ',' ∈ p := List.mem_of_getLast?_eq_some hl
      rw [← happ] at hmem
      have := List.mem_takeWhile_imp hmem
      simp at this
    unfold segments
    rw [if_neg hlast, hsplit]
  | cons c next =>
    rw [hd] at hsplit happ
    simp only at hsplit ⊢
    have hc : c = ',' := by
      have := List.head?_dropWhile_not (fun c => decide (c ≠ ',')) p
      rw [hd] at this
      simpa using this
    subst hc
    by_cases hn : next = []
    · subst hn
      have hlast : p.getLast? = some ',' := by
        rw [← happ]; simp
      unfold segments
      rw [if_pos hlast, hsplit, if_pos rfl]
      rfl
    · have hlast : p.getLast? = next.getLast? := by
        rw [← happ, List.getLast?_append, List.getLast?_cons]
        cases hnl : next.getLast? with
        | none => exact absurd (List.getLast?_eq_none_iff.mp hnl) hn
        | some a => simp
      rw [if_neg hn]
      unfold segments
      rw [hlast, hsplit]
      split
      · rw [List.dropLast_cons_of_ne_nil (splitOn_comma_ne_nil next)]
      · rfl

theorem take_succ_set (arr : List ℚ) (i : Nat) (a : ℚ) (h : i < arr.length) :
    (arr.set i a).take (i + 1) = arr.take i ++ [a] := by
  rw [List.set_eq_take_append_cons_drop, if_pos h, List.take_append_eq_append_take]
  have hl : (arr.take i).length = i := by rw [List.length_take]; omega
  rw [hl, List.take_of_length_le (by omega)]
  simp

/-- The reading loop stores the `atof` of the segments of `p`, in order, at the
indices from `i` on, and returns the index after the last store. -/
theorem read_keys_eq (atof : List Char → ℚ) :
    ∀ (fuel : Nat) (p : List Char) (i : Nat) (arr : List ℚ),
      p ≠ [] → p.length < fuel → i + (segments p).length ≤ arr.length →
      read_keys atof fuel p i arr =
        some (i + (segments p).length,
          arr.take i ++ (segments p).map atof ++ arr.drop (i + (segments p).length)) := by
  intro fuel
  induction fuel with
  | zero => intro p i arr _ h; omega
  | succ fuel ih =>
    intro p i arr hp hlen hroom
    have hseg := segments_eq p
    have happ := List.takeWhile_append_dropWhile (fun c => decide (c ≠ ',')) p
    have hfuel : 0 < fuel := by
      cases p with
      | nil => exact absurd rfl hp
      | cons c r => simp at hlen; omega
    obtain ⟨f, rfl⟩ : ∃ f, fuel = f + 1 := ⟨fuel - 1, by omega⟩
    rw [read_keys, if_neg hp]
    cases hd : p.dropWhile (fun c => c ≠ ',') with
    | nil =>
      rw [hd] at hseg
      simp only at hseg
      rw [hseg] at hroom ⊢
      simp only [List.length_singleton] at hroom ⊢
      have hi : i < arr.length := by omega
      simp only [hi, if_true]
      rw [read_keys, if_pos rfl, List.set_eq_take_append_cons_drop, if_pos hi]
      simp
    | cons c next =>
      rw [hd] at hseg happ
      simp only at hseg
      by_cases hn : next = []
      · subst hn
        rw [if_pos rfl] at hseg
        rw [hseg] at hroom ⊢
        simp only [List.length_singleton] at hroom ⊢
        have hi : i < arr.length := by omega
        simp only [hi, if_true]
        rw [read_keys, if_pos rfl, List.set_eq_take_append_cons_drop, if_pos hi]
        simp
      · rw [if_neg hn] at hseg
        rw [hseg] at hroom ⊢
        simp only [List.length_cons] at hroom ⊢
        have hi : i < arr.length := by omega
        simp only [hi, if_true]
        have hnl : next.length < f + 1 := by
          have := congrArg List.length happ
          simp only [List.length_append, List.length_cons] at this
          omega
        rw [ih next (i + 1) _ hn hnl (by rw [List.length_set]; omega)]
        rw [take_succ_set arr i _ hi, List.drop_set_of_lt _ _ (by omega)]
        have e : i + 1 + (segments next).length = i + ((segments next).length + 1) := by omega
        rw [e]
        simp

theorem segment_count_lt_two_of_length_le_one (s : List Char) (h : s.length ≤ 1) :
    segment_count s < 2 := by
  match s, h with
  | [], _ => decide
  | [c], _ =>
    unfold segment_count
    by_cases hc : c = ','
    · subst hc; decide
    · have : List.count ',' [c] = 0 := List.count_eq_zero.mpr (by simpa using Ne.symm hc)
      rw [this]
      simp [hc]

/-- The fallback path: null pointer, `strlen <= 1`, or fewer than two
segments. -/
theorem hd_key_frame_list_create_fallback (atof : List Char → ℚ) :
    hd_key_frame_list_create atof none = some key_frame_ramp
    ∧ (∀ s : List Char, s.length ≤ 1 →
        hd_key_frame_list_create atof (some s) = some key_frame_ramp)
    ∧ (∀ s : List Char, segment_count s < 2 →
        hd_key_frame_list_create atof (some s) = some key_frame_ramp) := by
  refine ⟨rfl, ?_, ?_⟩
  · intro s hs
    unfold hd_key_frame_list_create
    simp only [hs, if_true]
  · intro s hs
    unfold hd_key_frame_list_create
    by_cases hl : s.length ≤ 1
    · simp only [hl, if_true]
    · simp only [hl, if_false, scan_count_eq_segment_count, hs, if_true]

/-- The regular path: with two segments or more the result holds the `atof`
of every segment, in input order, and `count` is their number. -/
theorem hd_key_frame_list_create_segments (atof : List Char → ℚ) (s : List Char)
    (h : 2 ≤ segment_count s) :
    hd_key_frame_list_create atof (some s)
      = some ⟨(segments s).map atof, ((segments s).length : Int)⟩ := by
  have hl : ¬ s.length ≤ 1 := fun hl => by
    have := segment_count_lt_two_of_length_le_one s hl
    omega
  have hne : s ≠ [] := by
    intro e; subst e; simp at hl
  unfold hd_key_frame_list_create
  simp only [hl, if_false, scan_count_eq_segment_count, not_lt.mpr h]
  rw [read_keys_eq atof (s.length + 1) s 0 _ hne (Nat.lt_succ_self _)
    (by rw [List.length_replicate, length_segments]; omega)]
  simp [length_segments]

theorem key_frame_ramp_wf : key_frame_ramp.wf := by
  unfold HdKeyFrameList.wf key_frame_ramp isGint
  simp

/-- On the fallback ramp the interpolation is the identity on `[0, 1]`. -/
theorem hd_key_frame_interpolate_ramp (x : ℚ) (hx0 : 0 ≤ x) (hx1 : x ≤ 1) :
    hd_key_frame_interpolate (some key_frame_ramp) x = some x := by
  rcases lt_or_eq_of_le hx1 with hlt | heq
  · obtain ⟨-, -, he⟩ :=
      hd_key_frame_interpolate_inner key_frame_ramp key_frame_ramp_wf (by decide) x hx0 hlt
    rw [he]
    have hf : ⌊x * (((key_frame_ramp.count - 1 : Int)) : ℚ)⌋ = 0 := by
      have : ((key_frame_ramp.count - 1 : Int) : ℚ) = 1 := by
        simp [key_frame_ramp]
      rw [this, mul_one]
      exact Int.floor_eq_zero_iff.mpr ⟨hx0, hlt⟩
    rw [hf]
    simp [key_frame_ramp]
  · subst heq
    rw [hd_key_frame_interpolate_one key_frame_ramp key_frame_ramp_wf (by decide)]
    rfl

/-- Every call of `hd_key_frame_list_create` yields a list: either the
fallback ramp or the parsed segments. -/
theorem hd_key_frame_list_create_cases (atof : List Char → ℚ) (keys : Option (List Char)) :
    hd_key_frame_list_create atof keys = some key_frame_ramp
    ∨ ∃ s, keys = some s ∧ 2 ≤ segment_count s ∧
        hd_key_frame_list_create atof keys
          = some ⟨(segments s).map atof, ((segments s).length : Int)⟩ := by
  cases keys with
  | none => exact Or.inl rfl
  | some s =>
    by_cases h : segment_count s < 2
    · exact Or.inl ((hd_key_frame_list_create_fallback atof).2.2 s h)
    · exact Or.inr ⟨s, rfl, not_lt.mp h,
        hd_key_frame_list_create_segments atof s (not_lt.mp h)⟩

theorem atof_decimal_of_parse_none (seg : List Char) (h : parse_decimal seg = none) :
    atof_decimal seg = 0 := by
  unfold atof_decimal; rw [h]

theorem atof_decimal_of_parse_some (seg : List Char) (neg : Bool) (m : Nat) (e : Int)
    (h : parse_decimal seg = some (neg, m, e)) :
    atof_decimal seg = decimal_value neg m e := by
  unfold atof_decimal; rw [h]

/-- The key frames of the string `0.0,0.5,1.0` under the decimal `atof`. -/
theorem create_example_keyframes :
    hd_key_frame_list_create atof_decimal (some "0.0,0.5,1.0".toList)
      = some ⟨[0, 1 / 2, 1], 3⟩ := by
  rw [hd_key_frame_list_create_segments atof_decimal _ (by decide)]
  have hs : segments "0.0,0.5,1.0".toList = ["0.0".toList, "0.5".toList, "1.0".toList] := by
    decide
  have h0 : atof_decimal "0.0".toList = 0 := by
    rw [atof_decimal_of_parse_some _ false 0 (-1) (by decide)]; norm_num [decimal_value]
  have h1 : atof_decimal "0.5".toList = 1 / 2 := by
    rw [atof_decimal_of_parse_some _ false 5 (-1) (by decide)]; norm_num [decimal_value]
  have h2 : atof_decimal "1.0".toList = 1 := by
    rw [atof_decimal_of_parse_some _ false 10 (-1) (by decide)]; norm_num [decimal_value]
  rw [hs]
  simp only [List.map_cons, List.map_nil, h0, h1, h2, List.length_cons, List.length_nil]
  rfl

/-- Just below zero the conversion `(int)v` truncates to index 0, no clamp
applies and the weight `n = v` is negative: the value is extrapolated from
the first two key frames. -/
theorem hd_key_frame_interpolate_just_below_zero (k : HdKeyFrameList) (hwf : k.wf)
    (h2 : 2 ≤ k.count) (x : ℚ) (hx : x < 0)
    (hv : -1 < x * ((k.count - 1 : Int) : ℚ)) :
    hd_key_frame_interpolate (some k) x =
      some (k.keyframes.getD 0 0 * (1 - x * ((k.count - 1 : Int) : ℚ))
            + k.keyframes.getD 1 0 * (x * ((k.count - 1 : Int) : ℚ))) := by
  obtain ⟨hlen, hcl, hcu⟩ := hwf
  have hc : (0 : ℚ) < ((k.count - 1 : Int) : ℚ) := by
    have : (0 : Int) < k.count - 1 := by omega
    exact_mod_cast this
  set v : ℚ := x * ((k.count - 1 : Int) : ℚ) with hvdef
  have hv0 : v < 0 := mul_neg_of_neg_of_pos hx hc
  have hceil : ⌈v⌉ = 0 := by
    rw [Int.ceil_eq_iff]
    refine ⟨?_, ?_⟩
    · simpa using hv
    · simpa using hv0.le
  have hfi : float_to_int v = some 0 := by
    have := float_to_int_of_neg hv0 (by rw [hceil]; norm_num)
    rwa [hceil] at this
  rw [hd_key_frame_interpolate_of_idx k x 0 h2 hfi]
  rw [if_neg (by omega), if_neg (by omega)]
  have e0 : (0 : Int).toNat = 0 := rfl
  have e1 : ((0 : Int) + 1).toNat = 1 := rfl
  rw [e0, e1, getElem?_eq_some_getD _ _ (by omega), getElem?_eq_some_getD _ _ (by omega)]
  simp only [Int.cast_zero, sub_zero]

/-- Above one, as long as `(int)v` is representable, the index is clamped to
`count - 2` with weight 1: the value is the last key frame. -/
theorem hd_key_frame_interpolate_above_one (k : HdKeyFrameList) (hwf : k.wf)
    (h2 : 2 ≤ k.count) (x : ℚ) (hx : 1 < x)
    (hv : ⌊x * ((k.count - 1 : Int) : ℚ)⌋ < 2147483648) :
    hd_key_frame_interpolate (some k) x = k.keyframes.getLast? := by
  obtain ⟨hlen, hcl, hcu⟩ := hwf
  have hc : (0 : ℚ) < ((k.count - 1 : Int) : ℚ) := by
    have : (0 : Int) < k.count - 1 := by omega
    exact_mod_cast this
  set v : ℚ := x * ((k.count - 1 : Int) : ℚ) with hvdef
  have hv1 : ((k.count - 1 : Int) : ℚ) ≤ v := by
    have := mul_le_mul_of_nonneg_right hx.le hc.le
    simpa [hvdef] using this
  have hfl : k.count - 1 ≤ ⌊v⌋ := Int.le_floor.mpr hv1
  have hfi : float_to_int v = some ⌊v⌋ := float_to_int_of_nonneg (hc.le.trans hv1) hv
  rw [hd_key_frame_interpolate_of_idx k x ⌊v⌋ h2 hfi, if_pos hfl]
  have e1 : (k.count - 2 + 1).toNat = k.keyframes.length - 1 := by omega
  have e2 : (k.count - 2).toNat = k.keyframes.length - 2 := by omega
  rw [e1, e2, getElem?_eq_some_getD _ _ (by omega), getElem?_eq_some_getD _ _ (by omega),
    List.getLast?_eq_getElem?, getElem?_eq_some_getD _ _ (by omega)]
  simp

/-- At or below `-1 / (count - 1)`, as long as `(int)v` is representable, the
index is negative and is clamped to 0 with weight 0: the value is the first
key frame. -/
theorem hd_key_frame_interpolate_far_below_zero (k : HdKeyFrameList) (hwf : k.wf)
    (h2 : 2 ≤ k.count) (x : ℚ) (hx : x * ((k.count - 1 : Int) : ℚ) ≤ -1)
    (hv : -2147483648 ≤ ⌈x * ((k.count - 1 : Int) : ℚ)⌉) :
    hd_key_frame_interpolate (some k) x = k.keyframes.head? := by
  obtain ⟨hlen, hcl, hcu⟩ := hwf
  set v : ℚ := x * ((k.count - 1 : Int) : ℚ) with hvdef
  have hv0 : v < 0 := lt_of_le_of_lt hx (by norm_num)
  have hceil : ⌈v⌉ ≤ -1 := Int.ceil_le.mpr (by simpa using hx)
  have hfi : float_to_int v = some ⌈v⌉ := float_to_int_of_neg hv0 hv
  rw [hd_key_frame_interpolate_of_idx k x ⌈v⌉ h2 hfi]
  rw [if_neg (by omega), if_pos (by omega)]
  rw [getElem?_eq_some_getD _ _ (by omega), getElem?_eq_some_getD _ _ (by omega)]
  cases hk : k.keyframes with
  | nil => rw [hk] at hlen; simp at hlen; omega
  | cons a l => simp

/-- At the knot `j / (count - 1)` the value is key frame `j`. -/
theorem hd_key_frame_interpolate_knot (k : HdKeyFrameList) (hwf : k.wf)
    (h2 : 2 ≤ k.count) (j : Nat) (hj : (j : Int) < k.count) :
    hd_key_frame_interpolate (some k) ((j : ℚ) / ((k.count - 1 : Int) : ℚ))
      = some (k.keyframes.getD j 0) := by
  have hc : (0 : ℚ) < ((k.count - 1 : Int) : ℚ) := by
    have : (0 : Int) < k.count - 1 := by omega
    exact_mod_cast this
  have hv : (j : ℚ) / ((k.count - 1 : Int) : ℚ) * ((k.count - 1 : Int) : ℚ) = (j : ℚ) :=
    div_mul_cancel₀ _ hc.ne'
  by_cases hlast : (j : Int) = k.count - 1
  · have hx : (j : ℚ) / ((k.count - 1 : Int) : ℚ) = 1 := by
      rw [div_eq_one_iff_eq hc.ne']
      exact_mod_cast hlast
    rw [hx, hd_key_frame_interpolate_one k hwf h2, List.getLast?_eq_getElem?]
    have e : k.keyframes.length - 1 = j := by
      have := hwf.1; omega
    rw [e, getElem?_eq_some_getD _ _ (by have := hwf.1; omega)]
  · have hjlt : (j : Int) < k.count - 1 := by omega
    have hx0 : (0 : ℚ) ≤ (j : ℚ) / ((k.count - 1 : Int) : ℚ) :=
      div_nonneg (Nat.cast_nonneg j) hc.le
    have hx1 : (j : ℚ) / ((k.count - 1 : Int) : ℚ) < 1 := by
      rw [div_lt_one hc]
      exact_mod_cast hjlt
    obtain ⟨-, -, he⟩ := hd_key_frame_interpolate_inner k hwf h2 _ hx0 hx1
    rw [he, hv]
    have hf : ⌊(j : ℚ)⌋ = (j : Int) := by
      have : ((j : Int) : ℚ) = (j : ℚ) := by norm_cast
      rw [← this, Int.floor_intCast]
    rw [hf]
    simp

/-! ## The key-frame claims -/

/-- C3: `hd_key_frame_list_create` returns exactly the two-entry ramp
`[0.0, 1.0]` for a null input, for every string of length 0 or 1, and for
every string whose segment count (commas, plus one when the last character is
not a comma) is less than 2, such as the empty string, `0.3` and `5,`; and it
never fails the caller: every input yields a list. -/
theorem C3_create_fallback_ramp (atof : List Char → ℚ) :
    hd_key_frame_list_create atof none = some ⟨[0, 1], 2⟩
    ∧ (∀ s : List Char, s.length ≤ 1 →
        hd_key_frame_list_create atof (some s) = some ⟨[0, 1], 2⟩)
    ∧ (∀ s : List Char, segment_count s < 2 →
        hd_key_frame_list_create atof (some s) = some ⟨[0, 1], 2⟩)
    ∧ hd_key_frame_list_create atof (some "".toList) = some ⟨[0, 1], 2⟩
    ∧ hd_key_frame_list_create atof (some "0.3".toList) = some ⟨[0, 1], 2⟩
    ∧ hd_key_frame_list_create atof (some "5,".toList) = some ⟨[0, 1], 2⟩
    ∧ (∀ keys : Option (List Char), ∃ k, hd_key_frame_list_create atof keys = some k) := by
  obtain ⟨h1, h2, h3⟩ := hd_key_frame_list_create_fallback atof
  refine ⟨h1, h2, h3, h2 _ (by decide), h3 _ (by decide), h3 _ (by decide), ?_⟩
  intro keys
  rcases hd_key_frame_list_create_cases atof keys with h | ⟨s, -, -, h⟩
  · exact ⟨_, h⟩
  · exact ⟨_, h⟩

/-- Witness for C3: the one-character string `,` and the one-segment string
`7.5,` both give the ramp. -/
theorem C3_create_fallback_ramp_witness :
    (",".toList).length ≤ 1
    ∧ hd_key_frame_list_create atof_decimal (some ",".toList) = some ⟨[0, 1], 2⟩
    ∧ segment_count "7.5,".toList < 2
    ∧ hd_key_frame_list_create atof_decimal (some "7.5,".toList) = some ⟨[0, 1], 2⟩ :=
  ⟨by decide, (C3_create_fallback_ramp atof_decimal).2.1 _ (by decide),
   by decide, (C3_create_fallback_ramp atof_decimal).2.2.1 _ (by decide)⟩

/-- C4: for every input string that splits on commas into `n >= 2` segments,
`hd_key_frame_list_create` returns a list of exactly `n` entries in input
order, entry `i` being `atof` of segment `i`, whatever the other segments
are.  Under the decimal `atof` a segment without a numeric prefix, the empty
segment included, gives `0`, and the string `0.0,0.5,1.0` gives the three
entries `[0.0, 0.5, 1.0]`. -/
theorem C4_create_parses_segments :
    (∀ (atof : List Char → ℚ) (s : List Char) (n : Nat),
        (segments s).length = n → 2 ≤ n →
        ∃ k, hd_key_frame_list_create atof (some s) = some k
          ∧ k.count = n ∧ k.keyframes.length = n
          ∧ k.keyframes = (segments s).map atof
          ∧ ∀ i, i < n → k.keyframes[i]? = (segments s)[i]?.map atof)
    ∧ (∀ seg : List Char, parse_decimal seg = none → atof_decimal seg = 0)
    ∧ parse_decimal [] = none
    ∧ hd_key_frame_list_create atof_decimal (some "0.0,0.5,1.0".toList)
        = some ⟨[0, 1 / 2, 1], 3⟩ := by
  refine ⟨?_, atof_decimal_of_parse_none, by decide, create_example_keyframes⟩
  intro atof s n hlen hn
  subst hlen
  refine ⟨_, hd_key_frame_list_create_segments atof s (by rw [← length_segments]; exact hn),
    rfl, by simp, rfl, ?_⟩
  intro i _
  simp

/-- Witness for C4: in `1,,x,-2.5e1` the empty and the non-numeric segment
give `0` in place and leave the other entries alone. -/
theorem C4_create_parses_segments_witness :
    (segments "1,,x,-2.5e1".toList).length = 4 ∧ 2 ≤ 4
    ∧ ∃ k, hd_key_frame_list_create atof_decimal (some "1,,x,-2.5e1".toList) = some k
        ∧ k.count = (4 : Nat) ∧ k.keyframes = [1, 0, 0, -25] := by
  refine ⟨by decide, by decide, ?_⟩
  obtain ⟨k, hk, hc, -, hkf, -⟩ :=
    C4_create_parses_segments.1 atof_decimal "1,,x,-2.5e1".toList 4 (by decide) (by decide)
  refine ⟨k, hk, hc, ?_⟩
  have hs : segments "1,,x,-2.5e1".toList
      = ["1".toList, [], "x".toList, "-2.5e1".toList] := by decide
  have h0 : atof_decimal "1".toList = 1 := by
    rw [atof_decimal_of_parse_some _ false 1 0 (by decide)]; norm_num [decimal_value]
  have h1 : atof_decimal [] = 0 := atof_decimal_of_parse_none _ (by decide)
  have h2 : atof_decimal "x".toList = 0 := atof_decimal_of_parse_none _ (by decide)
  have h3 : atof_decimal "-2.5e1".toList = -25 := by
    rw [atof_decimal_of_parse_some _ true 25 0 (by decide)]; norm_num [decimal_value]
  rw [hkf, hs]
  simp only [List.map_cons, List.map_nil, h0, h1, h2, h3]

/-- With exact arithmetic, `hd_key_frame_interpolate (k, 0.0)` is the first
key frame and `hd_key_frame_interpolate (k, 1.0)` is the last key frame of
every key-frame list with `count >= 2`. -/
theorem hd_key_frame_interpolate_endpoints_exact (k : HdKeyFrameList) (hwf : k.wf)
    (h2 : 2 ≤ k.count) :
    ∃ first last, k.keyframes.head? = some first ∧ k.keyframes.getLast? = some last
      ∧ hd_key_frame_interpolate (some k) 0 = some first
      ∧ hd_key_frame_interpolate (some k) 1 = some last := by
  have hlen : 2 ≤ k.keyframes.length := by
    have := hwf.1; omega
  have hne : k.keyframes ≠ [] := by
    intro e; rw [e] at hlen; simp at hlen
  refine ⟨k.keyframes.head hne, k.keyframes.getLast hne, List.head?_eq_head hne,
    List.getLast?_eq_getLast _ hne, ?_, ?_⟩
  · rw [hd_key_frame_interpolate_zero k hwf h2, List.head?_eq_head hne]
  · rw [hd_key_frame_interpolate_one k hwf h2, List.getLast?_eq_getLast _ hne]

/-- C6 (code defect): below zero the clamp is missed.  For the ramp `[0, 1]`
and `x = -1/2` the conversion `(int)v` truncates `-0.5` to index 0, which is
not negative, so the weight stays `-0.5` and the result is the extrapolated
value `-1/2` instead of the first key frame `0`. -/
theorem C6_interpolate_extrapolates_below_zero :
    (⟨[0, 1], 2⟩ : HdKeyFrameList).keyframes.head? = some 0
    ∧ hd_key_frame_interpolate (some ⟨[0, 1], 2⟩) (-1 / 2) = some (-1 / 2) := by
  refine ⟨rfl, ?_⟩
  have h := hd_key_frame_interpolate_just_below_zero ⟨[0, 1], 2⟩
    (by simp [HdKeyFrameList.wf, isGint]) (by decide) (-1 / 2) (by norm_num) (by norm_num)
  rw [h]
  norm_num

/-- C7: for every key-frame list `k` with count `n >= 2` and every `x` in
`[0, 1)`, with `v = x * (n - 1)`, `i = floor v` and `t = v - i`, both `i` and
`i + 1` are indices of the list and
`hd_key_frame_interpolate (k, x) = k[i] * (1 - t) + k[i+1] * t`, the arithmetic
taken exactly; at every knot `x = j / (n - 1)` the value is `k[j]`; and for
the list parsed from `0.0,0.5,1.0` the value at `x = 0.5` is `0.5`. -/
theorem C7_interpolate_piecewise_linear :
    (∀ (k : HdKeyFrameList), k.wf → 2 ≤ k.count → ∀ x : ℚ, 0 ≤ x → x < 1 →
        0 ≤ ⌊x * ((k.count - 1 : Int) : ℚ)⌋
        ∧ ⌊x * ((k.count - 1 : Int) : ℚ)⌋.toNat + 1 < k.keyframes.length
        ∧ hd_key_frame_interpolate (some k) x =
          some (k.keyframes.getD ⌊x * ((k.count - 1 : Int) : ℚ)⌋.toNat 0
                  * (1 - (x * ((k.count - 1 : Int) : ℚ) - ⌊x * ((k.count - 1 : Int) : ℚ)⌋))
                + k.keyframes.getD (⌊x * ((k.count - 1 : Int) : ℚ)⌋.toNat + 1) 0
                  * (x * ((k.count - 1 : Int) : ℚ) - ⌊x * ((k.count - 1 : Int) : ℚ)⌋)))
    ∧ (∀ (k : HdKeyFrameList), k.wf → 2 ≤ k.count → ∀ j : Nat, (j : Int) < k.count →
        hd_key_frame_interpolate (some k) ((j : ℚ) / ((k.count - 1 : Int) : ℚ))
          = some (k.keyframes.getD j 0))
    ∧ (∃ k, hd_key_frame_list_create atof_decimal (some "0.0,0.5,1.0".toList) = some k
        ∧ hd_key_frame_interpolate (some k) (1 / 2) = some (1 / 2)) := by
  refine ⟨fun k hwf h2 x hx0 hx1 => hd_key_frame_interpolate_inner k hwf h2 x hx0 hx1,
    fun k hwf h2 j hj => hd_key_frame_interpolate_knot k hwf h2 j hj, ?_⟩
  refine ⟨_, create_example_keyframes, ?_⟩
  have h := hd_key_frame_interpolate_knot ⟨[0, 1 / 2, 1], 3⟩
    (by simp [HdKeyFrameList.wf, isGint]) (by decide) 1 (by decide)
  norm_num at h
  exact h

/-- Witness for C7: the list `[0, 4, 2]` at `x = 3/4`, between key frames 1 and
2 with weight `1/2`, gives `3`. -/
theorem C7_interpolate_piecewise_linear_witness :
    (⟨[0, 4, 2], 3⟩ : HdKeyFrameList).wf ∧ (2 : Int) ≤ 3 ∧ (0 : ℚ) ≤ 3 / 4 ∧ (3 / 4 : ℚ) < 1
    ∧ hd_key_frame_interpolate (some ⟨[0, 4, 2], 3⟩) (3 / 4) = some 3 := by
  have hwf : (⟨[0, 4, 2], 3⟩ : HdKeyFrameList).wf := by simp [HdKeyFrameList.wf, isGint]
  refine ⟨hwf, by decide, by norm_num, by norm_num, ?_⟩
  obtain ⟨-, -, h⟩ :=
    C7_interpolate_piecewise_linear.1 ⟨[0, 4, 2], 3⟩ hwf (by decide) (3 / 4)
      (by norm_num) (by norm_num)
  have hf : ⌊(3 / 4 : ℚ) * (((3 : Int) - 1 : Int) : ℚ)⌋ = 1 := by
    rw [Int.floor_eq_iff]; norm_num
  rw [h]
  simp only [hf]
  norm_num

/-- C8: a malformed key-frame specification degrades to a linear transition:
for every input on which `hd_key_frame_list_create` takes the fallback path
(null, length at most 1, or fewer than 2 segments) and every `x` in `[0, 1]`,
interpolating the created list at `x` gives `x`. -/
theorem C8_fallback_is_linear (atof : List Char → ℚ) (keys : Option (List Char))
    (hfall : keys = none ∨ ∃ s, keys = some s ∧ (s.length ≤ 1 ∨ segment_count s < 2))
    (x : ℚ) (hx0 : 0 ≤ x) (hx1 : x ≤ 1) :
    ∃ k, hd_key_frame_list_create atof keys = some k
      ∧ hd_key_frame_interpolate (some k) x = some x := by
  refine ⟨key_frame_ramp, ?_, hd_key_frame_interpolate_ramp x hx0 hx1⟩
  obtain ⟨h1, h2, h3⟩ := hd_key_frame_list_create_fallback atof
  rcases hfall with rfl | ⟨s, rfl, hs | hs⟩
  · exact h1
  · exact h2 s hs
  · exact h3 s hs

/-- Witness for C8: the single-value string `0.3`, sampled at `x = 2/5`. -/
theorem C8_fallback_is_linear_witness :
    segment_count "0.3".toList < 2 ∧ (0 : ℚ) ≤ 2 / 5 ∧ (2 / 5 : ℚ) ≤ 1
    ∧ ∃ k, hd_key_frame_list_create atof_decimal (some "0.3".toList) = some k
      ∧ hd_key_frame_interpolate (some k) (2 / 5) = some (2 / 5) :=
  ⟨by decide, by norm_num, by norm_num,
   C8_fallback_is_linear atof_decimal (some "0.3".toList)
     (Or.inr ⟨_, rfl, Or.inr (by decide)⟩) (2 / 5) (by norm_num) (by norm_num)⟩

/-- C9: every list returned by `hd_key_frame_list_create`, for every input
(null or any string), has `count >= 2` and holds exactly `count` key-frame
values, each of them assigned: they are the two values of the ramp or the
`atof` of the segments. -/
theorem C9_create_count_invariant (atof : List Char → ℚ) (keys : Option (List Char)) :
    ∃ k, hd_key_frame_list_create atof keys = some k
      ∧ 2 ≤ k.count ∧ (k.keyframes.length : Int) = k.count
      ∧ (k.keyframes = [0, 1]
          ∨ ∃ s, keys = some s ∧ k.keyframes = (segments s).map atof) := by
  rcases hd_key_frame_list_create_cases atof keys with h | ⟨s, hk, hs, h⟩
  · exact ⟨_, h, by decide, by decide, Or.inl rfl⟩
  · refine ⟨_, h, ?_, by simp, Or.inr ⟨s, hk, rfl⟩⟩
    rw [length_segments]
    show (2 : Int) ≤ ((segment_count s : Nat) : Int)
    exact_mod_cast hs

/-! ## Properties of `hd_desktop_stack` -/

theorem delete_view_marks_prop (applets : List Window) (dpy : Display) (w : Window) :
    (delete_view_marks applets dpy).on_current_desktop w
      = if w ∈ applets then none else dpy.on_current_desktop w := by
  induction applets generalizing dpy with
  | nil => simp [delete_view_marks]
  | cons a l ih =>
    rw [delete_view_marks, ih]
    by_cases hl : w ∈ l
    · simp [hl]
    · by_cases ha : w = a
      · simp [ha, XDeleteProperty]
      · simp [hl, ha, XDeleteProperty]

theorem delete_not_visible_marks_prop (views : List (List Window)) (dpy : Display)
    (w : Window) :
    (delete_not_visible_marks views dpy).on_current_desktop w
      = if ∃ v ∈ views, w ∈ v then none else dpy.on_current_desktop w := by
  induction views generalizing dpy with
  | nil => simp [delete_not_visible_marks]
  | cons v l ih =>
    rw [delete_not_visible_marks, ih, delete_view_marks_prop]
    by_cases hl : ∃ v ∈ l, w ∈ v
    · have : ∃ u ∈ v :: l, w ∈ u := by
        obtain ⟨u, hu, hw⟩ := hl
        exact ⟨u, List.mem_cons_of_mem _ hu, hw⟩
      rw [if_pos hl, if_pos this]
    · rw [if_neg hl]
      by_cases hv : w ∈ v
      · rw [if_pos hv, if_pos ⟨v, List.mem_cons_self _ _, hv⟩]
      · have : ¬ ∃ u ∈ v :: l, w ∈ u := by
          rintro ⟨u, hu, hw⟩
          rcases List.mem_cons.mp hu with rfl | hu
          · exact hv hw
          · exact hl ⟨u, hu, hw⟩
        rw [if_neg hv, if_neg this]

theorem stack_current_applets_prop (need_desktop : Bool) (flags : Int)
    (applets : List Window) (dpy : Display) (w : Window) :
    (stack_current_applets need_desktop flags applets dpy).on_current_desktop w
      = if w ∈ applets then (if need_desktop then some 1 else none)
        else dpy.on_current_desktop w := by
  induction applets generalizing dpy with
  | nil => simp [stack_current_applets]
  | cons a l ih =>
    rw [stack_current_applets, ih]
    by_cases hl : w ∈ l
    · simp [hl]
    · by_cases ha : w = a
      · cases need_desktop <;> simp [ha, XChangeProperty, XDeleteProperty, mb_wm_client_stack]
      · cases need_desktop <;>
          simp [hl, ha, XChangeProperty, XDeleteProperty, mb_wm_client_stack]

theorem stack_transients_prop (is_home_applet : Window → Bool) (flags : Int)
    (ls : List Window) (dpy dpy' : Display)
    (h : stack_transients is_home_applet flags ls dpy = some dpy') :
    dpy'.on_current_desktop = dpy.on_current_desktop := by
  induction ls generalizing dpy with
  | nil =>
    simp only [stack_transients, Option.some.injEq] at h
    rw [← h]
  | cons l ls ih =>
    rw [stack_transients] at h
    split at h
    · exact absurd h (by simp)
    · rw [ih _ h]; rfl

theorem stack_transients_returns (is_home_applet : Window → Bool) (flags : Int)
    (ls : List Window) (dpy : Display) (h : ∀ l ∈ ls, is_home_applet l = false) :
    ∃ dpy', stack_transients is_home_applet flags ls dpy = some dpy' := by
  induction ls generalizing dpy with
  | nil => exact ⟨dpy, rfl⟩
  | cons l ls ih =>
    rw [stack_transients, h l (List.mem_cons_self _ _)]
    exact ih _ (fun l' hl' => h l' (List.mem_cons_of_mem _ hl'))

/-- The on-current-desktop property of every window after `hd_desktop_stack`. -/
theorem hd_desktop_stack_prop (inp : StackInputs) (client : Window) (flags : Int)
    (dpy dpy' : Display) (h : hd_desktop_stack inp client flags dpy = some dpy')
    (w : Window) :
    dpy'.on_current_desktop w =
      if ∃ v ∈ inp.not_visible_views, w ∈ v then none
      else if w ∈ inp.current_applets then (if inp.need_desktop then some 1 else none)
      else dpy.on_current_desktop w := by
  unfold hd_desktop_stack at h
  rw [stack_transients_prop _ _ _ _ _ h, delete_not_visible_marks_prop,
    stack_current_applets_prop]
  rfl

/-! ## The stacking claims -/

/-- C10 (as stated, refuted): when the render state does not need the desktop,
an applet of the active view does not carry the on-current-desktop property
after `hd_desktop_stack` returns.  Window 7 is the only applet of the active
view and carries the property with value 1 before the call. -/
theorem C10_active_applet_unmarked_without_desktop :
    ∃ dpy', hd_desktop_stack ⟨false, [7], [], [], fun _ => false⟩ 1 0
              ⟨fun _ => some 1, []⟩ = some dpy'
      ∧ dpy'.on_current_desktop 7 = none
      ∧ dpy'.on_current_desktop 7 ≠ some 1 :=
  ⟨_, rfl, by decide, by decide⟩

/-- C10 (amended): `hd_desktop_stack` returns whenever no transient of the
desktop is an applet, and after it returns, for every render state and every
prior property state, every applet window of a non-visible view has the
on-current-desktop property absent; every applet window of the active view
that is in no non-visible view has it present with value 1 when the render
state requires the desktop, and absent when it does not. -/
theorem C10_on_current_desktop_after_stack (inp : StackInputs) (client : Window)
    (flags : Int) (dpy : Display) :
    ((∀ l ∈ inp.transients, inp.is_home_applet l = false) →
        ∃ dpy', hd_desktop_stack inp client flags dpy = some dpy')
    ∧ ∀ dpy', hd_desktop_stack inp client flags dpy = some dpy' →
        (∀ v ∈ inp.not_visible_views, ∀ w ∈ v, dpy'.on_current_desktop w = none)
        ∧ (inp.need_desktop = true → ∀ w ∈ inp.current_applets,
            (∀ v ∈ inp.not_visible_views, w ∉ v) → dpy'.on_current_desktop w = some 1)
        ∧ (inp.need_desktop = false → ∀ w ∈ inp.current_applets,
            dpy'.on_current_desktop w = none) := by
  refine ⟨fun hassert => stack_transients_returns _ _ _ _ hassert, ?_⟩
  intro dpy' h
  have hp := hd_desktop_stack_prop inp client flags dpy dpy' h
  refine ⟨?_, ?_, ?_⟩
  · intro v hv w hw
    rw [hp w, if_pos ⟨v, hv, hw⟩]
  · intro hnd w hw hnot
    have : ¬ ∃ v ∈ inp.not_visible_views, w ∈ v := by
      rintro ⟨v, hv, hwv⟩
      exact hnot v hv hwv
    rw [hp w, if_neg this, if_pos hw, hnd]
    rfl
  · intro hnd w hw
    rw [hp w]
    by_cases hv : ∃ v ∈ inp.not_visible_views, w ∈ v
    · rw [if_pos hv]
    · rw [if_neg hv, if_pos hw, hnd]
      rfl

/-- Witness for C10: the active view holds windows 7 and 8, two other views
hold 9 and 10, 11; window 20 is a transient that is not an applet; before the
call 9 carries the property and 7 does not. -/
theorem C10_on_current_desktop_after_stack_witness :
    ∃ dpy', hd_desktop_stack ⟨true, [7, 8], [[9], [10, 11]], [20], fun w => decide (w < 20)⟩
              1 0 ⟨fun w => if w = 9 then some 1 else none, []⟩ = some dpy'
      ∧ dpy'.on_current_desktop 7 = some 1
      ∧ dpy'.on_current_desktop 9 = none := by
  obtain ⟨hret, hprop⟩ := C10_on_current_desktop_after_stack
    ⟨true, [7, 8], [[9], [10, 11]], [20], fun w => decide (w < 20)⟩ 1 0
    ⟨fun w => if w = 9 then some 1 else none, []⟩
  obtain ⟨dpy', h⟩ := hret (by decide)
  obtain ⟨ha, hb, -⟩ := hprop dpy' h
  exact ⟨dpy', h, hb rfl 7 (by decide) (by decide), ha [9] (by decide) 9 (by decide)⟩

/-! ## The requests issued by `hd_desktop_stack` -/

theorem stack_current_applets_requests (need_desktop : Bool) (flags : Int)
    (applets : List Window) (dpy : Display) :
    (stack_current_applets need_desktop flags applets dpy).requests
      = dpy.requests ++ applets.flatMap (current_applet_requests need_desktop flags) := by
  induction applets generalizing dpy with
  | nil => simp [stack_current_applets]
  | cons a l ih =>
    rw [stack_current_applets, ih]
    cases need_desktop <;>
      simp [current_applet_requests, XChangeProperty, XDeleteProperty, mb_wm_client_stack]

theorem delete_view_marks_requests (applets : List Window) (dpy : Display) :
    (delete_view_marks applets dpy).requests
      = dpy.requests ++ applets.map Request.delete_property := by
  induction applets generalizing dpy with
  | nil => simp [delete_view_marks]
  | cons a l ih =>
    rw [delete_view_marks, ih]
    simp [XDeleteProperty]

theorem delete_not_visible_marks_requests (views : List (List Window)) (dpy : Display) :
    (delete_not_visible_marks views dpy).requests
      = dpy.requests ++ views.flatten.map Request.delete_property := by
  induction views generalizing dpy with
  | nil => simp [delete_not_visible_marks]
  | cons v l ih =>
    rw [delete_not_visible_marks, ih, delete_view_marks_requests]
    simp

theorem stack_transients_requests (is_home_applet : Window → Bool) (flags : Int)
    (ls : List Window) (dpy dpy' : Display)
    (h : stack_transients is_home_applet flags ls dpy = some dpy') :
    dpy'.requests = dpy.requests ++ ls.map (fun l => Request.client_stack l flags)
    ∧ ∀ l ∈ ls, is_home_applet l = false := by
  induction ls generalizing dpy with
  | nil =>
    simp only [stack_transients, Option.some.injEq] at h
    subst h
    simp
  | cons l ls ih =>
    rw [stack_transients] at h
    by_cases hl : is_home_applet l = true
    · rw [if_pos hl] at h
      exact absurd h (by simp)
    · rw [if_neg hl] at h
      obtain ⟨h1, h2⟩ := ih _ h
      refine ⟨?_, ?_⟩
      · rw [h1]
        simp [mb_wm_client_stack]
      · intro l' hl'
        rcases List.mem_cons.mp hl' with rfl | hl'
        · simpa using hl
        · exact h2 l' hl'

/-- Every request of one call of `hd_desktop_stack`, in order.  They depend on
the inputs only, not on the property store. -/
theorem hd_desktop_stack_requests (inp : StackInputs) (client : Window) (flags : Int)
    (dpy dpy' : Display) (h : hd_desktop_stack inp client flags dpy = some dpy') :
    dpy'.requests = dpy.requests ++ stack_call_requests inp client flags
    ∧ ∀ l ∈ inp.transients, inp.is_home_applet l = false := by
  unfold hd_desktop_stack at h
  obtain ⟨h1, h2⟩ := stack_transients_requests _ _ _ _ _ h
  refine ⟨?_, h2⟩
  rw [h1, delete_not_visible_marks_requests, stack_current_applets_requests]
  simp [mb_wm_stack_move_top, stack_call_requests]

/-- Whether `hd_desktop_stack` returns depends on the inputs only. -/
theorem hd_desktop_stack_returns_iff (inp : StackInputs) (client : Window) (flags : Int)
    (dpy : Display) :
    (∃ dpy', hd_desktop_stack inp client flags dpy = some dpy')
      ↔ ∀ l ∈ inp.transients, inp.is_home_applet l = false := by
  constructor
  · rintro ⟨dpy', h⟩
    exact (hd_desktop_stack_requests inp client flags dpy dpy' h).2
  · intro h
    exact stack_transients_returns _ _ _ _ h

theorem filter_property_current_applet_requests (need_desktop : Bool) (flags : Int)
    (applets : List Window) :
    ((applets.flatMap (current_applet_requests need_desktop flags)).filter
        Request.is_property_request).length = applets.length := by
  induction applets with
  | nil => rfl
  | cons a l ih =>
    rw [List.flatMap_cons, List.filter_append, List.length_append, ih]
    cases need_desktop <;> simp [current_applet_requests, Request.is_property_request] <;> omega

theorem filter_change_current_applet_requests (need_desktop : Bool) (flags : Int)
    (applets : List Window) :
    ((applets.flatMap (current_applet_requests need_desktop flags)).filter
        Request.is_change_property).length
      = if need_desktop then applets.length else 0 := by
  induction applets with
  | nil => cases need_desktop <;> rfl
  | cons a l ih =>
    rw [List.flatMap_cons, List.filter_append, List.length_append, ih]
    cases need_desktop
    · simp [current_applet_requests, Request.is_change_property]
    · simp [current_applet_requests, Request.is_change_property]
      omega

theorem filter_stacking_current_applet_requests (need_desktop : Bool) (flags : Int)
    (applets : List Window) :
    (applets.flatMap (current_applet_requests need_desktop flags)).filter
        Request.is_stacking_request
      = applets.map (fun a => Request.client_stack a flags) := by
  induction applets with
  | nil => rfl
  | cons a l ih =>
    rw [List.flatMap_cons, List.filter_append, ih]
    cases need_desktop <;> simp [current_applet_requests, Request.is_stacking_request]

theorem stack_call_requests_property_count (inp : StackInputs) (client : Window)
    (flags : Int) :
    ((stack_call_requests inp client flags).filter Request.is_property_request).length
      = inp.current_applets.length + inp.not_visible_views.flatten.length := by
  unfold stack_call_requests
  rw [List.filter_append, List.filter_append, List.filter_append, List.length_append,
    List.length_append, List.length_append, filter_property_current_applet_requests]
  have e1 : (inp.not_visible_views.flatten.map Request.delete_property).filter
      Request.is_property_request
      = inp.not_visible_views.flatten.map Request.delete_property :=
    List.filter_eq_self.mpr (by
      intro a ha; obtain ⟨w, -, rfl⟩ := List.mem_map.mp ha; rfl)
  have e2 : (inp.transients.map (fun l => Request.client_stack l flags)).filter
      Request.is_property_request = [] :=
    List.filter_eq_nil_iff.mpr (by
      intro a ha; obtain ⟨w, -, rfl⟩ := List.mem_map.mp ha; simp [Request.is_property_request])
  rw [e1, e2, List.length_map]
  simp [Request.is_property_request]

theorem stack_call_requests_change_count (inp : StackInputs) (client : Window)
    (flags : Int) :
    ((stack_call_requests inp client flags).filter Request.is_change_property).length
      = if inp.need_desktop then inp.current_applets.length else 0 := by
  unfold stack_call_requests
  rw [List.filter_append, List.filter_append, List.filter_append, List.length_append,
    List.length_append, List.length_append, filter_change_current_applet_requests]
  have e1 : (inp.not_visible_views.flatten.map Request.delete_property).filter
      Request.is_change_property = [] :=
    List.filter_eq_nil_iff.mpr (by
      intro a ha; obtain ⟨w, -, rfl⟩ := List.mem_map.mp ha; simp [Request.is_change_property])
  have e2 : (inp.transients.map (fun l => Request.client_stack l flags)).filter
      Request.is_change_property = [] :=
    List.filter_eq_nil_iff.mpr (by
      intro a ha; obtain ⟨w, -, rfl⟩ := List.mem_map.mp ha; simp [Request.is_change_property])
  rw [e1, e2]
  simp [Request.is_change_property]

theorem stack_call_requests_stacking (inp : StackInputs) (client : Window)
    (flags : Int) :
    (stack_call_requests inp client flags).filter Request.is_stacking_request
      = Request.stack_move_top client
        :: (inp.current_applets.map (fun a => Request.client_stack a flags)
            ++ inp.transients.map (fun l => Request.client_stack l flags)) := by
  unfold stack_call_requests
  rw [List.filter_append, List.filter_append, List.filter_append,
    filter_stacking_current_applet_requests]
  have e1 : (inp.not_visible_views.flatten.map Request.delete_property).filter
      Request.is_stacking_request = [] :=
    List.filter_eq_nil_iff.mpr (by
      intro a ha; obtain ⟨w, -, rfl⟩ := List.mem_map.mp ha; simp [Request.is_stacking_request])
  have e2 : (inp.transients.map (fun l => Request.client_stack l flags)).filter
      Request.is_stacking_request
      = inp.transients.map (fun l => Request.client_stack l flags) :=
    List.filter_eq_self.mpr (by
      intro a ha; obtain ⟨w, -, rfl⟩ := List.mem_map.mp ha; rfl)
  rw [e1, e2]
  simp [Request.is_stacking_request]

/-! ## The stacking claims, continued -/

/-- C11: `hd_desktop_stack` is idempotent on the property store: for every view
list, active view, window list, render state and initial property store, a
second run with unchanged inputs returns as the first did and leaves the same
on-current-desktop property state as the first run. -/
theorem C11_stack_idempotent_on_properties (inp : StackInputs) (client : Window)
    (flags : Int) (dpy dpy1 : Display)
    (h1 : hd_desktop_stack inp client flags dpy = some dpy1) :
    ∃ dpy2, hd_desktop_stack inp client flags dpy1 = some dpy2
      ∧ dpy2.on_current_desktop = dpy1.on_current_desktop := by
  have hret := (hd_desktop_stack_returns_iff inp client flags dpy).mp ⟨dpy1, h1⟩
  obtain ⟨dpy2, h2⟩ := (hd_desktop_stack_returns_iff inp client flags dpy1).mpr hret
  refine ⟨dpy2, h2, ?_⟩
  funext w
  rw [hd_desktop_stack_prop inp client flags dpy1 dpy2 h2 w,
    hd_desktop_stack_prop inp client flags dpy dpy1 h1 w]
  by_cases hv : ∃ v ∈ inp.not_visible_views, w ∈ v
  · simp only [if_pos hv]
  · simp only [if_neg hv]
    by_cases hc : w ∈ inp.current_applets
    · simp only [if_pos hc]
    · simp only [if_neg hc]

/-- Witness for C11: two views, the desktop needed; windows 7 and 9 after the
second run are as after the first. -/
theorem C11_stack_idempotent_on_properties_witness :
    ∃ dpy1 dpy2,
      hd_desktop_stack ⟨true, [7, 8], [[9], [10, 11]], [20], fun w => decide (w < 20)⟩
        1 0 ⟨fun w => if w = 9 then some 1 else none, []⟩ = some dpy1
      ∧ hd_desktop_stack ⟨true, [7, 8], [[9], [10, 11]], [20], fun w => decide (w < 20)⟩
        1 0 dpy1 = some dpy2
      ∧ dpy2.on_current_desktop = dpy1.on_current_desktop
      ∧ dpy2.on_current_desktop 7 = some 1 ∧ dpy2.on_current_desktop 9 = none := by
  obtain ⟨dpy2, h2, he⟩ := C11_stack_idempotent_on_properties
    ⟨true, [7, 8], [[9], [10, 11]], [20], fun w => decide (w < 20)⟩ 1 0
    ⟨fun w => if w = 9 then some 1 else none, []⟩ _ rfl
  refine ⟨_, dpy2, rfl, h2, he, ?_, ?_⟩
  · rw [he]; decide
  · rw [he]; decide

theorem filter_property_list_current_applet_requests (need_desktop : Bool) (flags : Int)
    (applets : List Window) :
    (applets.flatMap (current_applet_requests need_desktop flags)).filter
        Request.is_property_request
      = applets.map (fun a =>
          if need_desktop then Request.change_property a 1 else Request.delete_property a) := by
  induction applets with
  | nil => rfl
  | cons a l ih =>
    rw [List.flatMap_cons, List.filter_append, ih]
    cases need_desktop <;> simp [current_applet_requests, Request.is_property_request]

theorem filter_change_list_current_applet_requests (need_desktop : Bool) (flags : Int)
    (applets : List Window) :
    (applets.flatMap (current_applet_requests need_desktop flags)).filter
        Request.is_change_property
      = if need_desktop then applets.map (fun a => Request.change_property a 1) else [] := by
  induction applets with
  | nil => cases need_desktop <;> rfl
  | cons a l ih =>
    rw [List.flatMap_cons, List.filter_append, ih]
    cases need_desktop <;> simp [current_applet_requests, Request.is_change_property]

/-- The property requests of one call, in order: one per applet of the active
view, then one deletion per applet of the non-visible views. -/
theorem stack_call_requests_property_requests (inp : StackInputs) (client : Window)
    (flags : Int) :
    (stack_call_requests inp client flags).filter Request.is_property_request
      = inp.current_applets.map (fun a =>
          if inp.need_desktop then Request.change_property a 1 else Request.delete_property a)
        ++ inp.not_visible_views.flatten.map Request.delete_property := by
  unfold stack_call_requests
  rw [List.filter_append, List.filter_append, List.filter_append,
    filter_property_list_current_applet_requests]
  have e1 : (inp.not_visible_views.flatten.map Request.delete_property).filter
      Request.is_property_request
      = inp.not_visible_views.flatten.map Request.delete_property :=
    List.filter_eq_self.mpr (by
      intro a ha; obtain ⟨w, -, rfl⟩ := List.mem_map.mp ha; rfl)
  have e2 : (inp.transients.map (fun l => Request.client_stack l flags)).filter
      Request.is_property_request = [] :=
    List.filter_eq_nil_iff.mpr (by
      intro a ha; obtain ⟨w, -, rfl⟩ := List.mem_map.mp ha; simp [Request.is_property_request])
  rw [e1, e2]
  simp [Request.is_property_request]

/-- The property writes of one call: value 1 on every applet of the active
view when the render state requires the desktop, none otherwise. -/
theorem stack_call_requests_change_requests (inp : StackInputs) (client : Window)
    (flags : Int) :
    (stack_call_requests inp client flags).filter Request.is_change_property
      = if inp.need_desktop then
          inp.current_applets.map (fun a => Request.change_property a 1)
        else [] := by
  unfold stack_call_requests
  rw [List.filter_append, List.filter_append, List.filter_append,
    filter_change_list_current_applet_requests]
  have e1 : (inp.not_visible_views.flatten.map Request.delete_property).filter
      Request.is_change_property = [] :=
    List.filter_eq_nil_iff.mpr (by
      intro a ha; obtain ⟨w, -, rfl⟩ := List.mem_map.mp ha; simp [Request.is_change_property])
  have e2 : (inp.transients.map (fun l => Request.client_stack l flags)).filter
      Request.is_change_property = [] :=
    List.filter_eq_nil_iff.mpr (by
      intro a ha; obtain ⟨w, -, rfl⟩ := List.mem_map.mp ha; simp [Request.is_change_property])
  rw [e1, e2]
  simp [Request.is_change_property]

/-- C12 (as stated, refuted): a second invocation right after the first, with
unchanged inputs, writes the property again.  With window 7 the only applet of
the active view and the desktop needed, the second call issues
`XChangeProperty (7, 1)` once more. -/
theorem C12_second_stack_writes_again :
    ∃ dpy1 dpy2,
      hd_desktop_stack ⟨true, [7], [], [], fun _ => false⟩ 1 0 ⟨fun _ => none, []⟩
        = some dpy1
      ∧ hd_desktop_stack ⟨true, [7], [], [], fun _ => false⟩ 1 0 dpy1 = some dpy2
      ∧ dpy2.requests = dpy1.requests ++
          [Request.stack_move_top 1, Request.client_stack 7 0, Request.change_property 7 1]
      ∧ ((dpy2.requests.drop dpy1.requests.length).filter
            Request.is_change_property).length = 1 :=
  ⟨_, _, rfl, rfl, by decide, by decide⟩

/-- C12 (amended): a second invocation of `hd_desktop_stack` right after a
first one, with unchanged inputs, issues the same requests as the first, and
these are: the move of the desktop to the top; for every applet of the active
view, in order, its stack request followed by one property request on that
applet, `XChangeProperty` with value 1 when the render state requires the
desktop and `XDeleteProperty` otherwise; one `XDeleteProperty` on every applet
of every non-visible view; the stack requests of the transients.  So the
property requests of the second invocation are exactly one per applet of the
active view, on that applet, and one deletion per applet of the non-visible
views, and its property writes are the writes of value 1 on the applets of
the active view when the desktop is required and none otherwise.  The
property state after the second invocation is the state after the first. -/
theorem C12_second_stack_repeats_requests (inp : StackInputs) (client : Window)
    (flags : Int) (dpy dpy1 dpy2 : Display)
    (h1 : hd_desktop_stack inp client flags dpy = some dpy1)
    (h2 : hd_desktop_stack inp client flags dpy1 = some dpy2) :
    ∃ reqs, dpy1.requests = dpy.requests ++ reqs
      ∧ dpy2.requests = dpy1.requests ++ reqs
      ∧ reqs = [Request.stack_move_top client]
          ++ inp.current_applets.flatMap (fun a =>
              [Request.client_stack a flags,
               if inp.need_desktop then Request.change_property a 1
               else Request.delete_property a])
          ++ inp.not_visible_views.flatten.map Request.delete_property
          ++ inp.transients.map (fun l => Request.client_stack l flags)
      ∧ reqs.filter Request.is_property_request
          = inp.current_applets.map (fun a =>
              if inp.need_desktop then Request.change_property a 1
              else Request.delete_property a)
            ++ inp.not_visible_views.flatten.map Request.delete_property
      ∧ reqs.filter Request.is_change_property
          = (if inp.need_desktop then
              inp.current_applets.map (fun a => Request.change_property a 1)
            else [])
      ∧ (reqs.filter Request.is_property_request).length
          = inp.current_applets.length + inp.not_visible_views.flatten.length
      ∧ (reqs.filter Request.is_change_property).length
          = (if inp.need_desktop then inp.current_applets.length else 0)
      ∧ dpy2.on_current_desktop = dpy1.on_current_desktop := by
  obtain ⟨r1, -⟩ := hd_desktop_stack_requests inp client flags dpy dpy1 h1
  obtain ⟨r2, -⟩ := hd_desktop_stack_requests inp client flags dpy1 dpy2 h2
  refine ⟨_, r1, r2, rfl, stack_call_requests_property_requests inp client flags,
    stack_call_requests_change_requests inp client flags,
    stack_call_requests_property_count inp client flags,
    stack_call_requests_change_count inp client flags, ?_⟩
  · funext w
    rw [hd_desktop_stack_prop inp client flags dpy1 dpy2 h2 w,
      hd_desktop_stack_prop inp client flags dpy dpy1 h1 w]
    by_cases hv : ∃ v ∈ inp.not_visible_views, w ∈ v
    · simp only [if_pos hv]
    · simp only [if_neg hv]
      by_cases hc : w ∈ inp.current_applets
      · simp only [if_pos hc]
      · simp only [if_neg hc]

/-- Witness for C12: one applet in the active view, two in another view; the
second call issues the write on 7 and the deletions on 9 and 10 again. -/
theorem C12_second_stack_repeats_requests_witness :
    ∃ dpy1 dpy2 reqs,
      hd_desktop_stack ⟨true, [7], [[9, 10]], [], fun _ => false⟩ 1 0
        ⟨fun _ => none, []⟩ = some dpy1
      ∧ hd_desktop_stack ⟨true, [7], [[9, 10]], [], fun _ => false⟩ 1 0 dpy1 = some dpy2
      ∧ dpy2.requests = dpy1.requests ++ reqs
      ∧ reqs.filter Request.is_property_request
          = [Request.change_property 7 1, Request.delete_property 9,
             Request.delete_property 10]
      ∧ (reqs.filter Request.is_property_request).length = 3
      ∧ (reqs.filter Request.is_change_property).length = 1 := by
  obtain ⟨reqs, -, r2, -, hl, -, hp, hc, -⟩ := C12_second_stack_repeats_requests
    ⟨true, [7], [[9, 10]], [], fun _ => false⟩ 1 0 ⟨fun _ => none, []⟩ _ _ rfl rfl
  exact ⟨_, _, reqs, rfl, rfl, r2, hl, hp, hc⟩

/-- C13: the stacking requests issued by `hd_desktop_stack` are, in this order:
the desktop window moved to the top of its layer, one stack request for each
applet of the active view in enumeration order, and one stack request for
each transient child of the desktop that is not an applet, in the order
supplied by the window manager; an applet of a non-active view that is not in
the active view receives no stack request.  The function returns exactly when
no transient is an applet, which its assertion demands. -/
theorem C13_stacking_request_sequence (inp : StackInputs) (client : Window)
    (flags : Int) (dpy : Display) :
    ((∀ l ∈ inp.transients, inp.is_home_applet l = false) →
        ∃ dpy', hd_desktop_stack inp client flags dpy = some dpy')
    ∧ ∀ dpy', hd_desktop_stack inp client flags dpy = some dpy' →
        ∃ reqs, dpy'.requests = dpy.requests ++ reqs
          ∧ reqs.filter Request.is_stacking_request
              = Request.stack_move_top client
                :: (inp.current_applets.map (fun a => Request.client_stack a flags)
                    ++ (inp.transients.filter (fun l => !inp.is_home_applet l)).map
                        (fun l => Request.client_stack l flags))
          ∧ ∀ v ∈ inp.not_visible_views, ∀ w ∈ v, inp.is_home_applet w = true →
              w ∉ inp.current_applets → ∀ f, Request.client_stack w f ∉ reqs := by
  refine ⟨fun hassert => stack_transients_returns _ _ _ _ hassert, ?_⟩
  intro dpy' h
  obtain ⟨hr, hassert⟩ := hd_desktop_stack_requests inp client flags dpy dpy' h
  have hfilter : inp.transients.filter (fun l => !inp.is_home_applet l) = inp.transients :=
    List.filter_eq_self.mpr (fun l hl => by simp [hassert l hl])
  refine ⟨_, hr, ?_, ?_⟩
  · rw [hfilter]
    exact stack_call_requests_stacking inp client flags
  · intro v _ w _ happlet hnc f hmem
    have hst : Request.client_stack w f ∈
        (stack_call_requests inp client flags).filter Request.is_stacking_request :=
      List.mem_filter.mpr ⟨hmem, rfl⟩
    rw [stack_call_requests_stacking] at hst
    rcases List.mem_cons.mp hst with h0 | h0
    · exact absurd h0 (by simp)
    · rcases List.mem_append.mp h0 with h1 | h1
      · obtain ⟨a, ha, he⟩ := List.mem_map.mp h1
        injection he with he1 _
        exact hnc (he1 ▸ ha)
      · obtain ⟨l, hl, he⟩ := List.mem_map.mp h1
        injection he with he1 _
        have := hassert l hl
        rw [he1, happlet] at this
        exact absurd this (by simp)

/-- Witness for C13: applets 7, 8 in the active view, 9 in another view,
transients 20 and 21. -/
theorem C13_stacking_request_sequence_witness :
    ∃ dpy', hd_desktop_stack ⟨true, [7, 8], [[9]], [20, 21], fun w => decide (w < 20)⟩
              1 0 ⟨fun _ => none, []⟩ = some dpy'
      ∧ dpy'.requests.filter Request.is_stacking_request
          = [Request.stack_move_top 1, Request.client_stack 7 0, Request.client_stack 8 0,
             Request.client_stack 20 0, Request.client_stack 21 0] := by
  obtain ⟨hret, hseq⟩ := C13_stacking_request_sequence
    ⟨true, [7, 8], [[9]], [20, 21], fun w => decide (w < 20)⟩ 1 0 ⟨fun _ => none, []⟩
  obtain ⟨dpy', h⟩ := hret (by decide)
  obtain ⟨reqs, hr, hs, -⟩ := hseq dpy' h
  refine ⟨dpy', h, ?_⟩
  rw [hr, List.filter_append, hs]
  decide

theorem testBit_complement32 (mask i : Nat) :
    (complement32 mask).testBit i = (decide (i < 32) ^^ mask.testBit i) := by
  unfold complement32
  have : (4294967295 : Nat) = 2 ^ 32 - 1 := by norm_num
  rw [Nat.testBit_xor, this, Nat.testBit_two_pow_sub_one]

theorem testBit_false_of_isGuint {n : Nat} (h : isGuint n) (i : Nat) (hi : ¬ i < 32) :
    n.testBit i = false := by
  unfold isGuint at h
  apply Nat.testBit_lt_two_pow
  calc n < 2 ^ 32 := by omega
    _ ≤ 2 ^ i := Nat.pow_le_pow_right (by norm_num) (by omega)

/-- C14: `hd_desktop_stacking_layer` returns the middle layer and sets the
desktop-active flag when the render state requires the desktop, and returns
the bottom layer and clears that flag otherwise; layer and flag depend only
on the render state of the call, not on the previous flag word; every other
bit of the flag word is left unchanged. -/
theorem C14_stacking_layer_follows_render_state (flag_desktop wm_flags : Nat)
    (hf : isGuint flag_desktop) (hw : isGuint wm_flags) :
    (hd_desktop_stacking_layer true flag_desktop wm_flags).1
        = MBWMStackLayerType.MBWMStackLayerMid
    ∧ (hd_desktop_stacking_layer true flag_desktop wm_flags).2 &&& flag_desktop
        = flag_desktop
    ∧ (hd_desktop_stacking_layer false flag_desktop wm_flags).1
        = MBWMStackLayerType.MBWMStackLayerBottom
    ∧ (hd_desktop_stacking_layer false flag_desktop wm_flags).2 &&& flag_desktop = 0
    ∧ (∀ (need_desktop : Bool) (other_flags : Nat), isGuint other_flags →
        (hd_desktop_stacking_layer need_desktop flag_desktop other_flags).1
          = (hd_desktop_stacking_layer need_desktop flag_desktop wm_flags).1
        ∧ (hd_desktop_stacking_layer need_desktop flag_desktop other_flags).2 &&& flag_desktop
          = (hd_desktop_stacking_layer need_desktop flag_desktop wm_flags).2 &&& flag_desktop)
    ∧ (∀ (need_desktop : Bool) (i : Nat), flag_desktop.testBit i = false →
        (hd_desktop_stacking_layer need_desktop flag_desktop wm_flags).2.testBit i
          = wm_flags.testBit i) := by
  have hset : ∀ w : Nat, (w ||| flag_desktop) &&& flag_desktop = flag_desktop := by
    intro w
    apply Nat.eq_of_testBit_eq
    intro i
    rw [Nat.testBit_and, Nat.testBit_or]
    cases w.testBit i <;> cases flag_desktop.testBit i <;> rfl
  have hclear : ∀ w : Nat, (w &&& complement32 flag_desktop) &&& flag_desktop = 0 := by
    intro w
    apply Nat.eq_of_testBit_eq
    intro i
    rw [Nat.testBit_and, Nat.testBit_and, testBit_complement32, Nat.zero_testBit]
    by_cases hi : i < 32
    · cases w.testBit i <;> cases flag_desktop.testBit i <;> simp [hi]
    · rw [testBit_false_of_isGuint hf i hi]
      simp
  refine ⟨rfl, hset wm_flags, rfl, hclear wm_flags, ?_, ?_⟩
  · intro need_desktop other _
    cases need_desktop
    · exact ⟨rfl, by
        show (other &&& complement32 flag_desktop) &&& flag_desktop
          = (wm_flags &&& complement32 flag_desktop) &&& flag_desktop
        rw [hclear, hclear]⟩
    · exact ⟨rfl, by
        show (other ||| flag_desktop) &&& flag_desktop
          = (wm_flags ||| flag_desktop) &&& flag_desktop
        rw [hset, hset]⟩
  · intro need_desktop i hbit
    cases need_desktop
    · show (wm_flags &&& complement32 flag_desktop).testBit i = wm_flags.testBit i
      rw [Nat.testBit_and, testBit_complement32, hbit]
      by_cases hi : i < 32
      · simp [hi]
      · rw [testBit_false_of_isGuint hw i hi]
        simp
    · show (wm_flags ||| flag_desktop).testBit i = wm_flags.testBit i
      rw [Nat.testBit_or, hbit]
      simp

/-- Witness for C14: flag bit 1, flag word 6 (binary 110) and 7 (binary 111). -/
theorem C14_stacking_layer_follows_render_state_witness :
    isGuint 1 ∧ isGuint 6
    ∧ hd_desktop_stacking_layer true 1 6 = (MBWMStackLayerType.MBWMStackLayerMid, 7)
    ∧ hd_desktop_stacking_layer false 1 7 = (MBWMStackLayerType.MBWMStackLayerBottom, 6)
    ∧ (hd_desktop_stacking_layer true 1 6).2 &&& 1 = 1 :=
  ⟨by decide, by decide, by decide, by decide,
   (C14_stacking_layer_follows_render_state 1 6 (by decide) (by decide)).2.1⟩


/-! ## Properties of the rotation code -/

theorem only_queried_refl (srv : XServer) : srv.only_queried srv :=
  ⟨rfl, rfl, [], by simp, by simp⟩

theorem only_queried_trans {a b c : XServer} (h1 : a.only_queried b)
    (h2 : b.only_queried c) : a.only_queried c := by
  obtain ⟨e1, w1, q1, c1, n1⟩ := h1
  obtain ⟨e2, w2, q2, c2, n2⟩ := h2
  refine ⟨e2.trans e1, w2.trans w1, q1 ++ q2, ?_, ?_⟩
  · rw [c2, c1, List.append_assoc]
  · intro c hc
    rcases List.mem_append.mp hc with h | h
    · exact n1 c h
    · exact n2 c h

theorem only_queried_call (srv : XServer) (c : Call) (hc : Call.changes_state c = false) :
    srv.only_queried (srv.call c) :=
  ⟨rfl, rfl, [c], rfl, by simpa using hc⟩

theorem randr_supported_only_queried (st : Statics) (srv : XServer) :
    srv.only_queried (randr_supported st srv).2.2 := by
  unfold randr_supported
  split
  · exact only_queried_call srv _ rfl
  · exact only_queried_refl srv

theorem randr_supported_statics (st : Statics) (srv : XServer) :
    (randr_supported st srv).2.1.crtc = st.crtc
    ∧ (randr_supported st srv).2.1.display_is_portrait = st.display_is_portrait
    ∧ (randr_supported st srv).2.1.initially_rotated = st.initially_rotated
    ∧ (randr_supported st srv).2.1.randr_supported ≠ -1
    ∧ ((randr_supported st srv).1 = true ↔ (randr_supported st srv).2.1.randr_supported ≠ 0)
    ∧ (st.randr_supported ≠ -1 → (randr_supported st srv).2.1 = st) := by
  unfold randr_supported
  by_cases h : st.randr_supported = -1
  · rw [if_pos h]
    dsimp only [XServer.call]
    split
    · split <;> simp [h]
    · simp [h]
  · rw [if_neg h]
    simp [h]

theorem find_panel_crtc_only_queried (outputs : List RROutput) (srv : XServer) :
    srv.only_queried (find_panel_crtc outputs srv).2 := by
  induction outputs generalizing srv with
  | nil => exact only_queried_refl srv
  | cons o os ih =>
    rw [find_panel_crtc]
    have q1 := only_queried_call srv (Call.XRRGetOutputInfo o) rfl
    have q2 := only_queried_call (srv.call (Call.XRRGetOutputInfo o))
      (Call.XRRGetOutputProperty o) rfl
    split
    · exact only_queried_trans q1 (ih _)
    · dsimp only
      split
      · split
        · exact only_queried_trans q1 q2
        · exact only_queried_trans q1 (only_queried_trans q2 (ih _))
      · exact only_queried_trans q1 (only_queried_trans q2 (ih _))

theorem get_primary_crtc_only_queried (srv : XServer) (res : XRRScreenResources) :
    srv.only_queried (get_primary_crtc srv res).2 := by
  unfold get_primary_crtc
  have hf := find_panel_crtc_only_queried res.outputs srv
  split
  · exact only_queried_refl srv
  · split
    · rename_i crtc srv' heq
      rw [heq] at hf
      exact hf
    · rename_i srv' heq
      rw [heq] at hf
      dsimp only
      split
      · exact only_queried_trans hf (only_queried_call _ Call.XRRGetOutputPrimary rfl)
      · exact only_queried_trans hf
          (only_queried_trans (only_queried_call _ Call.XRRGetOutputPrimary rfl)
            (only_queried_call _ (Call.XRRGetOutputInfo _) rfl))

/-- All that `probe_crtc` does and finds. -/
theorem probe_crtc_spec (st : Statics) (srv : XServer) :
    srv.only_queried (probe_crtc st srv).2.2
    ∧ (probe_crtc st srv).2.1.display_is_portrait = st.display_is_portrait
    ∧ (probe_crtc st srv).2.1.initially_rotated = st.initially_rotated
    ∧ (probe_crtc st srv).2.1.randr_supported ≠ -1
    ∧ ∀ c info, (probe_crtc st srv).1 = some (c, info) →
        (probe_crtc st srv).2.1.randr_supported ≠ 0
        ∧ (probe_crtc st srv).2.1.crtc = some c
        ∧ srv.hw.crtcs c = some info
        ∧ srv.env.resources ≠ none := by
  have hq0 := only_queried_call srv (Call.usleep 100000) rfl
  have hq1 := randr_supported_only_queried st (srv.call (Call.usleep 100000))
  obtain ⟨s1, s2, s3, s4, s5, -⟩ := randr_supported_statics st (srv.call (Call.usleep 100000))
  unfold probe_crtc
  dsimp only
  rcases hr : randr_supported st (srv.call (Call.usleep 100000)) with ⟨b, st', srv'⟩
  rw [hr] at hq1 s1 s2 s3 s4 s5
  simp only at hq1 s1 s2 s3 s4 s5
  have hq : srv.only_queried srv' := only_queried_trans hq0 hq1
  cases b with
  | false => exact ⟨hq, s2, s3, s4, by simp⟩
  | true =>
    have hsup : st'.randr_supported ≠ 0 := s5.mp rfl
    dsimp only
    have hq2 := only_queried_trans hq (only_queried_call srv' Call.XRRGetScreenResources rfl)
    have henv : (srv'.call Call.XRRGetScreenResources).env = srv.env := hq2.1
    cases hres : (srv'.call Call.XRRGetScreenResources).env.resources with
    | none => exact ⟨hq2, s2, s3, s4, by simp⟩
    | some res =>
      dsimp only
      have hfound : (srv'.call Call.XRRGetScreenResources).only_queried
          (if st'.crtc = none then get_primary_crtc (srv'.call Call.XRRGetScreenResources) res
            else (st'.crtc, srv'.call Call.XRRGetScreenResources)).2 := by
        split
        · exact get_primary_crtc_only_queried _ _
        · exact only_queried_refl _
      rcases hf : (if st'.crtc = none
          then get_primary_crtc (srv'.call Call.XRRGetScreenResources) res
          else (st'.crtc, srv'.call Call.XRRGetScreenResources)) with ⟨found, srv2⟩
      rw [hf] at hfound
      simp only at hfound
      have hq3 := only_queried_trans hq2 hfound
      cases found with
      | none => exact ⟨hq3, s2, s3, s4, by simp⟩
      | some c =>
        dsimp only
        have hq4 := only_queried_trans hq3 (only_queried_call srv2 (Call.XRRGetCrtcInfo c) rfl)
        have hhw : (srv2.call (Call.XRRGetCrtcInfo c)).hw = srv.hw := hq4.2.1
        cases hinfo : (srv2.call (Call.XRRGetCrtcInfo c)).hw.crtcs c with
        | none => exact ⟨hq4, s2, s3, s4, by simp⟩
        | some info =>
          refine ⟨hq4, s2, s3, s4, ?_⟩
          intro c' info' he
          simp only [Option.some.injEq, Prod.mk.injEq] at he
          obtain ⟨rfl, rfl⟩ := he
          refine ⟨hsup, rfl, ?_, ?_⟩
          · rw [← hhw]; exact hinfo
          · rw [← henv, hres]; simp

/-- With the version and the CRTC cached, the probe asks for the resources and
the CRTC info only. -/
theorem probe_crtc_cached (st : Statics) (srv : XServer) (c : RRCrtc)
    (res : XRRScreenResources) (info : XRRCrtcInfo)
    (h1 : st.randr_supported ≠ -1) (h2 : st.randr_supported ≠ 0)
    (h3 : st.crtc = some c) (h4 : srv.env.resources = some res)
    (h5 : srv.hw.crtcs c = some info) :
    probe_crtc st srv
      = (some (c, info), st,
          ((srv.call (Call.usleep 100000)).call Call.XRRGetScreenResources).call
            (Call.XRRGetCrtcInfo c)) := by
  have hr : randr_supported st (srv.call (Call.usleep 100000))
      = (true, st, srv.call (Call.usleep 100000)) := by
    unfold randr_supported
    rw [if_neg h1]
    simp [h2]
  unfold probe_crtc
  dsimp only
  rw [hr]
  dsimp only
  have e1 : ((srv.call (Call.usleep 100000)).call Call.XRRGetScreenResources).env.resources
      = some res := h4
  rw [e1]
  dsimp only
  rw [h3]
  simp only [reduceCtorEq, if_false]
  have e2 : (((srv.call (Call.usleep 100000)).call Call.XRRGetScreenResources).call
      (Call.XRRGetCrtcInfo c)).hw.crtcs c = some info := h5
  rw [e2]
  obtain ⟨r, cr, d, i⟩ := st
  simp only at h3
  subst h3
  rfl

theorem choose_rotation_statics (env : XEnvironment) (st : Statics) (info : XRRCrtcInfo)
    (goto_portrait do_change : Bool) :
    (choose_rotation env st info goto_portrait do_change).2.2.randr_supported
        = st.randr_supported
    ∧ (choose_rotation env st info goto_portrait do_change).2.2.crtc = st.crtc := by
  unfold choose_rotation
  dsimp only
  split_ifs <;> exact ⟨rfl, rfl⟩

/-- The rotation `choose_rotation` asks for, and the portrait flag after it. -/
theorem choose_rotation_want (env : XEnvironment) (st : Statics) (info : XRRCrtcInfo)
    (goto_portrait do_change : Bool) :
    (choose_rotation env st info goto_portrait do_change).1
      = (if is_pre_rotated info then
          some (if goto_portrait then RR_Rotate_0 else RR_Rotate_270)
        else if do_change then
          some (if goto_portrait then RR_Rotate_90 else RR_Rotate_0)
        else none)
    ∧ (choose_rotation env st info goto_portrait do_change).2.2.display_is_portrait
      = (if is_pre_rotated info then 1
        else if st.display_is_portrait = -1 then 0 else st.display_is_portrait) := by
  unfold choose_rotation
  dsimp only
  constructor
  · cases goto_portrait <;> cases do_change <;> cases is_pre_rotated info <;> rfl
  · by_cases hd : st.display_is_portrait = -1
    · cases goto_portrait <;> cases is_pre_rotated info <;>
        simp only [hd, if_true, if_false, Bool.false_eq_true] <;> split_ifs <;> rfl
    · cases goto_portrait <;> cases is_pre_rotated info <;>
        simp only [hd, if_true, if_false, Bool.false_eq_true] <;> split_ifs <;> rfl

/-- Under `do_change` both the rotation and the screen size are assigned. -/
theorem choose_rotation_size (env : XEnvironment) (st : Statics) (info : XRRCrtcInfo)
    (goto_portrait : Bool) :
    (choose_rotation env st info goto_portrait true).2.1
      = some (if goto_portrait then
          ⟨min env.display_width env.display_height,
           max env.display_width env.display_height,
           min env.display_width_mm env.display_height_mm,
           max env.display_width_mm env.display_height_mm⟩
        else
          ⟨max env.display_width env.display_height,
           min env.display_width env.display_height,
           max env.display_width_mm env.display_height_mm,
           min env.display_width_mm env.display_height_mm⟩) := by
  unfold choose_rotation
  dsimp only
  cases goto_portrait <;> cases is_pre_rotated info <;> simp

theorem choose_rotation_under_change (env : XEnvironment) (st : Statics)
    (info : XRRCrtcInfo) (goto_portrait : Bool) :
    (choose_rotation env st info goto_portrait true).1
        = some (target_rotation info goto_portrait)
    ∧ (choose_rotation env st info goto_portrait true).2.1
        = some (target_size env goto_portrait) := by
  refine ⟨?_, choose_rotation_size env st info goto_portrait⟩
  rw [(choose_rotation_want env st info goto_portrait true).1]
  unfold target_rotation
  split <;> simp

/-- The frame of `XRRSetCrtcConfig`: only CRTC configurations can change. -/
theorem XRRSetCrtcConfig_frame (srv : XServer) (config : CrtcConfig) :
    (XRRSetCrtcConfig srv config).1 = srv.env.crtc_config_status config
    ∧ (XRRSetCrtcConfig srv config).2.env = srv.env
    ∧ (XRRSetCrtcConfig srv config).2.hw.suppress_root_reconfiguration
        = srv.hw.suppress_root_reconfiguration
    ∧ (XRRSetCrtcConfig srv config).2.hw.screen_size = srv.hw.screen_size
    ∧ (XRRSetCrtcConfig srv config).2.hw.grabbed = srv.hw.grabbed
    ∧ (XRRSetCrtcConfig srv config).2.calls = srv.calls ++ [Call.XRRSetCrtcConfig config] := by
  unfold XRRSetCrtcConfig
  dsimp only [XServer.call]
  split
  · split <;> exact ⟨rfl, rfl, rfl, rfl, rfl, rfl⟩
  · exact ⟨rfl, rfl, rfl, rfl, rfl, rfl⟩

/-- An accepted configuration request gives the CRTC the requested rotation
and keeps its supported rotations. -/
theorem XRRSetCrtcConfig_accepted (srv : XServer) (config : CrtcConfig)
    (info : XRRCrtcInfo)
    (hs : srv.env.crtc_config_status config = RRSetConfigSuccess)
    (hc : srv.hw.crtcs config.crtc = some info) :
    ∃ info', (XRRSetCrtcConfig srv config).2.hw.crtcs config.crtc = some info'
      ∧ info'.rotation = config.rotation ∧ info'.rotations = info.rotations
      ∧ info'.mode = config.mode := by
  unfold XRRSetCrtcConfig
  dsimp only [XServer.call]
  rw [if_pos hs, hc]
  dsimp only
  rw [if_pos rfl]
  exact ⟨_, rfl, rfl, rfl, rfl⟩

/-- A refused configuration request changes nothing but the call log. -/
theorem XRRSetCrtcConfig_refused (srv : XServer) (config : CrtcConfig)
    (hs : srv.env.crtc_config_status config ≠ RRSetConfigSuccess) :
    (XRRSetCrtcConfig srv config).2.hw = srv.hw := by
  unfold XRRSetCrtcConfig
  dsimp only [XServer.call]
  rw [if_neg hs]

/-- What the transition does, whatever the server answers: the calls in order,
the property, the screen size and the grab; its result is whether the final
configuration request succeeded. -/
theorem rotate_crtc_spec (srv : XServer) (crtc : RRCrtc) (info : XRRCrtcInfo)
    (want : Rotation) (size : ScreenSize) :
    (rotate_crtc srv crtc info want size).1
      = decide (srv.env.crtc_config_status
          ⟨crtc, info.timestamp, info.x, info.y, info.mode, want, info.outputs⟩
          = RRSetConfigSuccess)
    ∧ (rotate_crtc srv crtc info want size).2.env = srv.env
    ∧ (rotate_crtc srv crtc info want size).2.hw.suppress_root_reconfiguration = some 1
    ∧ (rotate_crtc srv crtc info want size).2.hw.screen_size = size
    ∧ (rotate_crtc srv crtc info want size).2.hw.grabbed = false
    ∧ (rotate_crtc srv crtc info want size).2.calls
      = srv.calls ++
        ([Call.XSync, Call.glFinish, Call.XGrabServer,
          Call.XChangeProperty_suppress_root_reconfiguration 1,
          Call.XRRSetCrtcConfig ⟨crtc, info.timestamp, 0, 0, X_None, RR_Rotate_0, []⟩,
          Call.XRRSetScreenSize size,
          Call.XRRSetCrtcConfig
            ⟨crtc, info.timestamp, info.x, info.y, info.mode, want, info.outputs⟩,
          Call.XUngrabServer, Call.XSync, Call.hd_rotate_input_devices]
        ++ (if srv.env.crtc_config_status
              ⟨crtc, info.timestamp, info.x, info.y, info.mode, want, info.outputs⟩
              = RRSetConfigSuccess
            then [Call.hd_render_manager_flip_input_viewport] else [])) := by
  have fd := XRRSetCrtcConfig_frame
    (XChangeProperty_suppress (XGrabServer ((srv.call Call.XSync).call Call.glFinish)) 1)
    ⟨crtc, info.timestamp, 0, 0, X_None, RR_Rotate_0, []⟩
  unfold rotate_crtc
  dsimp only
  generalize XRRSetCrtcConfig
    (XChangeProperty_suppress (XGrabServer ((srv.call Call.XSync).call Call.glFinish)) 1)
    ⟨crtc, info.timestamp, 0, 0, X_None, RR_Rotate_0, []⟩ = d at fd ⊢
  obtain ⟨-, d2, d3, -, -, d6⟩ := fd
  have ff := XRRSetCrtcConfig_frame (XRRSetScreenSize d.2 size)
    ⟨crtc, info.timestamp, info.x, info.y, info.mode, want, info.outputs⟩
  generalize XRRSetCrtcConfig (XRRSetScreenSize d.2 size)
    ⟨crtc, info.timestamp, info.x, info.y, info.mode, want, info.outputs⟩ = f at ff ⊢
  obtain ⟨f1, f2, f3, f4, -, f6⟩ := ff
  have henv : f.2.env = srv.env := by
    rw [f2]
    show d.2.env = srv.env
    rw [d2]
    rfl
  have hstatus : f.1 = srv.env.crtc_config_status
      ⟨crtc, info.timestamp, info.x, info.y, info.mode, want, info.outputs⟩ := by
    rw [f1]
    show d.2.env.crtc_config_status _ = _
    rw [d2]
    rfl
  have hsup : f.2.hw.suppress_root_reconfiguration = some 1 := by
    rw [f3]
    show d.2.hw.suppress_root_reconfiguration = some 1
    rw [d3]
    rfl
  have hsize : f.2.hw.screen_size = size := by
    rw [f4]
    rfl
  have hcalls : f.2.calls = srv.calls ++
      [Call.XSync, Call.glFinish, Call.XGrabServer,
        Call.XChangeProperty_suppress_root_reconfiguration 1,
        Call.XRRSetCrtcConfig ⟨crtc, info.timestamp, 0, 0, X_None, RR_Rotate_0, []⟩,
        Call.XRRSetScreenSize size,
        Call.XRRSetCrtcConfig
          ⟨crtc, info.timestamp, info.x, info.y, info.mode, want, info.outputs⟩] := by
    rw [f6]
    show (d.2.calls ++ [Call.XRRSetScreenSize size]) ++ _ = _
    rw [d6]
    simp [XChangeProperty_suppress, XGrabServer, XServer.call]
  rw [← hstatus]
  by_cases hok : f.1 = RRSetConfigSuccess
  · rw [if_neg (not_not.mpr hok), if_pos hok]
    refine ⟨by simp [hok], henv, hsup, hsize, rfl, ?_⟩
    show (((f.2.calls ++ [Call.XUngrabServer]) ++ [Call.XSync])
      ++ [Call.hd_rotate_input_devices]) ++ [Call.hd_render_manager_flip_input_viewport] = _
    rw [hcalls]
    simp
  · rw [if_pos hok, if_neg hok]
    refine ⟨by simp [hok], henv, hsup, hsize, rfl, ?_⟩
    show ((f.2.calls ++ [Call.XUngrabServer]) ++ [Call.XSync])
      ++ [Call.hd_rotate_input_devices] = _
    rw [hcalls]
    simp

/-- On a server that accepts every configuration request the transition
succeeds and leaves the CRTC in the wanted rotation. -/
theorem rotate_crtc_accepted (srv : XServer) (crtc : RRCrtc) (info info0 : XRRCrtcInfo)
    (want : Rotation) (size : ScreenSize)
    (hacc : ∀ config, srv.env.crtc_config_status config = RRSetConfigSuccess)
    (hc : srv.hw.crtcs crtc = some info0) :
    (rotate_crtc srv crtc info want size).1 = true
    ∧ ∃ info', (rotate_crtc srv crtc info want size).2.hw.crtcs crtc = some info'
        ∧ info'.rotation = want ∧ info'.rotations = info0.rotations := by
  refine ⟨by rw [(rotate_crtc_spec srv crtc info want size).1]; simp [hacc], ?_⟩
  obtain ⟨i1, hd1, -, hd3, -⟩ := XRRSetCrtcConfig_accepted
    (XChangeProperty_suppress (XGrabServer ((srv.call Call.XSync).call Call.glFinish)) 1)
    ⟨crtc, info.timestamp, 0, 0, X_None, RR_Rotate_0, []⟩ info0 (hacc _) hc
  have fd := XRRSetCrtcConfig_frame
    (XChangeProperty_suppress (XGrabServer ((srv.call Call.XSync).call Call.glFinish)) 1)
    ⟨crtc, info.timestamp, 0, 0, X_None, RR_Rotate_0, []⟩
  unfold rotate_crtc
  dsimp only
  generalize XRRSetCrtcConfig
    (XChangeProperty_suppress (XGrabServer ((srv.call Call.XSync).call Call.glFinish)) 1)
    ⟨crtc, info.timestamp, 0, 0, X_None, RR_Rotate_0, []⟩ = d at fd hd1 ⊢
  have henv : (XRRSetScreenSize d.2 size).env = srv.env := by
    show d.2.env = srv.env
    rw [fd.2.1]
    rfl
  obtain ⟨i2, hf1, hf2, hf3, -⟩ := XRRSetCrtcConfig_accepted (XRRSetScreenSize d.2 size)
    ⟨crtc, info.timestamp, info.x, info.y, info.mode, want, info.outputs⟩ i1
    (by rw [henv]; exact hacc _) hd1
  have ff := XRRSetCrtcConfig_frame (XRRSetScreenSize d.2 size)
    ⟨crtc, info.timestamp, info.x, info.y, info.mode, want, info.outputs⟩
  generalize XRRSetCrtcConfig (XRRSetScreenSize d.2 size)
    ⟨crtc, info.timestamp, info.x, info.y, info.mode, want, info.outputs⟩ = f at ff hf1 ⊢
  refine ⟨i2, ?_, hf2, hf3.trans hd3⟩
  split
  · exact hf1
  · exact hf1

theorem real_of_probe_none (st st1 : Statics) (srv srv1 : XServer)
    (goto_portrait do_change : Bool)
    (hp : probe_crtc st srv = (none, st1, srv1)) :
    hd_util_change_screen_orientation_real st srv goto_portrait do_change
      = (false, st1, srv1) := by
  unfold hd_util_change_screen_orientation_real
  rw [hp]

theorem real_of_probe_only (st st1 : Statics) (srv srv1 : XServer) (c : RRCrtc)
    (info : XRRCrtcInfo) (goto_portrait : Bool)
    (hp : probe_crtc st srv = (some (c, info), st1, srv1)) :
    hd_util_change_screen_orientation_real st srv goto_portrait false
      = (true, (choose_rotation srv1.env st1 info goto_portrait false).2.2, srv1) := by
  unfold hd_util_change_screen_orientation_real
  rw [hp]
  simp

theorem real_of_probe_change (st st1 : Statics) (srv srv1 : XServer) (c : RRCrtc)
    (info : XRRCrtcInfo) (goto_portrait : Bool)
    (hp : probe_crtc st srv = (some (c, info), st1, srv1)) :
    hd_util_change_screen_orientation_real st srv goto_portrait true
      = if info.rotations &&& target_rotation info goto_portrait = 0
            ∨ info.rotation = target_rotation info goto_portrait then
          (false, (choose_rotation srv1.env st1 info goto_portrait true).2.2, srv1)
        else
          ((rotate_crtc srv1 c info (target_rotation info goto_portrait)
              (target_size srv1.env goto_portrait)).1,
           (choose_rotation srv1.env st1 info goto_portrait true).2.2,
           (rotate_crtc srv1 c info (target_rotation info goto_portrait)
              (target_size srv1.env goto_portrait)).2) := by
  obtain ⟨hw, hs⟩ := choose_rotation_under_change srv1.env st1 info goto_portrait
  unfold hd_util_change_screen_orientation_real
  rw [hp]
  dsimp only
  rcases hc : choose_rotation srv1.env st1 info goto_portrait true with ⟨want, size, st2⟩
  rw [hc] at hw hs
  simp only at hw hs
  subst hw hs
  simp only [if_true]
  by_cases h1 : info.rotations &&& target_rotation info goto_portrait = 0
  · simp [h1]
  · by_cases h2 : info.rotation = target_rotation info goto_portrait
    · simp [h1, h2]
    · simp [h1, h2]

theorem target_rotation_of_landscape (info : XRRCrtcInfo) (hrot : info.rotation = RR_Rotate_0)
    (hland : info.width > info.height) : target_rotation info true = RR_Rotate_90 := by
  have hpre : is_pre_rotated info = false := by
    unfold is_pre_rotated
    rw [hrot]
    simp [RR_Rotate_0, RR_Rotate_270]
    omega
  unfold target_rotation
  rw [hpre]
  rfl

theorem target_rotation_of_rotated_90 (info : XRRCrtcInfo) (hrot : info.rotation = RR_Rotate_90) :
    target_rotation info true = RR_Rotate_90 := by
  have hpre : is_pre_rotated info = false := by
    unfold is_pre_rotated
    rw [hrot]
    simp [RR_Rotate_0, RR_Rotate_270, RR_Rotate_90]
  unfold target_rotation
  rw [hpre]
  rfl

/-- A call that changes no state is none of the transition's requests. -/
theorem not_a_transition_call (q : Call) (h : Call.changes_state q = false) :
    q ≠ Call.XGrabServer
    ∧ (∀ value, q ≠ Call.XChangeProperty_suppress_root_reconfiguration value)
    ∧ q ≠ Call.XDeleteProperty_suppress_root_reconfiguration
    ∧ (∀ config, q ≠ Call.XRRSetCrtcConfig config)
    ∧ (∀ size, q ≠ Call.XRRSetScreenSize size)
    ∧ q ≠ Call.hd_rotate_input_devices
    ∧ q ≠ Call.hd_render_manager_flip_input_viewport := by
  cases q <;> simp [Call.changes_state] at h ⊢

/-- What `only_queried` says, spelled out. -/
theorem only_queried_spelled_out {srv srv' : XServer} (h : srv.only_queried srv') :
    srv'.hw = srv.hw
    ∧ ∃ queries, srv'.calls = srv.calls ++ queries
      ∧ ∀ q ∈ queries,
          q ≠ Call.XGrabServer
          ∧ (∀ value, q ≠ Call.XChangeProperty_suppress_root_reconfiguration value)
          ∧ q ≠ Call.XDeleteProperty_suppress_root_reconfiguration
          ∧ (∀ config, q ≠ Call.XRRSetCrtcConfig config)
          ∧ (∀ size, q ≠ Call.XRRSetScreenSize size)
          ∧ q ≠ Call.hd_rotate_input_devices
          ∧ q ≠ Call.hd_render_manager_flip_input_viewport := by
  obtain ⟨-, hhw, queries, hc, hq⟩ := h
  exact ⟨hhw, queries, hc, fun q hmem => not_a_transition_call q (hq q hmem)⟩

/-- Without `do_change` the call is the probe and nothing else. -/
theorem real_probe_only_queried (st : Statics) (srv : XServer) (goto_portrait : Bool) :
    srv.only_queried
      (hd_util_change_screen_orientation_real st srv goto_portrait false).2.2 := by
  obtain ⟨hq, -⟩ := probe_crtc_spec st srv
  rcases hp : probe_crtc st srv with ⟨_ | ⟨c, info⟩, st1, srv1⟩
  · rw [real_of_probe_none st st1 srv srv1 goto_portrait false hp]
    rw [hp] at hq
    exact hq
  · rw [real_of_probe_only st st1 srv srv1 c info goto_portrait hp]
    rw [hp] at hq
    exact hq

/-! ## The orientation claims -/

/-- C15: on a display whose CRTC is un-rotated landscape (rotation 0, width >
height), supports the 90 degree rotation, and whose server accepts every
configuration request, `hd_util_change_screen_orientation (goto_portrait =
true)` called twice in a row returns true the first time and false the second
time, and the second call changes no hardware state: it only queries. -/
theorem C15_second_portrait_request_is_noop (st st1 : Statics) (srv srv1 : XServer)
    (c : RRCrtc) (info : XRRCrtcInfo)
    (hprobe : probe_crtc st srv = (some (c, info), st1, srv1))
    (hrot : info.rotation = RR_Rotate_0) (hland : info.width > info.height)
    (hsup : info.rotations &&& RR_Rotate_90 ≠ 0)
    (hacc : ∀ config, srv.env.crtc_config_status config = RRSetConfigSuccess) :
    (hd_util_change_screen_orientation st srv true).1 = true
    ∧ (hd_util_change_screen_orientation
          (hd_util_change_screen_orientation st srv true).2.1
          (hd_util_change_screen_orientation st srv true).2.2 true).1 = false
    ∧ (hd_util_change_screen_orientation
          (hd_util_change_screen_orientation st srv true).2.1
          (hd_util_change_screen_orientation st srv true).2.2 true).2.2.hw
        = (hd_util_change_screen_orientation st srv true).2.2.hw
    ∧ (hd_util_change_screen_orientation st srv true).2.2.only_queried
        (hd_util_change_screen_orientation
          (hd_util_change_screen_orientation st srv true).2.1
          (hd_util_change_screen_orientation st srv true).2.2 true).2.2 := by
  obtain ⟨hq, -, -, hne1, hfound⟩ := probe_crtc_spec st srv
  rw [hprobe] at hq hne1 hfound
  obtain ⟨hne0, hcrtc, hinfo, hres⟩ := hfound c info rfl
  simp only at hq hne1 hne0 hcrtc
  obtain ⟨henv1, hhw1, -⟩ := hq
  have htarget := target_rotation_of_landscape info hrot hland
  -- the first call performs the transition
  have hfirst := real_of_probe_change st st1 srv srv1 c info true hprobe
  rw [htarget] at hfirst
  have hcond : ¬ (info.rotations &&& RR_Rotate_90 = 0 ∨ info.rotation = RR_Rotate_90) := by
    rintro (h | h)
    · exact hsup h
    · rw [hrot] at h; exact absurd h (by decide)
  rw [if_neg hcond] at hfirst
  obtain ⟨hok, info', hinfo', hrot', hrots'⟩ := rotate_crtc_accepted srv1 c info info
    RR_Rotate_90 (target_size srv1.env true) (by rw [henv1]; exact hacc)
    (by rw [hhw1]; exact hinfo)
  obtain ⟨-, henv2, -⟩ := rotate_crtc_spec srv1 c info RR_Rotate_90 (target_size srv1.env true)
  obtain ⟨hs1, hs2⟩ := choose_rotation_statics srv1.env st1 info true true
  unfold hd_util_change_screen_orientation
  rw [hfirst]
  dsimp only
  refine ⟨hok, ?_⟩
  -- the second call finds the rotation already active
  obtain ⟨res, hres'⟩ := Option.ne_none_iff_exists'.mp hres
  have hprobe2 := probe_crtc_cached (choose_rotation srv1.env st1 info true true).2.2
    (rotate_crtc srv1 c info RR_Rotate_90 (target_size srv1.env true)).2 c res info'
    (by rw [hs1]; exact hne1) (by rw [hs1]; exact hne0) (by rw [hs2]; exact hcrtc)
    (by rw [henv2, henv1]; exact hres') hinfo'
  have hsecond := real_of_probe_change _ _ _ _ c info' true hprobe2
  rw [target_rotation_of_rotated_90 info' hrot', if_pos (Or.inr hrot')] at hsecond
  rw [hsecond]
  dsimp only
  refine ⟨rfl, rfl, ?_⟩
  exact only_queried_trans (only_queried_call _ (Call.usleep 100000) rfl)
    (only_queried_trans (only_queried_call _ Call.XRRGetScreenResources rfl)
      (only_queried_call _ (Call.XRRGetCrtcInfo c) rfl))

/-- Witness for C15: the example display, un-rotated 800x480, in a fresh
process. -/
theorem C15_second_portrait_request_is_noop_witness :
    (hd_util_change_screen_orientation Statics.initial
        (example_display accept_all RR_Rotate_0 800 480) true).1 = true
    ∧ (hd_util_change_screen_orientation
          (hd_util_change_screen_orientation Statics.initial
            (example_display accept_all RR_Rotate_0 800 480) true).2.1
          (hd_util_change_screen_orientation Statics.initial
            (example_display accept_all RR_Rotate_0 800 480) true).2.2 true).1 = false :=
  have h := C15_second_portrait_request_is_noop Statics.initial _
    (example_display accept_all RR_Rotate_0 800 480) _ 63
    ⟨0, 0, 0, 800, 480, 70, RR_Rotate_0, [66], 15⟩ rfl rfl (by decide) (by decide)
    (fun _ => rfl)
  ⟨h.1, h.2.1⟩

/-- C16: with `do_change` set, if the computed target rotation is not in the
CRTC's supported-rotations mask, or equals the CRTC's current rotation,
`hd_util_change_screen_orientation_real` returns false and issues no server
grab, no suppress-root-reconfiguration write, no CRTC configuration, no
screen resize and no input-device remap; the hardware state is unchanged. -/
theorem C16_unsupported_or_active_rotation_is_refused (st st1 : Statics)
    (srv srv1 : XServer) (c : RRCrtc) (info : XRRCrtcInfo) (goto_portrait : Bool)
    (hprobe : probe_crtc st srv = (some (c, info), st1, srv1))
    (h : info.rotations &&& target_rotation info goto_portrait = 0
          ∨ info.rotation = target_rotation info goto_portrait) :
    (choose_rotation srv1.env st1 info goto_portrait true).1
        = some (target_rotation info goto_portrait)
    ∧ (hd_util_change_screen_orientation_real st srv goto_portrait true).1 = false
    ∧ (hd_util_change_screen_orientation_real st srv goto_portrait true).2.2.hw = srv.hw
    ∧ ∃ queries,
        (hd_util_change_screen_orientation_real st srv goto_portrait true).2.2.calls
          = srv.calls ++ queries
        ∧ ∀ q ∈ queries,
            q ≠ Call.XGrabServer
            ∧ (∀ value, q ≠ Call.XChangeProperty_suppress_root_reconfiguration value)
            ∧ q ≠ Call.XDeleteProperty_suppress_root_reconfiguration
            ∧ (∀ config, q ≠ Call.XRRSetCrtcConfig config)
            ∧ (∀ size, q ≠ Call.XRRSetScreenSize size)
            ∧ q ≠ Call.hd_rotate_input_devices
            ∧ q ≠ Call.hd_render_manager_flip_input_viewport := by
  obtain ⟨hq, -⟩ := probe_crtc_spec st srv
  rw [hprobe] at hq
  rw [real_of_probe_change st st1 srv srv1 c info goto_portrait hprobe, if_pos h]
  exact ⟨(choose_rotation_under_change srv1.env st1 info goto_portrait).1, rfl,
    only_queried_spelled_out hq⟩

/-- Witness for C16: the example CRTC restricted to rotation 0 refuses the
portrait request; the call log shows the probe only. -/
theorem C16_unsupported_or_active_rotation_is_refused_witness :
    (hd_util_change_screen_orientation_real Statics.initial
        ⟨example_env accept_all,
         ⟨fun c => if c = 63 then some ⟨0, 0, 0, 800, 480, 70, RR_Rotate_0, [66], 1⟩ else none,
          ⟨800, 480, 77, 46⟩, none, false⟩, []⟩ true true).1 = false
    ∧ (hd_util_change_screen_orientation_real Statics.initial
        ⟨example_env accept_all,
         ⟨fun c => if c = 63 then some ⟨0, 0, 0, 800, 480, 70, RR_Rotate_0, [66], 1⟩ else none,
          ⟨800, 480, 77, 46⟩, none, false⟩, []⟩ true true).2.2.calls
      = [Call.usleep 100000, Call.XRRQueryVersion, Call.XRRGetScreenResources,
         Call.XRRGetCrtcInfo 63] :=
  ⟨(C16_unsupported_or_active_rotation_is_refused Statics.initial _
      ⟨example_env accept_all,
       ⟨fun c => if c = 63 then some ⟨0, 0, 0, 800, 480, 70, RR_Rotate_0, [66], 1⟩ else none,
        ⟨800, 480, 77, 46⟩, none, false⟩, []⟩ _ 63
      ⟨0, 0, 0, 800, 480, 70, RR_Rotate_0, [66], 1⟩ true rfl (Or.inl (by decide))).2.1,
   by decide⟩

/-- C17 (as stated, refuted): when the final CRTC configuration request fails,
the function returns false although state has changed.  On the example
display with a server that accepts only the disabling request, the call
returns false and leaves the property set, the CRTC disabled and the screen
resized. -/
theorem C17_failed_configuration_leaves_changes :
    (hd_util_change_screen_orientation_real Statics.initial
        (example_display accept_disable_only RR_Rotate_0 800 480) true true).1 = false
    ∧ (example_display accept_disable_only RR_Rotate_0 800 480).hw.suppress_root_reconfiguration
        = none
    ∧ (hd_util_change_screen_orientation_real Statics.initial
        (example_display accept_disable_only RR_Rotate_0 800 480) true true
        ).2.2.hw.suppress_root_reconfiguration = some 1
    ∧ (hd_util_change_screen_orientation_real Statics.initial
        (example_display accept_disable_only RR_Rotate_0 800 480) true true
        ).2.2.hw.crtcs 63 = some ⟨0, 0, 0, 0, 0, X_None, RR_Rotate_0, [], 15⟩
    ∧ (hd_util_change_screen_orientation_real Statics.initial
        (example_display accept_disable_only RR_Rotate_0 800 480) true true
        ).2.2.hw.screen_size = ⟨480, 800, 46, 77⟩ := by
  decide

/-- C17 (amended): whenever `hd_util_change_screen_orientation_real` returns
false, either no state has changed (the hardware state is as before and only
queries were issued), or the transition was started and the final CRTC
configuration request was refused by the server. -/
theorem C17_false_without_transition_changes_nothing (st : Statics) (srv : XServer)
    (goto_portrait do_change : Bool)
    (hfalse : (hd_util_change_screen_orientation_real st srv goto_portrait do_change).1
      = false) :
    srv.only_queried
        (hd_util_change_screen_orientation_real st srv goto_portrait do_change).2.2
    ∨ (do_change = true
        ∧ ∃ st1 srv1 c info, probe_crtc st srv = (some (c, info), st1, srv1)
          ∧ info.rotations &&& target_rotation info goto_portrait ≠ 0
          ∧ info.rotation ≠ target_rotation info goto_portrait
          ∧ srv.env.crtc_config_status
              ⟨c, info.timestamp, info.x, info.y, info.mode,
               target_rotation info goto_portrait, info.outputs⟩ ≠ RRSetConfigSuccess) := by
  obtain ⟨hq, -⟩ := probe_crtc_spec st srv
  rcases hp : probe_crtc st srv with ⟨_ | ⟨c, info⟩, st1, srv1⟩
  · left
    rw [real_of_probe_none st st1 srv srv1 goto_portrait do_change hp]
    rw [hp] at hq
    exact hq
  · rw [hp] at hq
    cases do_change with
    | false =>
      rw [real_of_probe_only st st1 srv srv1 c info goto_portrait hp] at hfalse
      exact absurd hfalse (by simp)
    | true =>
      rw [real_of_probe_change st st1 srv srv1 c info goto_portrait hp] at hfalse ⊢
      by_cases hc : info.rotations &&& target_rotation info goto_portrait = 0
          ∨ info.rotation = target_rotation info goto_portrait
      · left
        rw [if_pos hc]
        exact hq
      · right
        rw [if_neg hc] at hfalse
        simp only at hfalse
        rw [(rotate_crtc_spec srv1 c info _ _).1, hq.1] at hfalse
        refine ⟨rfl, st1, srv1, c, info, rfl, fun h => hc (Or.inl h), fun h => hc (Or.inr h), ?_⟩
        simpa using hfalse

/-- Witness for C17: the example display already rotated to 90 degrees; the
portrait request returns false and the suppress property stays absent. -/
theorem C17_false_without_transition_changes_nothing_witness :
    (hd_util_change_screen_orientation_real Statics.initial
        (example_display accept_all RR_Rotate_90 480 800) true true).1 = false
    ∧ ((example_display accept_all RR_Rotate_90 480 800).only_queried
          (hd_util_change_screen_orientation_real Statics.initial
            (example_display accept_all RR_Rotate_90 480 800) true true).2.2
        ∨ ((true : Bool) = true
          ∧ ∃ st1 srv1 c info,
            probe_crtc Statics.initial (example_display accept_all RR_Rotate_90 480 800)
              = (some (c, info), st1, srv1)
            ∧ info.rotations &&& target_rotation info true ≠ 0
            ∧ info.rotation ≠ target_rotation info true
            ∧ (example_display accept_all RR_Rotate_90 480 800).env.crtc_config_status
                ⟨c, info.timestamp, info.x, info.y, info.mode,
                 target_rotation info true, info.outputs⟩ ≠ RRSetConfigSuccess)) :=
  ⟨by decide,
   C17_false_without_transition_changes_nothing Statics.initial
     (example_display accept_all RR_Rotate_90 480 800) true true (by decide)⟩

/-- C18: with `do_change` unset, `hd_util_change_screen_orientation_real` is a
probe only: for every server state, every state of the statics and either
value of `goto_portrait` it issues no server grab, no property write or
delete, no CRTC configuration, no screen resize, no input remap and no
viewport flip; the hardware configuration and the property store are
unchanged.  The same holds for `hd_util_display_portraitness_init`, which is
this call. -/
theorem C18_probe_touches_nothing (st : Statics) (srv : XServer) (goto_portrait : Bool) :
    ((hd_util_change_screen_orientation_real st srv goto_portrait false).2.2.hw = srv.hw
      ∧ ∃ queries,
          (hd_util_change_screen_orientation_real st srv goto_portrait false).2.2.calls
            = srv.calls ++ queries
          ∧ ∀ q ∈ queries,
              q ≠ Call.XGrabServer
              ∧ (∀ value, q ≠ Call.XChangeProperty_suppress_root_reconfiguration value)
              ∧ q ≠ Call.XDeleteProperty_suppress_root_reconfiguration
              ∧ (∀ config, q ≠ Call.XRRSetCrtcConfig config)
              ∧ (∀ size, q ≠ Call.XRRSetScreenSize size)
              ∧ q ≠ Call.hd_rotate_input_devices
              ∧ q ≠ Call.hd_render_manager_flip_input_viewport)
    ∧ (st.display_is_portrait = -1 →
        ∃ st' srv', hd_util_display_portraitness_init st srv = some (st', srv')
          ∧ srv'.hw = srv.hw ∧ srv.only_queried srv') := by
  have hq := real_probe_only_queried st srv goto_portrait
  refine ⟨only_queried_spelled_out hq, ?_⟩
  intro hd
  have hq' := real_probe_only_queried st srv false
  refine ⟨(hd_util_change_screen_orientation_real st srv false false).2.1,
    (hd_util_change_screen_orientation_real st srv false false).2.2, ?_, hq'.2.1, hq'⟩
  unfold hd_util_display_portraitness_init
  rw [if_pos hd]

/-- Witness for C18: the start-up probe on the example display asks for the
version, the resources and the CRTC info, and nothing else. -/
theorem C18_probe_touches_nothing_witness :
    Statics.initial.display_is_portrait = -1
    ∧ ∃ st' srv', hd_util_display_portraitness_init Statics.initial
          (example_display accept_all RR_Rotate_0 800 480) = some (st', srv')
        ∧ srv'.hw = (example_display accept_all RR_Rotate_0 800 480).hw
        ∧ srv'.calls = [Call.usleep 100000, Call.XRRQueryVersion,
            Call.XRRGetScreenResources, Call.XRRGetCrtcInfo 63] := by
  refine ⟨rfl, ?_⟩
  obtain ⟨st', srv', h, hhw, -⟩ :=
    (C18_probe_touches_nothing Statics.initial
      (example_display accept_all RR_Rotate_0 800 480) false).2 rfl
  refine ⟨st', srv', h, hhw, ?_⟩
  have e : hd_util_display_portraitness_init Statics.initial
      (example_display accept_all RR_Rotate_0 800 480)
      = some (hd_util_change_screen_orientation_real Statics.initial
          (example_display accept_all RR_Rotate_0 800 480) false false).2 := rfl
  rw [e] at h
  injection h with h
  have h2 : srv' = (hd_util_change_screen_orientation_real Statics.initial
      (example_display accept_all RR_Rotate_0 800 480) false false).2.2 := by
    rw [h]
  rw [h2]
  decide

/-- C19 (as stated, refuted): in the pre-rotated condition (here rotation 0 with
480 x 800) a request to be in portrait targets 0 degrees, not 270, and a
request to be in landscape targets 270 degrees, not 0. -/
theorem C19_pre_rotated_targets_are_the_other_way_round :
    is_pre_rotated ⟨0, 0, 0, 480, 800, 70, RR_Rotate_0, [66], 15⟩ = true
    ∧ (choose_rotation (example_env accept_all) Statics.initial
        ⟨0, 0, 0, 480, 800, 70, RR_Rotate_0, [66], 15⟩ true true).1 = some RR_Rotate_0
    ∧ (choose_rotation (example_env accept_all) Statics.initial
        ⟨0, 0, 0, 480, 800, 70, RR_Rotate_0, [66], 15⟩ true true).1 ≠ some RR_Rotate_270
    ∧ (choose_rotation (example_env accept_all) Statics.initial
        ⟨0, 0, 0, 480, 800, 70, RR_Rotate_0, [66], 15⟩ false true).1 = some RR_Rotate_270
    ∧ (choose_rotation (example_env accept_all) Statics.initial
        ⟨0, 0, 0, 480, 800, 70, RR_Rotate_0, [66], 15⟩ false true).1 ≠ some RR_Rotate_0 := by
  decide

/-- C19 (amended): the target rotation computed by
`hd_util_change_screen_orientation_real` follows the rule: entering portrait
targets 90 degrees and leaving portrait targets 0 degrees, except that in the
pre-rotated condition (current rotation 0 with width < height, or current
rotation 270 with width > height) the target is 0 degrees for a request to be
in portrait (`goto_portrait` set) and 270 degrees for a request to be in
landscape (`goto_portrait` unset); the portrait-tracking variable is set to
true exactly when the pre-rotated condition holds, and otherwise keeps its
value (false if it was unset). -/
theorem C19_target_rotation_rule (env : XEnvironment) (st : Statics) (info : XRRCrtcInfo)
    (goto_portrait do_change : Bool) :
    (is_pre_rotated info = true ↔
        (info.rotation = RR_Rotate_0 ∧ info.width < info.height)
        ∨ (info.rotation = RR_Rotate_270 ∧ info.width > info.height))
    ∧ (is_pre_rotated info = false → do_change = true →
        (choose_rotation env st info goto_portrait do_change).1
          = some (if goto_portrait then RR_Rotate_90 else RR_Rotate_0))
    ∧ (is_pre_rotated info = true →
        (choose_rotation env st info goto_portrait do_change).1
          = some (if goto_portrait then RR_Rotate_0 else RR_Rotate_270))
    ∧ (is_pre_rotated info = true →
        (choose_rotation env st info goto_portrait do_change).2.2.display_is_portrait = 1)
    ∧ (is_pre_rotated info = false →
        (choose_rotation env st info goto_portrait do_change).2.2.display_is_portrait
          = if st.display_is_portrait = -1 then 0 else st.display_is_portrait) := by
  obtain ⟨hw, hd⟩ := choose_rotation_want env st info goto_portrait do_change
  refine ⟨?_, ?_, ?_, ?_, ?_⟩
  · unfold is_pre_rotated
    simp
  · intro hp hc
    rw [hw, hp, hc]
    simp
  · intro hp
    rw [hw, hp]
    simp
  · intro hp
    rw [hd, hp]
    simp
  · intro hp
    rw [hd, hp]
    simp

/-- Witness for C19: an un-rotated landscape CRTC asked to enter portrait
targets 90 degrees; a CRTC at 270 degrees with 800 x 480 asked to leave
portrait targets 270 degrees and is recorded as portrait. -/
theorem C19_target_rotation_rule_witness :
    is_pre_rotated ⟨0, 0, 0, 800, 480, 70, RR_Rotate_0, [66], 15⟩ = false
    ∧ (choose_rotation (example_env accept_all) Statics.initial
        ⟨0, 0, 0, 800, 480, 70, RR_Rotate_0, [66], 15⟩ true true).1 = some RR_Rotate_90
    ∧ is_pre_rotated ⟨0, 0, 0, 800, 480, 70, RR_Rotate_270, [66], 15⟩ = true
    ∧ (choose_rotation (example_env accept_all) Statics.initial
        ⟨0, 0, 0, 800, 480, 70, RR_Rotate_270, [66], 15⟩ false true).1 = some RR_Rotate_270
    ∧ (choose_rotation (example_env accept_all) Statics.initial
        ⟨0, 0, 0, 800, 480, 70, RR_Rotate_270, [66], 15⟩ false true).2.2.display_is_portrait
        = 1 :=
  ⟨by decide,
   (C19_target_rotation_rule (example_env accept_all) Statics.initial
      ⟨0, 0, 0, 800, 480, 70, RR_Rotate_0, [66], 15⟩ true true).2.1 (by decide) rfl,
   by decide,
   (C19_target_rotation_rule (example_env accept_all) Statics.initial
      ⟨0, 0, 0, 800, 480, 70, RR_Rotate_270, [66], 15⟩ false true).2.2.1 (by decide),
   (C19_target_rotation_rule (example_env accept_all) Statics.initial
      ⟨0, 0, 0, 800, 480, 70, RR_Rotate_270, [66], 15⟩ false true).2.2.2.1 (by decide)⟩

theorem hd_util_root_window_configured_spec (srv : XServer) :
    (hd_util_root_window_configured srv).hw.suppress_root_reconfiguration = none
    ∧ (hd_util_root_window_configured srv).hw.crtcs = srv.hw.crtcs
    ∧ (hd_util_root_window_configured srv).hw.screen_size = srv.hw.screen_size
    ∧ (hd_util_root_window_configured srv).hw.grabbed = srv.hw.grabbed
    ∧ (hd_util_root_window_configured srv).calls
        = srv.calls ++ [Call.mb_wm_util_async_trap_x_errors,
            Call.XDeleteProperty_suppress_root_reconfiguration, Call.XSync,
            Call.mb_wm_util_async_untrap_x_errors] := by
  refine ⟨rfl, rfl, rfl, rfl, ?_⟩
  simp [hd_util_root_window_configured, XDeleteProperty_suppress, XServer.call]

/-- C20: the suppress-root-reconfiguration handshake has two phases.  When
`hd_util_change_screen_orientation_real` performs a transition (in particular
whenever it returns true under `do_change`), the property is on the root
window with value 1 when the call returns; a following
`hd_util_root_window_configured` leaves the property absent; and
`hd_util_root_window_configured` on a store where the property is already
absent changes nothing in the store and, its delete being wrapped in the X
error trap, raises no error. -/
theorem C20_suppress_handshake :
    (∀ (st st1 : Statics) (srv srv1 : XServer) (c : RRCrtc) (info : XRRCrtcInfo)
        (goto_portrait : Bool),
        probe_crtc st srv = (some (c, info), st1, srv1) →
        info.rotations &&& target_rotation info goto_portrait ≠ 0 →
        info.rotation ≠ target_rotation info goto_portrait →
        (hd_util_change_screen_orientation_real st srv goto_portrait true
          ).2.2.hw.suppress_root_reconfiguration = some 1
        ∧ (hd_util_root_window_configured
            (hd_util_change_screen_orientation_real st srv goto_portrait true).2.2
          ).hw.suppress_root_reconfiguration = none)
    ∧ (∀ (st : Statics) (srv : XServer) (goto_portrait : Bool),
        (hd_util_change_screen_orientation_real st srv goto_portrait true).1 = true →
        (hd_util_change_screen_orientation_real st srv goto_portrait true
          ).2.2.hw.suppress_root_reconfiguration = some 1)
    ∧ (∀ srv : XServer,
        (hd_util_root_window_configured srv).hw.suppress_root_reconfiguration = none
        ∧ (hd_util_root_window_configured srv).calls
            = srv.calls ++ [Call.mb_wm_util_async_trap_x_errors,
                Call.XDeleteProperty_suppress_root_reconfiguration, Call.XSync,
                Call.mb_wm_util_async_untrap_x_errors])
    ∧ (∀ srv : XServer, srv.hw.suppress_root_reconfiguration = none →
        (hd_util_root_window_configured srv).hw = srv.hw) := by
  have key : ∀ (st st1 : Statics) (srv srv1 : XServer) (c : RRCrtc) (info : XRRCrtcInfo)
      (goto_portrait : Bool),
      probe_crtc st srv = (some (c, info), st1, srv1) →
      ¬ (info.rotations &&& target_rotation info goto_portrait = 0
          ∨ info.rotation = target_rotation info goto_portrait) →
      (hd_util_change_screen_orientation_real st srv goto_portrait true
        ).2.2.hw.suppress_root_reconfiguration = some 1 := by
    intro st st1 srv srv1 c info goto_portrait hp hc
    rw [real_of_probe_change st st1 srv srv1 c info goto_portrait hp, if_neg hc]
    exact (rotate_crtc_spec srv1 c info _ _).2.2.1
  refine ⟨?_, ?_, ?_, ?_⟩
  · intro st st1 srv srv1 c info goto_portrait hp h1 h2
    refine ⟨key st st1 srv srv1 c info goto_portrait hp ?_,
      (hd_util_root_window_configured_spec _).1⟩
    rintro (h | h)
    · exact h1 h
    · exact h2 h
  · intro st srv goto_portrait htrue
    rcases hp : probe_crtc st srv with ⟨_ | ⟨c, info⟩, st1, srv1⟩
    · rw [real_of_probe_none st st1 srv srv1 goto_portrait true hp] at htrue
      exact absurd htrue (by simp)
    · by_cases hc : info.rotations &&& target_rotation info goto_portrait = 0
          ∨ info.rotation = target_rotation info goto_portrait
      · rw [real_of_probe_change st st1 srv srv1 c info goto_portrait hp, if_pos hc] at htrue
        exact absurd htrue (by simp)
      · exact key st st1 srv srv1 c info goto_portrait hp hc
  · intro srv
    exact ⟨(hd_util_root_window_configured_spec srv).1,
      (hd_util_root_window_configured_spec srv).2.2.2.2⟩
  · intro srv habsent
    obtain ⟨env, ⟨crtcs, size, suppress, grabbed⟩, calls⟩ := srv
    simp only at habsent
    subst habsent
    rfl

/-- Witness for C20: the example display is rotated to portrait, which leaves
the property at 1; the completion call removes it; a second completion call
finds it absent and leaves it absent. -/
theorem C20_suppress_handshake_witness :
    (hd_util_change_screen_orientation_real Statics.initial
        (example_display accept_all RR_Rotate_0 800 480) true true).1 = true
    ∧ (hd_util_change_screen_orientation_real Statics.initial
        (example_display accept_all RR_Rotate_0 800 480) true true
        ).2.2.hw.suppress_root_reconfiguration = some 1
    ∧ (hd_util_root_window_configured
        (hd_util_change_screen_orientation_real Statics.initial
          (example_display accept_all RR_Rotate_0 800 480) true true).2.2
        ).hw.suppress_root_reconfiguration = none
    ∧ (example_display accept_all RR_Rotate_0 800 480).hw.suppress_root_reconfiguration = none
    ∧ (hd_util_root_window_configured (example_display accept_all RR_Rotate_0 800 480)).hw
        = (example_display accept_all RR_Rotate_0 800 480).hw :=
  ⟨by decide,
   C20_suppress_handshake.2.1 Statics.initial
     (example_display accept_all RR_Rotate_0 800 480) true (by decide),
   (C20_suppress_handshake.2.2.1 _).1,
   rfl,
   C20_suppress_handshake.2.2.2 (example_display accept_all RR_Rotate_0 800 480) rfl⟩

/-! ## The capability probe -/

theorem randr_supported_fresh_refused (st : Statics) (srv : XServer)
    (hfresh : st.randr_supported = -1)
    (hbad : ∀ major minor, srv.env.rr_version = some (major, minor) →
      ¬ (major > 1 ∨ (major = 1 ∧ minor ≥ 3))) :
    randr_supported st srv
      = (false, { st with randr_supported := 0 }, srv.call Call.XRRQueryVersion) := by
  unfold randr_supported
  rw [if_pos hfresh]
  dsimp only [XServer.call]
  cases hv : srv.env.rr_version with
  | none => simp
  | some v =>
    obtain ⟨major, minor⟩ := v
    have := hbad major minor hv
    simp [this]

theorem randr_supported_fresh_accepted (st : Statics) (srv : XServer)
    (hfresh : st.randr_supported = -1) (major minor : Int)
    (hv : srv.env.rr_version = some (major, minor))
    (hgood : major > 1 ∨ (major = 1 ∧ minor ≥ 3)) :
    randr_supported st srv
      = (true, { st with randr_supported := 1 }, srv.call Call.XRRQueryVersion) := by
  unfold randr_supported
  rw [if_pos hfresh]
  dsimp only [XServer.call]
  rw [hv]
  simp [hgood]

theorem randr_supported_cached (st : Statics) (srv : XServer)
    (hcached : st.randr_supported ≠ -1) :
    randr_supported st srv = (decide (st.randr_supported ≠ 0), st, srv) := by
  unfold randr_supported
  rw [if_neg hcached]

theorem probe_crtc_of_unsupported (st st' : Statics) (srv srv' : XServer)
    (h : randr_supported st (srv.call (Call.usleep 100000)) = (false, st', srv')) :
    probe_crtc st srv = (none, st', srv') := by
  unfold probe_crtc
  dsimp only
  rw [h]

/-- C21: if the version query of the rotation extension fails or reports a
version lower than 1.3 (accepted are exactly `major > 1` and `major = 1` with
`minor >= 3`), `hd_util_change_screen_orientation_real` returns false having
waited and asked for the version only: no screen resource is queried or
changed.  The answer of the first probe is cached: every later call, on
whatever server, gives the same capability answer without asking again. -/
theorem C21_version_probe_is_cached (st : Statics) (srv : XServer)
    (hfresh : st.randr_supported = -1) :
    ((randr_supported st srv).1 = true ↔
        ∃ major minor, srv.env.rr_version = some (major, minor)
          ∧ (major > 1 ∨ (major = 1 ∧ minor ≥ 3)))
    ∧ ((∀ major minor, srv.env.rr_version = some (major, minor) →
          ¬ (major > 1 ∨ (major = 1 ∧ minor ≥ 3))) →
        ∀ goto_portrait do_change,
          (hd_util_change_screen_orientation_real st srv goto_portrait do_change).1 = false
          ∧ (hd_util_change_screen_orientation_real st srv goto_portrait do_change).2.2.hw
              = srv.hw
          ∧ (hd_util_change_screen_orientation_real st srv goto_portrait do_change).2.2.calls
              = srv.calls ++ [Call.usleep 100000, Call.XRRQueryVersion]
          ∧ (hd_util_change_screen_orientation_real st srv goto_portrait do_change
              ).2.1.randr_supported = 0)
    ∧ (∀ (later : Statics) (other : XServer),
        later.randr_supported = (randr_supported st srv).2.1.randr_supported →
        (randr_supported later other).1 = (randr_supported st srv).1
        ∧ (randr_supported later other).2.1 = later
        ∧ (randr_supported later other).2.2 = other)
    ∧ (∀ (later : Statics) (other : XServer) (goto_portrait do_change : Bool),
        later.randr_supported = 0 →
        hd_util_change_screen_orientation_real later other goto_portrait do_change
          = (false, later, other.call (Call.usleep 100000))) := by
  refine ⟨?_, ?_, ?_, ?_⟩
  · constructor
    · intro h
      by_contra hne
      have hbad : ∀ major minor, srv.env.rr_version = some (major, minor) →
          ¬ (major > 1 ∨ (major = 1 ∧ minor ≥ 3)) :=
        fun major minor hv hg => hne ⟨major, minor, hv, hg⟩
      rw [randr_supported_fresh_refused st srv hfresh hbad] at h
      exact absurd h (by simp)
    · rintro ⟨major, minor, hv, hg⟩
      rw [randr_supported_fresh_accepted st srv hfresh major minor hv hg]
  · intro hbad goto_portrait do_change
    have hr := randr_supported_fresh_refused st (srv.call (Call.usleep 100000)) hfresh hbad
    rw [real_of_probe_none st _ srv _ goto_portrait do_change
      (probe_crtc_of_unsupported st _ srv _ hr)]
    refine ⟨rfl, rfl, ?_, rfl⟩
    simp [XServer.call]
  · intro later other hl
    obtain ⟨-, -, -, hne, hiff, -⟩ := randr_supported_statics st srv
    have hcached : later.randr_supported ≠ -1 := by rw [hl]; exact hne
    rw [randr_supported_cached later other hcached]
    refine ⟨?_, rfl, rfl⟩
    dsimp only
    rw [hl]
    by_cases h0 : (randr_supported st srv).2.1.randr_supported = 0
    · have : ¬ (randr_supported st srv).1 = true := fun h => (hiff.mp h) h0
      simp [h0, this]
    · have : (randr_supported st srv).1 = true := hiff.mpr h0
      simp [h0, this]
  · intro later other goto_portrait do_change hl
    have hr : randr_supported later (other.call (Call.usleep 100000))
        = (false, later, other.call (Call.usleep 100000)) := by
      rw [randr_supported_cached later _ (by rw [hl]; decide)]
      simp [hl]
    exact real_of_probe_none later _ other _ goto_portrait do_change
      (probe_crtc_of_unsupported later _ other _ hr)

/-- Witness for C21: a server with RandR 1.2 is refused on the first call; the
second call, on a server that would report 1.3, is refused from the cache. -/
theorem C21_version_probe_is_cached_witness :
    Statics.initial.randr_supported = -1
    ∧ (hd_util_change_screen_orientation_real Statics.initial
        { example_display accept_all RR_Rotate_0 800 480 with
          env := { example_env accept_all with rr_version := some (1, 2) } } true true).1
        = false
    ∧ (hd_util_change_screen_orientation_real Statics.initial
        { example_display accept_all RR_Rotate_0 800 480 with
          env := { example_env accept_all with rr_version := some (1, 2) } } true true
        ).2.2.calls = [Call.usleep 100000, Call.XRRQueryVersion]
    ∧ hd_util_change_screen_orientation_real ⟨0, none, -1, -1⟩
        (example_display accept_all RR_Rotate_0 800 480) true true
        = (false, ⟨0, none, -1, -1⟩,
            (example_display accept_all RR_Rotate_0 800 480).call (Call.usleep 100000)) := by
  have h := C21_version_probe_is_cached Statics.initial
    { example_display accept_all RR_Rotate_0 800 480 with
      env := { example_env accept_all with rr_version := some (1, 2) } } rfl
  have hbad : ∀ major minor : Int, (some ((1 : Int), (2 : Int)) = some (major, minor)) →
      ¬ (major > 1 ∨ (major = 1 ∧ minor ≥ 3)) := by
    intro major minor he
    injection he with he
    injection he with h1 h2
    subst h1 h2
    decide
  obtain ⟨h1, -, h3, -⟩ := h.2.1 hbad true true
  exact ⟨rfl, h1, h3,
    h.2.2.2 ⟨0, none, -1, -1⟩ (example_display accept_all RR_Rotate_0 800 480) true true rfl⟩

/-! ## The property channel claims -/

/-- For an item count that fits a `gint`, the comparison in `unsigned long`
with the `gint` expected count is the comparison of the two integers. -/
theorem items_ne_expected_iff (ulong_bits : Nat) (hbits : 32 ≤ ulong_bits)
    (items : Nat) (hitems : items < 2147483648) (expected : Int) (hexp : isGint expected) :
    ((items : Int) ≠ expected % (2 : Int) ^ ulong_bits) ↔ (items : Int) ≠ expected := by
  have hpow : (4294967296 : Int) ≤ (2 : Int) ^ ulong_bits := by
    have : (2 : Int) ^ 32 ≤ (2 : Int) ^ ulong_bits :=
      pow_le_pow_right₀ (by norm_num) hbits
    simpa using this
  unfold isGint at hexp
  by_cases h0 : 0 ≤ expected
  · rw [Int.emod_eq_of_lt h0 (by omega)]
  · have e : expected % (2 : Int) ^ ulong_bits = expected + (2 : Int) ^ ulong_bits := by
      rw [← Int.add_emod_self, Int.emod_eq_of_lt (by omega) (by omega)]
    rw [e]
    constructor
    · intro _; omega
    · intro _; omega

/-- Whatever the payload, a reply of 4294967295 items read with a 32-bit
`unsigned long` passes the test against the expected count `-1`, and the count
stored for the caller is `-1`. -/
theorem validate_count_wraps_32 (payload : List Nat) :
    hd_util_get_win_prop_data_and_validate 32 ⟨Success, some payload, 8, 4294967295⟩ 0 (-1)
        (some 0)
      = ⟨some payload, some (-1),
         [PropertyCall.mb_wm_util_async_trap_x_errors, PropertyCall.XGetWindowProperty,
          PropertyCall.mb_wm_util_async_untrap_x_errors]⟩ := by
  unfold hd_util_get_win_prop_data_and_validate
  dsimp only
  rw [if_neg (by simp [Success]), if_neg (by simp), if_neg (by norm_num)]
  simp [toGint]

/-- Whatever the payload, a reply of 2147483648 items is reported to the
caller as `-2147483648`. -/
theorem validate_count_wraps_64 (payload : List Nat) :
    hd_util_get_win_prop_data_and_validate 64 ⟨Success, some payload, 8, 2147483648⟩ 0 0
        (some 0)
      = ⟨some payload, some (-2147483648),
         [PropertyCall.mb_wm_util_async_trap_x_errors, PropertyCall.XGetWindowProperty,
          PropertyCall.mb_wm_util_async_untrap_x_errors]⟩ := by
  unfold hd_util_get_win_prop_data_and_validate
  dsimp only
  rw [if_neg (by simp [Success]), if_neg (by simp), if_neg (by simp)]
  simp [toGint]

/-- C22 (as stated, refuted): item counts that do not fit a `gint` are neither
compared nor reported as stored.  With a 32-bit `unsigned long`, a property of
4294967295 items read with the expected count `-1`, which is non-zero and
differs from the stored count, is returned instead of `NULL`, and the caller's
count becomes `-1`; with a 64-bit `unsigned long`, a property of 2147483648
items is returned with the count reported as `-2147483648`. -/
theorem C22_large_item_count_wraps :
    (-1 : Int) ≠ 0 ∧ ((4294967295 : Nat) : Int) ≠ -1
    ∧ (hd_util_get_win_prop_data_and_validate 32
          ⟨Success, some (List.replicate 4294967295 0), 8, 4294967295⟩ 0 (-1) (some 0)).data
        = some (List.replicate 4294967295 0)
    ∧ (hd_util_get_win_prop_data_and_validate 32
          ⟨Success, some (List.replicate 4294967295 0), 8, 4294967295⟩ 0 (-1)
          (some 0)).n_items_ret = some (-1)
    ∧ (hd_util_get_win_prop_data_and_validate 64
          ⟨Success, some (List.replicate 2147483648 0), 8, 2147483648⟩ 0 0 (some 0)).data
        = some (List.replicate 2147483648 0)
    ∧ (hd_util_get_win_prop_data_and_validate 64
          ⟨Success, some (List.replicate 2147483648 0), 8, 2147483648⟩ 0 0
          (some 0)).n_items_ret = some (-2147483648) := by
  refine ⟨by decide, by decide, ?_, ?_, ?_, ?_⟩
  · rw [validate_count_wraps_32]
  · rw [validate_count_wraps_32]
  · rw [validate_count_wraps_64]
  · rw [validate_count_wraps_64]

/-- C22 (amended): for stored item counts that fit a `gint` (below `2 ^ 31`),
`hd_util_get_win_prop_data_and_validate` never raises (the read is made
inside the X error trap and every path returns) and returns `NULL` exactly
when the property read fails or gives no data (the property is absent), or a
non-zero expected format differs from the stored format, or a non-zero
expected item count differs from the stored item count; in every other case
it returns the stored payload and, when the caller asks for it, reports the
stored item count; on `NULL` the caller's item count is left as it was.
`unsigned long` has at least 32 bits. -/
theorem C22_get_property_validates (ulong_bits : Nat) (reply : WindowPropertyReply)
    (expected_format expected_n_items : Int) (n_items_ret : Option Int)
    (hbits : 32 ≤ ulong_bits) (hitems : reply.items_ret < 2147483648)
    (hexp : isGint expected_n_items) :
    ((hd_util_get_win_prop_data_and_validate ulong_bits reply expected_format
          expected_n_items n_items_ret).data = none ↔
        (reply.status ≠ Success ∨ reply.prop_data = none)
        ∨ (expected_format ≠ 0 ∧ reply.format_ret ≠ expected_format)
        ∨ (expected_n_items ≠ 0 ∧ (reply.items_ret : Int) ≠ expected_n_items))
    ∧ ((hd_util_get_win_prop_data_and_validate ulong_bits reply expected_format
          expected_n_items n_items_ret).data ≠ none →
        (hd_util_get_win_prop_data_and_validate ulong_bits reply expected_format
          expected_n_items n_items_ret).data = reply.prop_data
        ∧ (hd_util_get_win_prop_data_and_validate ulong_bits reply expected_format
          expected_n_items n_items_ret).n_items_ret
            = n_items_ret.map (fun _ => (reply.items_ret : Int)))
    ∧ ((hd_util_get_win_prop_data_and_validate ulong_bits reply expected_format
          expected_n_items n_items_ret).data = none →
        (hd_util_get_win_prop_data_and_validate ulong_bits reply expected_format
          expected_n_items n_items_ret).n_items_ret = n_items_ret)
    ∧ (hd_util_get_win_prop_data_and_validate ulong_bits reply expected_format
          expected_n_items n_items_ret).calls.take 3
        = [PropertyCall.mb_wm_util_async_trap_x_errors, PropertyCall.XGetWindowProperty,
           PropertyCall.mb_wm_util_async_untrap_x_errors] := by
  have hcmp := items_ne_expected_iff ulong_bits hbits reply.items_ret hitems
    expected_n_items hexp
  have hgint : toGint (reply.items_ret : Int) = (reply.items_ret : Int) :=
    toGint_of_isGint ⟨by omega, by omega⟩
  unfold hd_util_get_win_prop_data_and_validate
  dsimp only
  by_cases h1 : reply.status ≠ Success ∨ reply.prop_data = none
  · rw [if_pos h1]
    refine ⟨⟨fun _ => Or.inl h1, fun _ => rfl⟩, fun h => absurd rfl h, fun _ => rfl, ?_⟩
    split <;> rfl
  · rw [if_neg h1]
    by_cases h2 : expected_format ≠ 0 ∧ reply.format_ret ≠ expected_format
    · rw [if_pos h2]
      refine ⟨⟨fun _ => Or.inr (Or.inl h2), fun _ => rfl⟩, fun h => absurd rfl h,
        fun _ => rfl, ?_⟩
      split <;> rfl
    · rw [if_neg h2]
      by_cases h3 : expected_n_items ≠ 0
          ∧ (reply.items_ret : Int) ≠ expected_n_items % (2 : Int) ^ ulong_bits
      · rw [if_pos h3]
        refine ⟨⟨fun _ => Or.inr (Or.inr ⟨h3.1, hcmp.mp h3.2⟩), fun _ => rfl⟩,
          fun h => absurd rfl h, fun _ => rfl, ?_⟩
        split <;> rfl
      · rw [if_neg h3]
        have hdata : reply.prop_data ≠ none := fun h => h1 (Or.inr h)
        refine ⟨⟨fun h => absurd h hdata, ?_⟩, fun _ => ⟨rfl, by rw [hgint]⟩,
          fun h => absurd h hdata, rfl⟩
        rintro (h | h | h)
        · exact absurd h h1
        · exact absurd h h2
        · exact absurd ⟨h.1, hcmp.mpr h.2⟩ h3

/-- Witness for C22: a stored 32-bit property of one item is returned when one
item of format 32 is expected, and refused when two items are expected. -/
theorem C22_get_property_validates_witness :
    (32 : Nat) ≤ 32 ∧ (1 : Nat) < 2147483648 ∧ isGint 1 ∧ isGint 2
    ∧ (hd_util_get_win_prop_data_and_validate 32 ⟨Success, some [1], 32, 1⟩ 32 1
        (some 7)).data = some [1]
    ∧ (hd_util_get_win_prop_data_and_validate 32 ⟨Success, some [1], 32, 1⟩ 32 1
        (some 7)).n_items_ret = some 1
    ∧ (hd_util_get_win_prop_data_and_validate 32 ⟨Success, some [1], 32, 1⟩ 32 2
        (some 7)).data = none
    ∧ (hd_util_get_win_prop_data_and_validate 32 ⟨Success, some [1], 32, 1⟩ 32 2
        (some 7)).n_items_ret = some 7 := by
  have ha := C22_get_property_validates 32 ⟨Success, some [1], 32, 1⟩ 32 1 (some 7)
    (by decide) (by decide) (by decide)
  have hb := C22_get_property_validates 32 ⟨Success, some [1], 32, 1⟩ 32 2 (some 7)
    (by decide) (by decide) (by decide)
  have hnone : (hd_util_get_win_prop_data_and_validate 32 ⟨Success, some [1], 32, 1⟩ 32 2
      (some 7)).data = none := hb.1.mpr (Or.inr (Or.inr (by decide)))
  have hsome : (hd_util_get_win_prop_data_and_validate 32 ⟨Success, some [1], 32, 1⟩ 32 1
      (some 7)).data ≠ none := by decide
  exact ⟨by decide, by decide, by decide, by decide, (ha.2.1 hsome).1, (ha.2.1 hsome).2,
    hnone, hb.2.2.1 hnone⟩

theorem list_set_pair (a b : Option Nat) (p : Prop) [Decidable p] (w h : Nat) :
    (([a, b] : List (Option Nat)).set (if p then 1 else 0) (some w)).set
        (if p then 0 else 1) (some h)
      = if p then [some h, some w] else [some w, some h] := by
  by_cases hp : p <;> simp [hp]

/-- C23: `hd_util_set_screen_size_property` writes exactly two 32-bit values
ordered (width, height) for the given orientation: (landscape width,
landscape height) when `is_portrait` is false, and (landscape height,
landscape width) when `is_portrait` is any non-zero value; both entries are
always written. -/
theorem C23_screen_size_property_order (landscape_width landscape_height : Nat)
    (is_portrait : Int) (hw : isGuint landscape_width) (hh : isGuint landscape_height) :
    (hd_util_set_screen_size_property landscape_width landscape_height is_portrait).format = 32
    ∧ (hd_util_set_screen_size_property landscape_width landscape_height is_portrait).nelements
        = 2
    ∧ (is_portrait = 0 →
        (hd_util_set_screen_size_property landscape_width landscape_height is_portrait).value
          = [some landscape_width, some landscape_height])
    ∧ (is_portrait ≠ 0 →
        (hd_util_set_screen_size_property landscape_width landscape_height is_portrait).value
          = [some landscape_height, some landscape_width])
    ∧ (hd_util_set_screen_size_property landscape_width landscape_height is_portrait
        ).value.length = 2
    ∧ ∀ v ∈ (hd_util_set_screen_size_property landscape_width landscape_height is_portrait
        ).value, v ≠ none := by
  unfold isGuint at hw hh
  have ew : landscape_width % 4294967296 = landscape_width := Nat.mod_eq_of_lt hw
  have eh : landscape_height % 4294967296 = landscape_height := Nat.mod_eq_of_lt hh
  have hv : (hd_util_set_screen_size_property landscape_width landscape_height is_portrait
      ).value = if is_portrait ≠ 0 then [some landscape_height, some landscape_width]
        else [some landscape_width, some landscape_height] := by
    unfold hd_util_set_screen_size_property
    dsimp only
    rw [list_set_pair, ew, eh]
  refine ⟨rfl, rfl, ?_, ?_, ?_, ?_⟩
  · intro h0
    rw [hv, if_neg (not_not.mpr h0)]
  · intro h1
    rw [hv, if_pos h1]
  · rw [hv]
    split <;> rfl
  · rw [hv]
    intro v hmem
    split at hmem <;> simp at hmem <;> rcases hmem with rfl | rfl <;> simp

/-- Witness for C23: an 800 x 480 landscape screen, with `is_portrait` 0 and
with the non-zero value 5. -/
theorem C23_screen_size_property_order_witness :
    isGuint 800 ∧ isGuint 480
    ∧ (hd_util_set_screen_size_property 800 480 0).value = [some 800, some 480]
    ∧ (hd_util_set_screen_size_property 800 480 5).value = [some 480, some 800] :=
  ⟨by decide, by decide,
   (C23_screen_size_property_order 800 480 0 (by decide) (by decide)).2.2.1 rfl,
   (C23_screen_size_property_order 800 480 5 (by decide) (by decide)).2.2.2.1 (by decide)⟩

/-! ## The calls of the probe -/

theorem only_probed_refl (srv : XServer) : srv.only_probed srv :=
  ⟨[], by simp, by simp⟩

theorem only_probed_trans {a b c : XServer} (h1 : a.only_probed b)
    (h2 : b.only_probed c) : a.only_probed c := by
  obtain ⟨q1, c1, n1⟩ := h1
  obtain ⟨q2, c2, n2⟩ := h2
  refine ⟨q1 ++ q2, ?_, ?_⟩
  · rw [c2, c1, List.append_assoc]
  · intro c hc
    rcases List.mem_append.mp hc with h | h
    · exact n1 c h
    · exact n2 c h

theorem only_probed_call (srv : XServer) (c : Call) (hc : Call.is_probe c = true) :
    srv.only_probed (srv.call c) :=
  ⟨[c], rfl, by simpa using hc⟩

theorem randr_supported_only_probed (st : Statics) (srv : XServer) :
    srv.only_probed (randr_supported st srv).2.2 := by
  unfold randr_supported
  split
  · exact only_probed_call srv _ rfl
  · exact only_probed_refl srv

theorem find_panel_crtc_only_probed (outputs : List RROutput) (srv : XServer) :
    srv.only_probed (find_panel_crtc outputs srv).2 := by
  induction outputs generalizing srv with
  | nil => exact only_probed_refl srv
  | cons o os ih =>
    rw [find_panel_crtc]
    have q1 := only_probed_call srv (Call.XRRGetOutputInfo o) rfl
    have q2 := only_probed_call (srv.call (Call.XRRGetOutputInfo o))
      (Call.XRRGetOutputProperty o) rfl
    split
    · exact only_probed_trans q1 (ih _)
    · dsimp only
      split
      · split
        · exact only_probed_trans q1 q2
        · exact only_probed_trans q1 (only_probed_trans q2 (ih _))
      · exact only_probed_trans q1 (only_probed_trans q2 (ih _))

theorem get_primary_crtc_only_probed (srv : XServer) (res : XRRScreenResources) :
    srv.only_probed (get_primary_crtc srv res).2 := by
  unfold get_primary_crtc
  have hf := find_panel_crtc_only_probed res.outputs srv
  split
  · exact only_probed_refl srv
  · split
    · rename_i crtc srv' heq
      rw [heq] at hf
      exact hf
    · rename_i srv' heq
      rw [heq] at hf
      dsimp only
      split
      · exact only_probed_trans hf (only_probed_call _ Call.XRRGetOutputPrimary rfl)
      · exact only_probed_trans hf
          (only_probed_trans (only_probed_call _ Call.XRRGetOutputPrimary rfl)
            (only_probed_call _ (Call.XRRGetOutputInfo _) rfl))

/-- The first part of the function waits and queries, nothing else. -/
theorem probe_crtc_only_probed (st : Statics) (srv : XServer) :
    srv.only_probed (probe_crtc st srv).2.2 := by
  have hq0 := only_probed_call srv (Call.usleep 100000) rfl
  have hq1 := randr_supported_only_probed st (srv.call (Call.usleep 100000))
  unfold probe_crtc
  dsimp only
  rcases hr : randr_supported st (srv.call (Call.usleep 100000)) with ⟨b, st', srv'⟩
  rw [hr] at hq1
  simp only at hq1
  have hq : srv.only_probed srv' := only_probed_trans hq0 hq1
  cases b with
  | false => exact hq
  | true =>
    dsimp only
    have hq2 := only_probed_trans hq (only_probed_call srv' Call.XRRGetScreenResources rfl)
    cases hres : (srv'.call Call.XRRGetScreenResources).env.resources with
    | none => exact hq2
    | some res =>
      dsimp only
      have hfound : (srv'.call Call.XRRGetScreenResources).only_probed
          (if st'.crtc = none then get_primary_crtc (srv'.call Call.XRRGetScreenResources) res
            else (st'.crtc, srv'.call Call.XRRGetScreenResources)).2 := by
        split
        · exact get_primary_crtc_only_probed _ _
        · exact only_probed_refl _
      rcases hf : (if st'.crtc = none
          then get_primary_crtc (srv'.call Call.XRRGetScreenResources) res
          else (st'.crtc, srv'.call Call.XRRGetScreenResources)) with ⟨found, srv2⟩
      rw [hf] at hfound
      simp only at hfound
      have hq3 := only_probed_trans hq2 hfound
      cases found with
      | none => exact hq3
      | some c =>
        dsimp only
        have hq4 := only_probed_trans hq3 (only_probed_call srv2 (Call.XRRGetCrtcInfo c) rfl)
        cases hinfo : (srv2.call (Call.XRRGetCrtcInfo c)).hw.crtcs c with
        | none => exact hq4
        | some info => exact hq4

/-! ## The orientation claims, continued -/

/-- C24: when `hd_util_change_screen_orientation_real` performs a transition,
its calls are the wait and the queries of the probe followed by exactly:
synchronise (`XSync`, then `glFinish` for the pending GL drawing), grab the
server, write suppress-root-reconfiguration = 1, disable the CRTC, resize the
screen, configure the CRTC with the target rotation and the position, mode
and outputs read before, ungrab the server, synchronise, remap the input
devices; so disable, resize and rotate lie between the grab and the ungrab.
The resize uses (min, max) of the display's pixel and millimetre dimensions
as (width, height) towards portrait and (max, min) towards landscape.  The
input-viewport flip follows exactly when the final configuration succeeded,
which is also when the call returns true. -/
theorem C24_transition_trace (st st1 : Statics) (srv srv1 : XServer) (c : RRCrtc)
    (info : XRRCrtcInfo) (goto_portrait : Bool)
    (hprobe : probe_crtc st srv = (some (c, info), st1, srv1))
    (hsup : info.rotations &&& target_rotation info goto_portrait ≠ 0)
    (hne : info.rotation ≠ target_rotation info goto_portrait) :
    (∃ probes, (∀ q ∈ probes, Call.is_probe q = true)
      ∧ (hd_util_change_screen_orientation_real st srv goto_portrait true).2.2.calls
        = srv.calls ++ probes ++
          ([Call.XSync, Call.glFinish, Call.XGrabServer,
            Call.XChangeProperty_suppress_root_reconfiguration 1,
            Call.XRRSetCrtcConfig ⟨c, info.timestamp, 0, 0, X_None, RR_Rotate_0, []⟩,
            Call.XRRSetScreenSize (target_size srv.env goto_portrait),
            Call.XRRSetCrtcConfig
              ⟨c, info.timestamp, info.x, info.y, info.mode,
               target_rotation info goto_portrait, info.outputs⟩,
            Call.XUngrabServer, Call.XSync, Call.hd_rotate_input_devices]
          ++ (if srv.env.crtc_config_status
                ⟨c, info.timestamp, info.x, info.y, info.mode,
                 target_rotation info goto_portrait, info.outputs⟩ = RRSetConfigSuccess
              then [Call.hd_render_manager_flip_input_viewport] else [])))
    ∧ ((hd_util_change_screen_orientation_real st srv goto_portrait true).1 = true ↔
        srv.env.crtc_config_status
          ⟨c, info.timestamp, info.x, info.y, info.mode,
           target_rotation info goto_portrait, info.outputs⟩ = RRSetConfigSuccess)
    ∧ target_size srv.env true
        = ⟨min srv.env.display_width srv.env.display_height,
           max srv.env.display_width srv.env.display_height,
           min srv.env.display_width_mm srv.env.display_height_mm,
           max srv.env.display_width_mm srv.env.display_height_mm⟩
    ∧ target_size srv.env false
        = ⟨max srv.env.display_width srv.env.display_height,
           min srv.env.display_width srv.env.display_height,
           max srv.env.display_width_mm srv.env.display_height_mm,
           min srv.env.display_width_mm srv.env.display_height_mm⟩ := by
  obtain ⟨hq, -⟩ := probe_crtc_spec st srv
  have hp := probe_crtc_only_probed st srv
  rw [hprobe] at hq hp
  obtain ⟨probes, hcalls, hprobes⟩ := hp
  have henv : srv1.env = srv.env := hq.1
  have hcond : ¬ (info.rotations &&& target_rotation info goto_portrait = 0
      ∨ info.rotation = target_rotation info goto_portrait) := by
    rintro (h | h)
    · exact hsup h
    · exact hne h
  obtain ⟨r1, -, -, -, -, r6⟩ := rotate_crtc_spec srv1 c info
    (target_rotation info goto_portrait) (target_size srv1.env goto_portrait)
  rw [real_of_probe_change st st1 srv srv1 c info goto_portrait hprobe, if_neg hcond]
  dsimp only
  rw [henv] at r1 r6 ⊢
  refine ⟨⟨probes, hprobes, ?_⟩, ?_, rfl, rfl⟩
  · rw [r6]
    simp only at hcalls
    rw [hcalls]
  · rw [r1]
    simp

/-- Witness for C24: the example display turned to portrait; the screen is
resized to 480 x 800 (46 x 77 mm) inside the grab and the flip comes last. -/
theorem C24_transition_trace_witness :
    (hd_util_change_screen_orientation_real Statics.initial
        (example_display accept_all RR_Rotate_0 800 480) true true).2.2.calls
      = [Call.usleep 100000, Call.XRRQueryVersion, Call.XRRGetScreenResources,
         Call.XRRGetCrtcInfo 63,
         Call.XSync, Call.glFinish, Call.XGrabServer,
         Call.XChangeProperty_suppress_root_reconfiguration 1,
         Call.XRRSetCrtcConfig ⟨63, 0, 0, 0, X_None, RR_Rotate_0, []⟩,
         Call.XRRSetScreenSize ⟨480, 800, 46, 77⟩,
         Call.XRRSetCrtcConfig ⟨63, 0, 0, 0, 70, RR_Rotate_90, [66]⟩,
         Call.XUngrabServer, Call.XSync, Call.hd_rotate_input_devices,
         Call.hd_render_manager_flip_input_viewport]
    ∧ (hd_util_change_screen_orientation_real Statics.initial
        (example_display accept_all RR_Rotate_0 800 480) true true).1 = true := by
  obtain ⟨-, hret, -⟩ := C24_transition_trace Statics.initial _
    (example_display accept_all RR_Rotate_0 800 480) _ 63
    ⟨0, 0, 0, 800, 480, 70, RR_Rotate_0, [66], 15⟩ true rfl (by decide) (by decide)
  exact ⟨by decide, hret.mpr rfl⟩

theorem choose_rotation_initially_rotated (env : XEnvironment) (st : Statics)
    (info : XRRCrtcInfo) (goto_portrait do_change : Bool) :
    (choose_rotation env st info goto_portrait do_change).2.2.initially_rotated
      = (if st.initially_rotated = -1 then
          (if info.rotation ≠ RR_Rotate_0 ∧ info.rotation ≠ RR_Rotate_180 then 1 else 0)
        else st.initially_rotated) := by
  unfold choose_rotation
  dsimp only
  by_cases hi : st.initially_rotated = -1
  · by_cases hd : st.display_is_portrait = -1
    · cases goto_portrait <;> cases is_pre_rotated info <;>
        simp only [hd, hi, if_true, if_false, Bool.false_eq_true]
    · cases goto_portrait <;> cases is_pre_rotated info <;>
        simp only [hd, hi, if_true, if_false, Bool.false_eq_true]
  · by_cases hd : st.display_is_portrait = -1
    · cases goto_portrait <;> cases is_pre_rotated info <;>
        simp only [hd, hi, if_true, if_false, Bool.false_eq_true]
    · cases goto_portrait <;> cases is_pre_rotated info <;>
        simp only [hd, hi, if_true, if_false, Bool.false_eq_true]

/-- The statics after a call that read the CRTC info are those of
`choose_rotation`, on every path. -/
theorem real_statics_of_probe_some (st st1 : Statics) (srv srv1 : XServer) (c : RRCrtc)
    (info : XRRCrtcInfo) (goto_portrait do_change : Bool)
    (hp : probe_crtc st srv = (some (c, info), st1, srv1)) :
    (hd_util_change_screen_orientation_real st srv goto_portrait do_change).2.1
      = (choose_rotation srv1.env st1 info goto_portrait do_change).2.2 := by
  cases do_change with
  | false => rw [real_of_probe_only st st1 srv srv1 c info goto_portrait hp]
  | true =>
    rw [real_of_probe_change st st1 srv srv1 c info goto_portrait hp]
    split <;> rfl

/-- A call that finds `initially_rotated` already captured leaves it alone,
whether or not it reads the CRTC info. -/
theorem real_initially_rotated_kept (st : Statics) (srv : XServer)
    (goto_portrait do_change : Bool) (h : st.initially_rotated ≠ -1) :
    (hd_util_change_screen_orientation_real st srv goto_portrait do_change).2.1.initially_rotated
      = st.initially_rotated := by
  have hspec := (probe_crtc_spec st srv).2.2.1
  rcases hp : probe_crtc st srv with ⟨_ | ⟨c, info⟩, st1, srv1⟩
  · rw [hp] at hspec
    rw [real_of_probe_none st st1 srv srv1 goto_portrait do_change hp]
    exact hspec
  · rw [hp] at hspec
    rw [real_statics_of_probe_some st st1 srv srv1 c info goto_portrait do_change hp,
      choose_rotation_initially_rotated]
    dsimp only at hspec
    rw [hspec, if_neg h]

/-- A call that does not get as far as the CRTC info leaves every one of
`display_is_portrait` and `initially_rotated` as it was. -/
theorem real_statics_of_failed_probe (st : Statics) (srv : XServer)
    (goto_portrait do_change : Bool) (hp : (probe_crtc st srv).1 = none) :
    (hd_util_change_screen_orientation_real st srv goto_portrait do_change).2.1.initially_rotated
      = st.initially_rotated
    ∧ (hd_util_change_screen_orientation_real st srv goto_portrait
        do_change).2.1.display_is_portrait = st.display_is_portrait := by
  have hspec := probe_crtc_spec st srv
  rcases hq : probe_crtc st srv with ⟨_ | ⟨c, info⟩, st1, srv1⟩
  · rw [hq] at hspec
    rw [real_of_probe_none st st1 srv srv1 goto_portrait do_change hq]
    exact ⟨hspec.2.2.1, hspec.2.1⟩
  · rw [hq] at hp
    cases hp

/-- A call that finds `display_is_portrait` set leaves it set. -/
theorem real_display_is_portrait_kept (st : Statics) (srv : XServer)
    (goto_portrait do_change : Bool) (h : st.display_is_portrait = 1) :
    (hd_util_change_screen_orientation_real st srv goto_portrait
        do_change).2.1.display_is_portrait = 1 := by
  have hspec := (probe_crtc_spec st srv).2.1
  rcases hp : probe_crtc st srv with ⟨_ | ⟨c, info⟩, st1, srv1⟩
  · rw [hp] at hspec
    rw [real_of_probe_none st st1 srv srv1 goto_portrait do_change hp]
    exact hspec.trans h
  · rw [hp] at hspec
    dsimp only at hspec
    rw [real_statics_of_probe_some st st1 srv srv1 c info goto_portrait do_change hp,
      (choose_rotation_want srv1.env st1 info goto_portrait do_change).2, hspec, h]
    split
    · rfl
    · rfl

/-- Any sequence of later calls, each on an arbitrary server and with arbitrary
arguments, keeps a captured `initially_rotated`. -/
theorem calls_initially_rotated_kept :
    ∀ (later : List (XServer × Bool × Bool)) (st : Statics),
      st.initially_rotated ≠ -1 →
      (later.foldl (fun s call =>
          (hd_util_change_screen_orientation_real s call.1 call.2.1 call.2.2).2.1)
        st).initially_rotated = st.initially_rotated := by
  intro later
  induction later with
  | nil => intro st _; rfl
  | cons call rest ih =>
    intro st h
    rw [List.foldl_cons]
    have hk := real_initially_rotated_kept st call.1 call.2.1 call.2.2 h
    rw [ih _ (by rw [hk]; exact h), hk]

/-- Any sequence of later calls keeps `display_is_portrait` set. -/
theorem calls_display_is_portrait_kept :
    ∀ (later : List (XServer × Bool × Bool)) (st : Statics),
      st.display_is_portrait = 1 →
      (later.foldl (fun s call =>
          (hd_util_change_screen_orientation_real s call.1 call.2.1 call.2.2).2.1)
        st).display_is_portrait = 1 := by
  intro later
  induction later with
  | nil => intro st h; exact h
  | cons call rest ih =>
    intro st h
    rw [List.foldl_cons]
    exact ih _ (real_display_is_portrait_kept st call.1 call.2.1 call.2.2 h)

/-- C25: `initially_rotated` is captured once and never recomputed.  A call of
`hd_util_change_screen_orientation_real` that finds it unset (`-1`) and reads
the CRTC info sets it to `1` when the rotation read is neither
`RR_Rotate_0` nor `RR_Rotate_180` and to `0` otherwise; every sequence of
later calls, on whatever servers and with whatever arguments, leaves that
value in place; and a call that does not get as far as the CRTC info leaves
the variable as it found it, so that the capturing call is the first one that
reads the CRTC info. -/
theorem C25_initially_rotated_captured_once (st st1 : Statics) (srv srv1 : XServer)
    (c : RRCrtc) (info : XRRCrtcInfo) (goto_portrait do_change : Bool)
    (hfirst : st.initially_rotated = -1)
    (hp : probe_crtc st srv = (some (c, info), st1, srv1)) :
    ((hd_util_change_screen_orientation_real st srv goto_portrait
          do_change).2.1.initially_rotated = 1
        ↔ info.rotation ≠ RR_Rotate_0 ∧ info.rotation ≠ RR_Rotate_180)
    ∧ ((hd_util_change_screen_orientation_real st srv goto_portrait
          do_change).2.1.initially_rotated = 0
        ↔ ¬ (info.rotation ≠ RR_Rotate_0 ∧ info.rotation ≠ RR_Rotate_180))
    ∧ (∀ later : List (XServer × Bool × Bool),
        (later.foldl (fun s call =>
            (hd_util_change_screen_orientation_real s call.1 call.2.1 call.2.2).2.1)
          (hd_util_change_screen_orientation_real st srv goto_portrait
            do_change).2.1).initially_rotated
          = (hd_util_change_screen_orientation_real st srv goto_portrait
              do_change).2.1.initially_rotated)
    ∧ (∀ (st0 : Statics) (srv0 : XServer) (goto_portrait0 do_change0 : Bool),
        (probe_crtc st0 srv0).1 = none →
        (hd_util_change_screen_orientation_real st0 srv0 goto_portrait0
            do_change0).2.1.initially_rotated = st0.initially_rotated) := by
  have hspec := (probe_crtc_spec st srv).2.2.1
  rw [hp] at hspec
  dsimp only at hspec
  have hval : (hd_util_change_screen_orientation_real st srv goto_portrait
      do_change).2.1.initially_rotated
        = (if info.rotation ≠ RR_Rotate_0 ∧ info.rotation ≠ RR_Rotate_180 then 1 else 0) := by
    rw [real_statics_of_probe_some st st1 srv srv1 c info goto_portrait do_change hp,
      choose_rotation_initially_rotated, hspec, if_pos hfirst]
  refine ⟨?_, ?_, ?_, ?_⟩
  · rw [hval]
    by_cases hr : info.rotation ≠ RR_Rotate_0 ∧ info.rotation ≠ RR_Rotate_180
    · rw [if_pos hr]; exact ⟨fun _ => hr, fun _ => rfl⟩
    · rw [if_neg hr]; exact ⟨fun h => absurd h (by decide), fun h => absurd h hr⟩
  · rw [hval]
    by_cases hr : info.rotation ≠ RR_Rotate_0 ∧ info.rotation ≠ RR_Rotate_180
    · rw [if_pos hr]; exact ⟨fun h => absurd h (by decide), fun h => absurd hr h⟩
    · rw [if_neg hr]; exact ⟨fun _ => hr, fun _ => rfl⟩
  · intro later
    apply calls_initially_rotated_kept
    rw [hval]
    split <;> decide
  · intro st0 srv0 goto_portrait0 do_change0 h0
    exact (real_statics_of_failed_probe st0 srv0 goto_portrait0 do_change0 h0).1

/-- C25 on a display found rotated by 90 degrees: the first call captures `1`,
and a later call that reads rotation 0 keeps it. -/
theorem C25_initially_rotated_captured_once_witness :
    (hd_util_change_screen_orientation_real Statics.initial
        (example_display accept_all RR_Rotate_90 480 800) true false).2.1.initially_rotated = 1
    ∧ (hd_util_change_screen_orientation_real
        (hd_util_change_screen_orientation_real Statics.initial
          (example_display accept_all RR_Rotate_90 480 800) true false).2.1
        (example_display accept_all RR_Rotate_0 800 480) false true).2.1.initially_rotated = 1 := by
  obtain ⟨h1, -, h3, -⟩ := C25_initially_rotated_captured_once Statics.initial _
    (example_display accept_all RR_Rotate_90 480 800) _ 63
    ⟨0, 0, 0, 480, 800, 70, RR_Rotate_90, [66], 15⟩ true false rfl rfl
  have h1v := h1.mpr (by decide)
  refine ⟨h1v, ?_⟩
  have h := h3 [(example_display accept_all RR_Rotate_0 800 480, false, true)]
  rw [h1v] at h
  exact h

/-- C30: on a natively portrait display, that is one whose CRTC info reads
rotation `RR_Rotate_0` with `width < height`,
`hd_util_change_screen_orientation (wm, TRUE)` returns `FALSE`, leaves the
hardware state (CRTCs, screen size, the suppression property, the grab) as it
was, makes only calls that change nothing, and leaves `display_is_portrait`
at `TRUE`; and from any state with `display_is_portrait` at `TRUE`, every
sequence of calls of `hd_util_change_screen_orientation_real` leaves it at
`TRUE`. -/
theorem C30_native_portrait_no_op (st st1 : Statics) (srv srv1 : XServer)
    (c : RRCrtc) (info : XRRCrtcInfo)
    (hp : probe_crtc st srv = (some (c, info), st1, srv1))
    (hrot : info.rotation = RR_Rotate_0) (hportrait : info.width < info.height) :
    (hd_util_change_screen_orientation st srv true).1 = false
    ∧ (hd_util_change_screen_orientation st srv true).2.2.hw = srv.hw
    ∧ (∃ queries,
        (hd_util_change_screen_orientation st srv true).2.2.calls = srv.calls ++ queries
        ∧ ∀ q ∈ queries,
            Call.changes_state q = false
            ∧ (∀ value, q ≠ Call.XChangeProperty_suppress_root_reconfiguration value)
            ∧ q ≠ Call.XDeleteProperty_suppress_root_reconfiguration
            ∧ (∀ config, q ≠ Call.XRRSetCrtcConfig config)
            ∧ (∀ size, q ≠ Call.XRRSetScreenSize size))
    ∧ (hd_util_change_screen_orientation st srv true).2.1.display_is_portrait = 1
    ∧ (∀ (st0 : Statics) (later : List (XServer × Bool × Bool)),
        st0.display_is_portrait = 1 →
        (later.foldl (fun s call =>
            (hd_util_change_screen_orientation_real s call.1 call.2.1 call.2.2).2.1)
          st0).display_is_portrait = 1) := by
  have hpre : is_pre_rotated info = true := by
    unfold is_pre_rotated
    rw [hrot]
    simp [hportrait]
  have htarget : target_rotation info true = RR_Rotate_0 := by
    unfold target_rotation
    rw [hpre]
    rfl
  have hspec := (probe_crtc_spec st srv).1
  rw [hp] at hspec
  dsimp only at hspec
  have hreal : hd_util_change_screen_orientation st srv true
      = (false, (choose_rotation srv1.env st1 info true true).2.2, srv1) := by
    unfold hd_util_change_screen_orientation
    rw [real_of_probe_change st st1 srv srv1 c info true hp, htarget,
      if_pos (Or.inr hrot)]
  rw [hreal]
  refine ⟨rfl, hspec.2.1, ?_, ?_, ?_⟩
  · obtain ⟨-, -, queries, hc, hq⟩ := hspec
    refine ⟨queries, hc, fun q hmem => ?_⟩
    have hn := not_a_transition_call q (hq q hmem)
    exact ⟨hq q hmem, hn.2.1, hn.2.2.1, hn.2.2.2.1, hn.2.2.2.2.1⟩
  · show (choose_rotation srv1.env st1 info true true).2.2.display_is_portrait = 1
    rw [(choose_rotation_want srv1.env st1 info true true).2, hpre]
    rfl
  · intro st0 later h0
    exact calls_display_is_portrait_kept later st0 h0

/-- C30 on a 480x800 panel at rotation 0: the request for portrait returns
`FALSE`, makes the four probing calls only, and records the display as
portrait. -/
theorem C30_native_portrait_no_op_witness :
    (hd_util_change_screen_orientation Statics.initial
        (example_display accept_all RR_Rotate_0 480 800) true).1 = false
    ∧ (hd_util_change_screen_orientation Statics.initial
        (example_display accept_all RR_Rotate_0 480 800) true).2.2.calls
      = [Call.usleep 100000, Call.XRRQueryVersion, Call.XRRGetScreenResources,
         Call.XRRGetCrtcInfo 63]
    ∧ (hd_util_change_screen_orientation Statics.initial
        (example_display accept_all RR_Rotate_0 480 800) true).2.1.display_is_portrait = 1 := by
  obtain ⟨h1, -, -, h4, -⟩ := C30_native_portrait_no_op Statics.initial _
    (example_display accept_all RR_Rotate_0 480 800) _ 63
    ⟨0, 0, 0, 480, 800, 70, RR_Rotate_0, [66], 15⟩ rfl rfl (by decide)
  exact ⟨h1, by decide, h4⟩

/-! ## The remaining geometry, key-frame and stacking claims -/

/-- C26 (as stated, refuted): on a screen whose shorter side does not fit a
`gint` the rotated rectangle leaves the target frame.  For `scrw = 2147483649`
and `scrh = 2147483648` the empty rectangle at `(0, 0)` satisfies `x >= 0`,
`y >= 0`, `x + width <= scrh` and `y + height <= scrw`, and the new `y`,
`scrh - (0 + 0) = 2147483648` stored in the `gint` field, is `-2147483648`. -/
theorem C26_huge_screen_leaves_frame :
    (2147483649 : Nat) > 2147483648
    ∧ (0 : Int) ≤ (⟨0, 0, 0, 0⟩ : ClutterGeometry).x
    ∧ (0 : Int) ≤ (⟨0, 0, 0, 0⟩ : ClutterGeometry).y
    ∧ (⟨0, 0, 0, 0⟩ : ClutterGeometry).x + ((⟨0, 0, 0, 0⟩ : ClutterGeometry).width : Int)
        ≤ ((2147483648 : Nat) : Int)
    ∧ (⟨0, 0, 0, 0⟩ : ClutterGeometry).y + ((⟨0, 0, 0, 0⟩ : ClutterGeometry).height : Int)
        ≤ ((2147483649 : Nat) : Int)
    ∧ (hd_util_rotate_geometry ⟨0, 0, 0, 0⟩ 2147483649 2147483648).1.y = -2147483648
    ∧ ¬ (0 ≤ (hd_util_rotate_geometry ⟨0, 0, 0, 0⟩ 2147483649 2147483648).1.y) := by
  decide

/-- C26 (amended): on a screen whose shorter side is below `2 ^ 31`,
`hd_util_rotate_geometry` maps rectangles inside the source frame to
rectangles inside the target frame.  For `scrw > scrh` and every rectangle
with `x >= 0`, `y >= 0`, `x + width <= scrh` and `y + height <= scrw` the
result has `x' >= 0`, `y' >= 0`, `x' + width' <= scrw` and
`y' + height' <= scrh`; for `scrw < scrh` and every rectangle with the same
four bounds the result lies inside the `scrw`-by-`scrh` frame as well.  The
rectangle's fields are representable in their C types. -/
theorem C26_rotate_geometry_stays_inside (x y : Int) (W H scrw scrh : Nat)
    (hR : (⟨x, y, W, H⟩ : ClutterGeometry).wf)
    (hx : 0 ≤ x) (hy : 0 ≤ y) (hxw : x + (W : Int) ≤ (scrh : Int))
    (hyh : y + (H : Int) ≤ (scrw : Int))
    (hne : scrw > scrh ∨ scrw < scrh) (hside : min scrw scrh < 2147483648) :
    0 ≤ (hd_util_rotate_geometry ⟨x, y, W, H⟩ scrw scrh).1.x
    ∧ 0 ≤ (hd_util_rotate_geometry ⟨x, y, W, H⟩ scrw scrh).1.y
    ∧ (hd_util_rotate_geometry ⟨x, y, W, H⟩ scrw scrh).1.x
        + ((hd_util_rotate_geometry ⟨x, y, W, H⟩ scrw scrh).1.width : Int) ≤ (scrw : Int)
    ∧ (hd_util_rotate_geometry ⟨x, y, W, H⟩ scrw scrh).1.y
        + ((hd_util_rotate_geometry ⟨x, y, W, H⟩ scrw scrh).1.height : Int) ≤ (scrh : Int)
    ∧ ((hd_util_rotate_geometry ⟨x, y, W, H⟩ scrw scrh).2 = true ↔ scrw > scrh) := by
  rw [hd_util_rotate_geometry_eq_rotate_rect _ scrw scrh hR.2.2.1]
  unfold rotate_rect
  rcases hne with hgt | hlt
  · rw [if_pos hgt]
    have hmin : min scrw scrh = scrh := Nat.min_eq_right (Nat.le_of_lt hgt)
    rw [hmin] at hside
    have hfit : toGint ((scrh : Int) - (x + (W : Int))) = (scrh : Int) - (x + (W : Int)) :=
      toGint_of_isGint ⟨by omega, by omega⟩
    dsimp only
    rw [hfit]
    refine ⟨hy, by omega, hyh, by omega, ?_⟩
    exact ⟨fun _ => hgt, fun _ => rfl⟩
  · have hngt : ¬ scrw > scrh := by omega
    rw [if_neg hngt]
    have hmin : min scrw scrh = scrw := Nat.min_eq_left (Nat.le_of_lt hlt)
    rw [hmin] at hside
    have hfit : toGint ((scrw : Int) - (y + (H : Int))) = (scrw : Int) - (y + (H : Int)) :=
      toGint_of_isGint ⟨by omega, by omega⟩
    dsimp only
    rw [hfit]
    refine ⟨by omega, hx, by omega, hxw, ?_⟩
    exact ⟨fun h => absurd h (by decide), fun h => absurd h hngt⟩

/-- Witness for C26: a 100x50 rectangle at (10, 20) of the 480x800 portrait
frame lands at (20, 370) with size 50x100 inside the 800x480 landscape
frame. -/
theorem C26_rotate_geometry_stays_inside_witness :
    hd_util_rotate_geometry ⟨10, 20, 100, 50⟩ 800 480 = (⟨20, 370, 50, 100⟩, true)
    ∧ (0 : Int) ≤ (hd_util_rotate_geometry ⟨10, 20, 100, 50⟩ 800 480).1.y
    ∧ (hd_util_rotate_geometry ⟨10, 20, 100, 50⟩ 800 480).1.y
        + ((hd_util_rotate_geometry ⟨10, 20, 100, 50⟩ 800 480).1.height : Int) ≤ (480 : Nat) := by
  obtain ⟨-, h2, -, h4, -⟩ := C26_rotate_geometry_stays_inside 10 20 100 50 800 480
    (by decide) (by decide) (by decide) (by decide) (by decide) (Or.inl (by decide))
    (by decide)
  exact ⟨by decide, h2, h4⟩

/-- C27: for every input string of length at least 2 whose pre-scan count
(commas, plus one when the last character is not a comma) is at least 2, the
reading loop of `hd_key_frame_list_create`, started at index 0 on the array
allocated with that many elements, terminates (with `strlen + 1` iterations
or any larger bound) without a store outside the array, and ends with the
write index equal to the allocated count and every element stored: the array
then holds the `atof` of each segment.  `hd_key_frame_list_create` returns
that array with `count` equal to the allocated size; the strings `,,` and
`1,2,` both give 2 entries. -/
theorem C27_reading_loop_fills_allocation (atof : List Char → ℚ) (s : List Char)
    (hlen : 2 ≤ s.length) (hcount : 2 ≤ scan_count s) :
    (∀ fuel, s.length < fuel →
        read_keys atof fuel s 0 (List.replicate (scan_count s) 0)
          = some (scan_count s, (segments s).map atof))
    ∧ ((segments s).map atof).length = scan_count s
    ∧ hd_key_frame_list_create atof (some s)
        = some ⟨(segments s).map atof, ((scan_count s : Nat) : Int)⟩
    ∧ hd_key_frame_list_create atof (some ",,".toList) = some ⟨[atof [], atof []], 2⟩
    ∧ hd_key_frame_list_create atof (some "1,2,".toList)
        = some ⟨[atof "1".toList, atof "2".toList], 2⟩ := by
  have hne : s ≠ [] := by
    intro e; subst e; simp at hlen
  have hseg : (segments s).length = scan_count s := by
    rw [length_segments, scan_count_eq_segment_count]
  have hcount2 : 2 ≤ segment_count s := by
    rw [← scan_count_eq_segment_count]; exact hcount
  refine ⟨?_, by rw [List.length_map, hseg], ?_, ?_, ?_⟩
  · intro fuel hfuel
    rw [read_keys_eq atof fuel s 0 _ hne hfuel
      (by rw [List.length_replicate, hseg]; omega)]
    simp [hseg]
  · rw [hd_key_frame_list_create_segments atof s hcount2, hseg]
  · rw [hd_key_frame_list_create_segments atof _ (by decide)]
    have e : segments ",,".toList = [[], []] := by decide
    rw [e]
    rfl
  · rw [hd_key_frame_list_create_segments atof _ (by decide)]
    have e : segments "1,2,".toList = ["1".toList, "2".toList] := by decide
    rw [e]
    rfl

/-- Witness for C27: the string `7,x,,` has pre-scan count 3 and the loop
fills the three allocated elements. -/
theorem C27_reading_loop_fills_allocation_witness :
    2 ≤ ("7,x,,".toList).length ∧ scan_count "7,x,,".toList = 3
    ∧ read_keys atof_decimal 6 "7,x,,".toList 0 (List.replicate (scan_count "7,x,,".toList) 0)
        = some (scan_count "7,x,,".toList, (segments "7,x,,".toList).map atof_decimal) :=
  ⟨by decide, by decide,
   (C27_reading_loop_fills_allocation atof_decimal "7,x,,".toList (by decide) (by decide)).1
     6 (by decide)⟩

/-- A blend of two values with a weight in `[0, 1]` lies between them. -/
theorem blend_between (a b n : ℚ) (hn0 : 0 ≤ n) (hn1 : n ≤ 1) :
    min a b ≤ a * (1 - n) + b * n ∧ a * (1 - n) + b * n ≤ max a b := by
  rcases le_total a b with hab | hab
  · rw [min_eq_left hab, max_eq_right hab]
    constructor
    · nlinarith [mul_nonneg (sub_nonneg.mpr hab) hn0]
    · nlinarith [mul_nonneg (sub_nonneg.mpr hab) (sub_nonneg.mpr hn1)]
  · rw [min_eq_right hab, max_eq_left hab]
    constructor
    · nlinarith [mul_nonneg (sub_nonneg.mpr hab) (sub_nonneg.mpr hn1)]
    · nlinarith [mul_nonneg (sub_nonneg.mpr hab) hn0]

/-- On `[0, 1]` the interpolation reads the elements `i` and `i + 1` with
`i = min (floor v) (count - 2)` for `v = x * (count - 1)`, the pair that
brackets `v`, and blends them with the weight `v - i`. -/
theorem hd_key_frame_interpolate_bracket (k : HdKeyFrameList) (hwf : k.wf)
    (h2 : 2 ≤ k.count) (x : ℚ) (hx0 : 0 ≤ x) (hx1 : x ≤ 1) :
    ∃ i : Nat, (i : Int) = min ⌊x * ((k.count - 1 : Int) : ℚ)⌋ (k.count - 2)
      ∧ i + 1 < k.keyframes.length
      ∧ (i : ℚ) ≤ x * ((k.count - 1 : Int) : ℚ)
      ∧ x * ((k.count - 1 : Int) : ℚ) ≤ (i : ℚ) + 1
      ∧ hd_key_frame_interpolate (some k) x
          = some (k.keyframes.getD i 0 * (1 - (x * ((k.count - 1 : Int) : ℚ) - (i : ℚ)))
                + k.keyframes.getD (i + 1) 0 * (x * ((k.count - 1 : Int) : ℚ) - (i : ℚ))) := by
  have hlen := hwf.1
  rcases lt_or_eq_of_le hx1 with hlt | heq
  · obtain ⟨hf0, hi, he⟩ := hd_key_frame_interpolate_inner k hwf h2 x hx0 hlt
    have hcast : ((⌊x * ((k.count - 1 : Int) : ℚ)⌋.toNat : Nat) : Int)
        = ⌊x * ((k.count - 1 : Int) : ℚ)⌋ := Int.toNat_of_nonneg hf0
    have hq : ((⌊x * ((k.count - 1 : Int) : ℚ)⌋.toNat : Nat) : ℚ)
        = ((⌊x * ((k.count - 1 : Int) : ℚ)⌋ : Int) : ℚ) := by
      rw [← hcast]; norm_cast
    refine ⟨⌊x * ((k.count - 1 : Int) : ℚ)⌋.toNat, ?_, hi, ?_, ?_, ?_⟩
    · rw [hcast, min_eq_left (by omega)]
    · rw [hq]; exact Int.floor_le _
    · rw [hq]; exact (Int.lt_floor_add_one _).le
    · rw [he, hq]
  · subst heq
    have hl : 2 ≤ k.keyframes.length := by omega
    have hv : (1 : ℚ) * ((k.count - 1 : Int) : ℚ) = ((k.count - 1 : Int) : ℚ) := one_mul _
    have hq : ((k.keyframes.length - 2 : Nat) : ℚ) = ((k.count - 1 : Int) : ℚ) - 1 := by
      have e : ((k.keyframes.length - 2 : Nat) : Int) = (k.count - 1) - 1 := by omega
      have := congrArg (fun z : Int => (z : ℚ)) e
      simpa using this
    refine ⟨k.keyframes.length - 2, ?_, by omega, ?_, ?_, ?_⟩
    · rw [hv, Int.floor_intCast, min_eq_right (by omega)]
      omega
    · rw [hv, hq]; linarith
    · rw [hv, hq]; linarith
    · rw [hd_key_frame_interpolate_one k hwf h2,
        List.getLast?_eq_getElem?, getElem?_eq_some_getD _ _ (by omega), hv, hq]
      have e : k.keyframes.length - 2 + 1 = k.keyframes.length - 1 := by omega
      rw [e]
      congr 1
      ring

theorem getD_mem_of_lt (l : List ℚ) (i : Nat) (h : i < l.length) : l.getD i 0 ∈ l := by
  rw [List.getD_eq_getElem l 0 h]
  exact List.getElem_mem h

/-- C28: for every key-frame list with `count >= 2` and every `x` in
`[0, 1]`, with `v = x * (count - 1)`, `hd_key_frame_interpolate` reads the
indices `i` and `i + 1` for `i = min (floor v) (count - 2)`: both lie within
`[0, count - 1]` and they bracket the position, `i <= v <= i + 1`.  It
returns the blend `k[i] * (1 - t) + k[i+1] * t` with `t = v - i` in `[0, 1]`,
which lies between the smaller and the larger of these two bracketing key
frames, hence between any lower and upper bound of all key frames, in
particular between two key frames of the list.  The arithmetic is exact. -/
theorem C28_interpolate_within_keyframes (k : HdKeyFrameList) (hwf : k.wf)
    (h2 : 2 ≤ k.count) (x : ℚ) (hx0 : 0 ≤ x) (hx1 : x ≤ 1) :
    ∃ (i : Nat) (r : ℚ),
      (i : Int) = min ⌊x * ((k.count - 1 : Int) : ℚ)⌋ (k.count - 2)
      ∧ ((i : Int) + 1 ≤ k.count - 1) ∧ i + 1 < k.keyframes.length
      ∧ (i : ℚ) ≤ x * ((k.count - 1 : Int) : ℚ)
      ∧ x * ((k.count - 1 : Int) : ℚ) ≤ (i : ℚ) + 1
      ∧ hd_key_frame_interpolate (some k) x = some r
      ∧ r = k.keyframes.getD i 0 * (1 - (x * ((k.count - 1 : Int) : ℚ) - (i : ℚ)))
            + k.keyframes.getD (i + 1) 0 * (x * ((k.count - 1 : Int) : ℚ) - (i : ℚ))
      ∧ min (k.keyframes.getD i 0) (k.keyframes.getD (i + 1) 0) ≤ r
      ∧ r ≤ max (k.keyframes.getD i 0) (k.keyframes.getD (i + 1) 0)
      ∧ (∀ lo hi : ℚ, (∀ a ∈ k.keyframes, lo ≤ a ∧ a ≤ hi) → lo ≤ r ∧ r ≤ hi)
      ∧ (∃ a ∈ k.keyframes, ∃ b ∈ k.keyframes, a ≤ r ∧ r ≤ b) := by
  obtain ⟨i, hidx, hi, hlo, hup, he⟩ := hd_key_frame_interpolate_bracket k hwf h2 x hx0 hx1
  obtain ⟨hmin, hmax⟩ :=
    blend_between (k.keyframes.getD i 0) (k.keyframes.getD (i + 1) 0)
      (x * ((k.count - 1 : Int) : ℚ) - (i : ℚ)) (by linarith) (by linarith)
  have hma := getD_mem_of_lt k.keyframes i (by omega)
  have hmb := getD_mem_of_lt k.keyframes (i + 1) hi
  have hlen := hwf.1
  refine ⟨i, _, hidx, by omega, hi, hlo, hup, he, rfl, hmin, hmax, ?_, ?_⟩
  · intro lo hi' hb
    constructor
    · exact le_trans (le_min (hb _ hma).1 (hb _ hmb).1) hmin
    · exact le_trans hmax (max_le (hb _ hma).2 (hb _ hmb).2)
  · rcases le_total (k.keyframes.getD i 0) (k.keyframes.getD (i + 1) 0) with hab | hab
    · rw [min_eq_left hab] at hmin
      rw [max_eq_right hab] at hmax
      exact ⟨_, hma, _, hmb, hmin, hmax⟩
    · rw [min_eq_right hab] at hmin
      rw [max_eq_left hab] at hmax
      exact ⟨_, hmb, _, hma, hmin, hmax⟩

/-- Witness for C28: on the list `[0, 4, 2]` the value at `x = 3/4` is read
from the indices 1 and 2 and lies between the bounds 0 and 4 of the key
frames. -/
theorem C28_interpolate_within_keyframes_witness :
    ∃ (i : Nat) (r : ℚ), (i : Int) = 1
      ∧ hd_key_frame_interpolate (some ⟨[0, 4, 2], 3⟩) (3 / 4) = some r
      ∧ 0 ≤ r ∧ r ≤ 4 := by
  obtain ⟨i, r, hidx, -, -, -, -, he, -, -, -, hb, -⟩ :=
    C28_interpolate_within_keyframes ⟨[0, 4, 2], 3⟩
      (by simp [HdKeyFrameList.wf, isGint]) (by decide) (3 / 4) (by norm_num) (by norm_num)
  have hf : ⌊(3 / 4 : ℚ) * (((3 : Int) - 1 : Int) : ℚ)⌋ = 1 := by
    rw [Int.floor_eq_iff]; norm_num
  refine ⟨i, r, ?_, he, hb 0 4 ?_⟩
  · rw [hidx]
    show min ⌊(3 / 4 : ℚ) * (((3 : Int) - 1 : Int) : ℚ)⌋ ((3 : Int) - 2) = 1
    rw [hf]
    decide
  · intro a ha
    simp only [List.mem_cons, List.mem_singleton, List.not_mem_nil, or_false] at ha
    rcases ha with rfl | rfl | rfl <;> norm_num

theorem infix_flatMap_of_mem {α β : Type} (f : α → List β) :
    ∀ (l : List α) (a : α), a ∈ l → List.IsInfix (f a) (l.flatMap f) := by
  intro l
  induction l with
  | nil => intro a ha; cases ha
  | cons b t ih =>
    intro a ha
    rw [List.flatMap_cons]
    rcases List.mem_cons.mp ha with rfl | ht
    · exact (List.prefix_append _ _).isInfix
    · exact (ih a ht).trans (List.suffix_append _ _).isInfix

/-- The requests of the first loop sit, applet by applet, in the requests of
a call. -/
theorem current_applet_requests_infix (inp : StackInputs) (client : Window) (flags : Int)
    (a : Window) (ha : a ∈ inp.current_applets) :
    List.IsInfix (current_applet_requests inp.need_desktop flags a)
      (stack_call_requests inp client flags) := by
  unfold stack_call_requests
  refine (infix_flatMap_of_mem _ _ a ha).trans ?_
  refine List.IsInfix.trans
    (List.suffix_append [Request.stack_move_top client] _).isInfix ?_
  refine List.IsInfix.trans
    (List.prefix_append _ (inp.not_visible_views.flatten.map Request.delete_property)).isInfix ?_
  exact (List.prefix_append _ _).isInfix

/-- Every `XChangeProperty` among the requests of a call comes from the first
loop with the render state needing the desktop, and writes the value 1. -/
theorem change_property_mem_stack_call_requests (inp : StackInputs) (client : Window)
    (flags : Int) (w : Window) (v : Nat)
    (h : Request.change_property w v ∈ stack_call_requests inp client flags) :
    inp.need_desktop = true ∧ w ∈ inp.current_applets ∧ v = 1 := by
  unfold stack_call_requests at h
  simp only [List.mem_append, List.mem_singleton, List.mem_flatMap, List.mem_map,
    reduceCtorEq, false_or, or_false, and_false, exists_false] at h
  obtain ⟨a, ha, hm⟩ := h
  unfold current_applet_requests at hm
  simp only [List.mem_cons, reduceCtorEq, false_or, List.mem_singleton, List.not_mem_nil,
    or_false] at hm
  cases hn : inp.need_desktop with
  | false =>
    rw [hn] at hm
    simp at hm
  | true =>
    rw [hn] at hm
    simp only [if_true, Request.change_property.injEq] at hm
    exact ⟨rfl, hm.1 ▸ ha, hm.2⟩

/-- C29: when the render state does not require the desktop, a returning call
of `hd_desktop_stack` issues, for every applet of the active view, its stack
request immediately followed by the deletion of the on-current-desktop
property, and writes the property nowhere; after the call no applet of the
active view and no applet of a non-visible view carries the property.  In
every render state, a write of the property among the requests of the call
is a write of the value 1 on an applet of the active view with the render
state requiring the desktop; and when it does require the desktop, every
applet of the active view gets its stack request followed by that write. -/
theorem C29_stack_without_desktop (inp : StackInputs) (client : Window) (flags : Int)
    (dpy dpy' : Display) (h : hd_desktop_stack inp client flags dpy = some dpy') :
    ∃ issued, dpy'.requests = dpy.requests ++ issued
      ∧ (inp.need_desktop = false →
          (∀ a ∈ inp.current_applets,
            List.IsInfix [Request.client_stack a flags, Request.delete_property a] issued)
          ∧ (∀ a ∈ inp.current_applets, dpy'.on_current_desktop a = none)
          ∧ (∀ view ∈ inp.not_visible_views, ∀ a ∈ view, dpy'.on_current_desktop a = none)
          ∧ (∀ w v, Request.change_property w v ∉ issued))
      ∧ (∀ w v, Request.change_property w v ∈ issued →
          inp.need_desktop = true ∧ w ∈ inp.current_applets ∧ v = 1)
      ∧ (inp.need_desktop = true →
          ∀ a ∈ inp.current_applets,
            List.IsInfix [Request.client_stack a flags, Request.change_property a 1] issued) := by
  have hprop := hd_desktop_stack_prop inp client flags dpy dpy' h
  refine ⟨stack_call_requests inp client flags,
    (hd_desktop_stack_requests inp client flags dpy dpy' h).1, ?_, ?_, ?_⟩
  · intro hnd
    refine ⟨?_, ?_, ?_, ?_⟩
    · intro a ha
      have hi := current_applet_requests_infix inp client flags a ha
      unfold current_applet_requests at hi
      rw [hnd] at hi
      exact hi
    · intro a ha
      rw [hprop a, hnd]
      split
      · rfl
      · rfl
    · intro view hview a ha
      rw [hprop a, if_pos ⟨view, hview, ha⟩]
    · intro w v hm
      have := (change_property_mem_stack_call_requests inp client flags w v hm).1
      rw [hnd] at this
      cases this
  · intro w v hm
    exact change_property_mem_stack_call_requests inp client flags w v hm
  · intro hnd a ha
    have hi := current_applet_requests_infix inp client flags a ha
    unfold current_applet_requests at hi
    rw [hnd] at hi
    exact hi

/-- Witness for C29: the render state does not need the desktop; the active
view holds windows 7 and 8, another view holds 9; 7 and 9 carry the property
before the call.  The call returns, its requests are the listed ones, and
7, 8 and 9 are without the property afterwards. -/
theorem C29_stack_without_desktop_witness :
    ∃ dpy', hd_desktop_stack ⟨false, [7, 8], [[9]], [20], fun w => decide (w < 20)⟩
              1 0 ⟨fun w => if w = 7 ∨ w = 9 then some 1 else none, []⟩ = some dpy'
      ∧ dpy'.requests
          = [Request.stack_move_top 1,
             Request.client_stack 7 0, Request.delete_property 7,
             Request.client_stack 8 0, Request.delete_property 8,
             Request.delete_property 9, Request.client_stack 20 0]
      ∧ dpy'.on_current_desktop 7 = none
      ∧ dpy'.on_current_desktop 8 = none
      ∧ dpy'.on_current_desktop 9 = none := by
  obtain ⟨dpy', h⟩ := (hd_desktop_stack_returns_iff
    ⟨false, [7, 8], [[9]], [20], fun w => decide (w < 20)⟩ 1 0
    ⟨fun w => if w = 7 ∨ w = 9 then some 1 else none, []⟩).mpr (by decide)
  obtain ⟨issued, -, hnd, -, -⟩ := C29_stack_without_desktop
    ⟨false, [7, 8], [[9]], [20], fun w => decide (w < 20)⟩ 1 0
    ⟨fun w => if w = 7 ∨ w = 9 then some 1 else none, []⟩ dpy' h
  obtain ⟨-, hact, hnv, -⟩ := hnd rfl
  have hreq := (hd_desktop_stack_requests
    ⟨false, [7, 8], [[9]], [20], fun w => decide (w < 20)⟩ 1 0
    ⟨fun w => if w = 7 ∨ w = 9 then some 1 else none, []⟩ dpy' h).1
  refine ⟨dpy', h, ?_, hact 7 (by decide), hact 8 (by decide), hnv [9] (by decide) 9 (by decide)⟩
  rw [hreq]
  decide

/-! ## Properties of `hd_key_frame_interpolate` over binary32 values -/

/-- An integer rounds to itself. -/
theorem round_half_even_intCast (z : Int) : round_half_even (z : ℚ) = z := by
  unfold round_half_even
  rw [Int.floor_intCast, sub_self, if_pos (by norm_num)]

theorem binary32_ulp_natCast (n : ℕ) :
    binary32_ulp (n : ℚ) = (2 : ℚ) ^ ((Nat.log 2 n : Int) - 23) := by
  unfold binary32_ulp
  rw [abs_of_nonneg (Nat.cast_nonneg n), Int.log_natCast, max_eq_left (by omega)]

/-- A value below `2 ^ 128` that is a whole multiple of the spacing around it is
a binary32 value: rounding returns it. -/
theorem binary32_round_of_multiple (q : ℚ) (m : Int) (hm : q = (m : ℚ) * binary32_ulp q)
    (hq : |q| < (2 : ℚ) ^ 128) : binary32_round q = CFloat.finite q := by
  have hu : binary32_ulp q ≠ 0 := by
    unfold binary32_ulp
    exact zpow_ne_zero _ (by norm_num)
  have hdiv : q / binary32_ulp q = (m : ℚ) := by
    rw [div_eq_iff hu]; exact hm
  unfold binary32_round
  dsimp only
  rw [hdiv, round_half_even_intCast, ← hm, if_neg (not_le.mpr hq)]

/-- Every natural number up to `2 ^ 24` is a binary32 value. -/
theorem binary32_round_natCast (n : ℕ) (h : n ≤ 16777216) :
    binary32_round (n : ℚ) = CFloat.finite (n : ℚ) := by
  have hq : |(n : ℚ)| < (2 : ℚ) ^ 128 := by
    rw [abs_of_nonneg (Nat.cast_nonneg n)]
    have : (n : ℚ) ≤ 16777216 := by exact_mod_cast h
    calc (n : ℚ) ≤ 16777216 := this
      _ < 2 ^ 128 := by norm_num
  have hL : Nat.log 2 n ≤ 24 := by
    have : Nat.log 2 n ≤ Nat.log 2 16777216 := Nat.log_mono_right h
    have e : Nat.log 2 16777216 = 24 := by
      have : (16777216 : ℕ) = 2 ^ 24 := by norm_num
      rw [this, Nat.log_pow (by norm_num)]
    omega
  rcases Nat.lt_or_ge (Nat.log 2 n) 24 with hlt | hge
  · apply binary32_round_of_multiple _ ((n * 2 ^ (23 - Nat.log 2 n) : ℕ) : Int) _ hq
    rw [binary32_ulp_natCast]
    have e : ((Nat.log 2 n : Int) - 23) = -((23 - Nat.log 2 n : ℕ) : Int) := by omega
    rw [e, zpow_neg, zpow_natCast]
    push_cast
    field_simp
  · have hL24 : Nat.log 2 n = 24 := by omega
    have hn : n = 16777216 := by
      have : 2 ^ Nat.log 2 n ≤ n := Nat.pow_log_le_self 2 (by
        intro h0; rw [h0] at hL24; simp at hL24)
      rw [hL24] at this
      omega
    apply binary32_round_of_multiple _ 8388608 _ hq
    rw [binary32_ulp_natCast, hL24, hn]
    norm_num

/-- The first integer that is not a binary32 value, `2 ^ 24 + 1`, rounds to
`2 ^ 24`. -/
theorem binary32_round_16777217 :
    binary32_round 16777217 = CFloat.finite 16777216 := by
  have hu : binary32_ulp (16777217 : ℚ) = 2 := by
    have := binary32_ulp_natCast 16777217
    have hl : Nat.log 2 16777217 = 24 :=
      (Nat.log_eq_iff (by norm_num)).mpr ⟨by norm_num, by norm_num⟩
    rw [hl] at this
    norm_num at this
    exact this
  unfold binary32_round
  dsimp only
  rw [hu]
  have hf : ⌊(16777217 : ℚ) / 2⌋ = 8388608 := by
    rw [Int.floor_eq_iff]; norm_num
  have hr : round_half_even ((16777217 : ℚ) / 2) = 8388608 := by
    unfold round_half_even
    rw [hf]
    norm_num
  rw [hr]
  norm_num


/-- An `int` from 0 to `2 ^ 24` converts to `float` exactly. -/
theorem cfloat_of_int_small (z : Int) (h0 : 0 ≤ z) (h1 : z ≤ 16777216) :
    CFloat.of_int z = CFloat.finite (z : ℚ) := by
  unfold CFloat.of_int
  have hz : z = ((z.toNat : ℕ) : Int) := (Int.toNat_of_nonneg h0).symm
  have hq : (z : ℚ) = ((z.toNat : ℕ) : ℚ) := by
    conv_lhs => rw [hz]
    norm_cast
  rw [hq]
  exact binary32_round_natCast _ (by omega)

theorem binary32_round_zero : binary32_round 0 = CFloat.finite 0 := by
  have := binary32_round_natCast 0 (by norm_num)
  simpa using this

theorem binary32_round_one : binary32_round 1 = CFloat.finite 1 := by
  have := binary32_round_natCast 1 (by norm_num)
  simpa using this

theorem float_to_int_intCast (z : Int) (h : isGint z) : float_to_int (z : ℚ) = some z := by
  unfold float_to_int
  obtain ⟨hl, hu⟩ := h
  dsimp only
  by_cases h0 : (0 : ℚ) ≤ (z : ℚ)
  · rw [if_pos h0, Int.floor_intCast, if_pos ⟨hl, hu⟩]
  · rw [if_neg h0, Int.ceil_intCast, if_pos ⟨hl, hu⟩]

/-- At `x = 1.0`, with `count - 1` exact as a `float`, the index is clamped to
`count - 2` with weight 1, and a finite key frame before the last one
contributes zero: the value is the last key frame. -/
theorem hd_key_frame_interpolate_binary32_one (k : HdKeyFrameList_binary32) (hwf : k.wf) (h2 : 2 ≤ k.count)
    (hcount : k.count ≤ 16777217) (a b : ℚ)
    (ha : k.keyframes[(k.count - 2).toNat]? = some (CFloat.finite a))
    (hb : k.keyframes[(k.count - 2 + 1).toNat]? = some (CFloat.finite b))
    (hbr : binary32_round b = CFloat.finite b) :
    hd_key_frame_interpolate_binary32 (some k) (CFloat.finite 1) = some (CFloat.finite b) := by
  obtain ⟨hlen, hg⟩ := hwf
  unfold hd_key_frame_interpolate_binary32
  dsimp only
  rw [if_neg (by omega), cfloat_of_int_small (k.count - 1) (by omega) (by omega)]
  have hv : CFloat.mul (CFloat.finite 1) (CFloat.finite ((k.count - 1 : Int) : ℚ))
      = CFloat.finite ((k.count - 1 : Int) : ℚ) := by
    show binary32_round (1 * ((k.count - 1 : Int) : ℚ)) = _
    rw [one_mul]
    exact cfloat_of_int_small (k.count - 1) (by omega) (by omega)
  rw [hv]
  have hi : CFloat.to_int (CFloat.finite ((k.count - 1 : Int) : ℚ)) = some (k.count - 1) :=
    float_to_int_intCast _ ⟨by omega, by omega⟩
  rw [hi]
  dsimp only
  rw [if_pos (le_refl _)]
  dsimp only
  rw [if_neg (by omega)]
  dsimp only
  rw [ha, hb]
  dsimp only
  have h1 : CFloat.of_int 1 = CFloat.finite 1 := by
    have := cfloat_of_int_small 1 (by norm_num) (by norm_num)
    simpa using this
  rw [h1]
  have hs : CFloat.sub (CFloat.finite 1) (CFloat.finite 1) = CFloat.finite 0 := by
    show binary32_round (1 + -1) = _
    rw [add_neg_cancel]
    exact binary32_round_zero
  rw [hs]
  have hm1 : CFloat.mul (CFloat.finite a) (CFloat.finite 0) = CFloat.finite 0 := by
    show binary32_round (a * 0) = _
    rw [mul_zero]
    exact binary32_round_zero
  have hm2 : CFloat.mul (CFloat.finite b) (CFloat.finite 1) = CFloat.finite b := by
    show binary32_round (b * 1) = _
    rw [mul_one]
    exact hbr
  rw [hm1, hm2]
  show some (binary32_round (0 + b)) = _
  rw [zero_add, hbr]

theorem round_half_even_bounds (m : ℚ) :
    m - 1 ≤ (round_half_even m : ℚ) ∧ (round_half_even m : ℚ) ≤ m + 1 := by
  have h1 : ((⌊m⌋ : Int) : ℚ) ≤ m := Int.floor_le m
  have h2 : m < ((⌊m⌋ : Int) : ℚ) + 1 := Int.lt_floor_add_one m
  unfold round_half_even
  split_ifs <;> push_cast <;> constructor <;> linarith

theorem binary32_ulp_pos (q : ℚ) : 0 < binary32_ulp q := by
  unfold binary32_ulp
  exact zpow_pos (by norm_num) _

theorem binary32_ulp_le (q : ℚ) (h : |q| ≤ 2147483648) : binary32_ulp q ≤ 256 := by
  have hL : Int.log 2 |q| ≤ 31 := by
    rcases eq_or_lt_of_le (abs_nonneg q) with h0 | hpos
    · rw [← h0, Int.log_zero_right]; norm_num
    · have := @Int.log_mono_right ℚ _ _ 2 _ _ hpos h
      have e : Int.log 2 (2147483648 : ℚ) = 31 := by
        have : (2147483648 : ℚ) = ((2147483648 : ℕ) : ℚ) := by norm_num
        rw [this, Int.log_natCast]
        have : Nat.log 2 2147483648 = 31 :=
          (Nat.log_eq_iff (by norm_num)).mpr ⟨by norm_num, by norm_num⟩
        rw [this]; rfl
      rw [e] at this
      exact this
  unfold binary32_ulp
  have he : max (Int.log 2 |q|) (-126) - 23 ≤ 8 := by omega
  calc (2 : ℚ) ^ (max (Int.log 2 |q|) (-126) - 23) ≤ (2 : ℚ) ^ (8 : Int) :=
        zpow_le_zpow_right₀ (by norm_num) he
    _ = 256 := by norm_num

/-- Values of the magnitude of an `int` round to a finite `float`. -/
theorem binary32_round_finite (q : ℚ) (h : |q| ≤ 2147483648) :
    ∃ r, binary32_round q = CFloat.finite r := by
  unfold binary32_round
  dsimp only
  refine ⟨_, if_neg ?_⟩
  rw [not_le]
  have hu := binary32_ulp_pos q
  have hu2 := binary32_ulp_le q h
  obtain ⟨hb1, hb2⟩ := round_half_even_bounds (q / binary32_ulp q)
  have hq := abs_le.mp h
  have e : q / binary32_ulp q * binary32_ulp q = q := div_mul_cancel₀ q (ne_of_gt hu)
  have hup : (round_half_even (q / binary32_ulp q) : ℚ) * binary32_ulp q ≤ q + binary32_ulp q := by
    calc (round_half_even (q / binary32_ulp q) : ℚ) * binary32_ulp q
        ≤ (q / binary32_ulp q + 1) * binary32_ulp q :=
          mul_le_mul_of_nonneg_right hb2 hu.le
      _ = q + binary32_ulp q := by rw [add_mul, e, one_mul]
  have hlo : q - binary32_ulp q ≤ (round_half_even (q / binary32_ulp q) : ℚ) * binary32_ulp q := by
    calc q - binary32_ulp q = (q / binary32_ulp q - 1) * binary32_ulp q := by
          rw [sub_mul, e, one_mul]
      _ ≤ (round_half_even (q / binary32_ulp q) : ℚ) * binary32_ulp q :=
          mul_le_mul_of_nonneg_right hb1 hu.le
  rw [abs_lt]
  constructor
  · have : -(2 : ℚ) ^ 128 < -2147483648 - 256 := by norm_num
    linarith [hq.1]
  · have : (2147483648 : ℚ) + 256 < 2 ^ 128 := by norm_num
    linarith [hq.2]

/-- Every `int` converts to a finite `float`. -/
theorem cfloat_of_int_finite (z : Int) (h : isGint z) : ∃ r, CFloat.of_int z = CFloat.finite r := by
  unfold CFloat.of_int
  apply binary32_round_finite
  obtain ⟨hl, hu⟩ := h
  rw [abs_le]
  constructor
  · exact_mod_cast hl
  · exact_mod_cast hu.le

/-- At `x = 0.0` the index is 0 with weight 0, and a finite second key frame
contributes zero: the value is the first key frame. -/
theorem hd_key_frame_interpolate_binary32_zero (k : HdKeyFrameList_binary32) (hwf : k.wf) (h2 : 2 ≤ k.count)
    (a b : ℚ)
    (ha : k.keyframes[0]? = some (CFloat.finite a))
    (hb : k.keyframes[1]? = some (CFloat.finite b))
    (har : binary32_round a = CFloat.finite a) :
    hd_key_frame_interpolate_binary32 (some k) (CFloat.finite 0) = some (CFloat.finite a) := by
  obtain ⟨hlen, hg⟩ := hwf
  obtain ⟨r, hr⟩ := cfloat_of_int_finite (k.count - 1) ⟨by unfold isGint at hg; omega, by unfold isGint at hg; omega⟩
  unfold hd_key_frame_interpolate_binary32
  dsimp only
  rw [if_neg (by omega), hr]
  have hv : CFloat.mul (CFloat.finite 0) (CFloat.finite r) = CFloat.finite 0 := by
    show binary32_round (0 * r) = _
    rw [zero_mul]
    exact binary32_round_zero
  rw [hv]
  have hi : CFloat.to_int (CFloat.finite 0) = some 0 := by
    have := float_to_int_intCast 0 ⟨by norm_num, by norm_num⟩
    simpa using this
  rw [hi]
  dsimp only
  have h0 : CFloat.of_int 0 = CFloat.finite 0 := by
    have := cfloat_of_int_small 0 (by norm_num) (by norm_num)
    simpa using this
  have h1 : CFloat.of_int 1 = CFloat.finite 1 := by
    have := cfloat_of_int_small 1 (by norm_num) (by norm_num)
    simpa using this
  rw [if_neg (show ¬ ((0 : Int) ≥ k.count - 1) by omega)]
  dsimp only
  rw [if_neg (show ¬ ((0 : Int) < 0) by omega)]
  dsimp only
  have e0 : (0 : Int).toNat = 0 := rfl
  have e1 : ((0 : Int) + 1).toNat = 1 := rfl
  rw [e0, e1, ha, hb]
  dsimp only
  rw [h0, h1]
  have hs0 : CFloat.sub (CFloat.finite 0) (CFloat.finite 0) = CFloat.finite 0 := by
    show binary32_round (0 + -0) = _
    rw [neg_zero, add_zero]
    exact binary32_round_zero
  rw [hs0]
  have hs : CFloat.sub (CFloat.finite 1) (CFloat.finite 0) = CFloat.finite 1 := by
    show binary32_round (1 + -0) = _
    rw [neg_zero, add_zero]
    exact binary32_round_one
  rw [hs]
  have hm1 : CFloat.mul (CFloat.finite a) (CFloat.finite 1) = CFloat.finite a := by
    show binary32_round (a * 1) = _
    rw [mul_one]
    exact har
  have hm2 : CFloat.mul (CFloat.finite b) (CFloat.finite 0) = CFloat.finite 0 := by
    show binary32_round (b * 0) = _
    rw [mul_zero]
    exact binary32_round_zero
  rw [hm1, hm2]
  show some (binary32_round (a + 0)) = _
  rw [add_zero, har]

/-- At `x = 1.0` an infinite key frame before the last one is multiplied by
`1 - 1 = 0`, which gives a NaN. -/
theorem hd_key_frame_interpolate_binary32_one_infinite (k : HdKeyFrameList_binary32) (hwf : k.wf) (h2 : 2 ≤ k.count)
    (hcount : k.count ≤ 16777217) (s : Bool) (b : ℚ)
    (ha : k.keyframes[(k.count - 2).toNat]? = some (CFloat.infinity s))
    (hb : k.keyframes[(k.count - 2 + 1).toNat]? = some (CFloat.finite b)) :
    hd_key_frame_interpolate_binary32 (some k) (CFloat.finite 1) = some CFloat.nan := by
  obtain ⟨hlen, hg⟩ := hwf
  unfold hd_key_frame_interpolate_binary32
  dsimp only
  rw [if_neg (by omega), cfloat_of_int_small (k.count - 1) (by omega) (by omega)]
  have hv : CFloat.mul (CFloat.finite 1) (CFloat.finite ((k.count - 1 : Int) : ℚ))
      = CFloat.finite ((k.count - 1 : Int) : ℚ) := by
    show binary32_round (1 * ((k.count - 1 : Int) : ℚ)) = _
    rw [one_mul]
    exact cfloat_of_int_small (k.count - 1) (by omega) (by omega)
  rw [hv]
  have hi : CFloat.to_int (CFloat.finite ((k.count - 1 : Int) : ℚ)) = some (k.count - 1) :=
    float_to_int_intCast _ ⟨by omega, by omega⟩
  rw [hi]
  dsimp only
  rw [if_pos (le_refl _)]
  dsimp only
  rw [if_neg (by omega)]
  dsimp only
  rw [ha, hb]
  dsimp only
  have h1 : CFloat.of_int 1 = CFloat.finite 1 := by
    have := cfloat_of_int_small 1 (by norm_num) (by norm_num)
    simpa using this
  rw [h1]
  have hs : CFloat.sub (CFloat.finite 1) (CFloat.finite 1) = CFloat.finite 0 := by
    show binary32_round (1 + -1) = _
    rw [add_neg_cancel]
    exact binary32_round_zero
  rw [hs]
  rfl

/-- With `count = 2 ^ 24 + 2` the factor `count - 1` becomes `2 ^ 24` as a
`float`, so at `x = 1.0` the index is `2 ^ 24` with weight 0 and no clamp
applies: the value is the key frame before the last one. -/
theorem hd_key_frame_interpolate_binary32_one_rounded_down (k : HdKeyFrameList_binary32)
    (hcount : k.count = 16777218) (a b : ℚ)
    (ha : k.keyframes[16777216]? = some (CFloat.finite a))
    (hb : k.keyframes[16777217]? = some (CFloat.finite b))
    (har : binary32_round a = CFloat.finite a) :
    hd_key_frame_interpolate_binary32 (some k) (CFloat.finite 1) = some (CFloat.finite a) := by
  unfold hd_key_frame_interpolate_binary32
  dsimp only
  rw [hcount, if_neg (by norm_num)]
  have hc : CFloat.of_int (16777218 - 1) = CFloat.finite 16777216 := by
    unfold CFloat.of_int
    have : (((16777218 - 1 : Int)) : ℚ) = 16777217 := by norm_num
    rw [this]
    exact binary32_round_16777217
  rw [hc]
  have hr : binary32_round 16777216 = CFloat.finite 16777216 := by
    have := binary32_round_natCast 16777216 (le_refl _)
    simpa using this
  have hv : CFloat.mul (CFloat.finite 1) (CFloat.finite 16777216) = CFloat.finite 16777216 := by
    show binary32_round (1 * 16777216) = _
    rw [one_mul]
    exact hr
  rw [hv]
  have hi : CFloat.to_int (CFloat.finite 16777216) = some 16777216 := by
    have := float_to_int_intCast 16777216 ⟨by norm_num, by norm_num⟩
    simpa using this
  rw [hi]
  dsimp only
  rw [if_neg (by norm_num)]
  dsimp only
  rw [if_neg (by norm_num)]
  dsimp only
  have e0 : (16777216 : Int).toNat = 16777216 := rfl
  have e1 : ((16777216 : Int) + 1).toNat = 16777217 := rfl
  rw [e0, e1, ha, hb]
  dsimp only
  have hn : CFloat.of_int 16777216 = CFloat.finite 16777216 := by
    have := cfloat_of_int_small 16777216 (by norm_num) (by norm_num)
    simpa using this
  have h1 : CFloat.of_int 1 = CFloat.finite 1 := by
    have := cfloat_of_int_small 1 (by norm_num) (by norm_num)
    simpa using this
  rw [hn, h1]
  have hs0 : CFloat.sub (CFloat.finite 16777216) (CFloat.finite 16777216) = CFloat.finite 0 := by
    show binary32_round (16777216 + -16777216) = _
    rw [add_neg_cancel]
    exact binary32_round_zero
  rw [hs0]
  have hs : CFloat.sub (CFloat.finite 1) (CFloat.finite 0) = CFloat.finite 1 := by
    show binary32_round (1 + -0) = _
    rw [neg_zero, add_zero]
    exact binary32_round_one
  rw [hs]
  have hm1 : CFloat.mul (CFloat.finite a) (CFloat.finite 1) = CFloat.finite a := by
    show binary32_round (a * 1) = _
    rw [mul_one]
    exact har
  have hm2 : CFloat.mul (CFloat.finite b) (CFloat.finite 0) = CFloat.finite 0 := by
    show binary32_round (b * 0) = _
    rw [mul_zero]
    exact binary32_round_zero
  rw [hm1, hm2]
  show some (binary32_round (a + 0)) = _
  rw [add_zero, har]

/-- C5 (as stated, refuted): the end points are not the first and last key
frame of every list.  For the two key frames `[inf, 1]` the value at
`x = 1.0` is `inf * (1 - 1) + 1 * 1`, a NaN, and not the last key frame 1.
For the list of `2 ^ 24 + 2` key frames that are 0 but for the last, which is
1, the factor `count - 1 = 16777217` is rounded to `16777216` as a `float`,
the index `16777216` is not clamped and the value at `x = 1.0` is the key
frame before the last one, 0. -/
theorem C5_endpoint_is_not_the_last_key_frame :
    hd_key_frame_interpolate_binary32
        (some ⟨[CFloat.infinity false, CFloat.finite 1], 2⟩) (CFloat.finite 1)
      = some CFloat.nan
    ∧ ([CFloat.infinity false, CFloat.finite 1] : List CFloat).getLast?
        = some (CFloat.finite 1)
    ∧ hd_key_frame_interpolate_binary32
        (some ⟨List.replicate 16777217 (CFloat.finite 0) ++ [CFloat.finite 1], 16777218⟩)
        (CFloat.finite 1)
      = some (CFloat.finite 0)
    ∧ (List.replicate 16777217 (CFloat.finite 0) ++ [CFloat.finite 1]).getLast?
        = some (CFloat.finite 1) := by
  refine ⟨?_, rfl, ?_, by rw [List.getLast?_append]; rfl⟩
  · exact hd_key_frame_interpolate_binary32_one_infinite
      ⟨[CFloat.infinity false, CFloat.finite 1], 2⟩
      ⟨rfl, by unfold isGint; decide⟩ (by decide) (by decide) false 1 rfl rfl
  · apply hd_key_frame_interpolate_binary32_one_rounded_down _ rfl 0 1
    · show (List.replicate 16777217 (CFloat.finite 0) ++ [CFloat.finite 1])[16777216]? = _
      rw [List.getElem?_append_left (by rw [List.length_replicate]; norm_num),
        List.getElem?_replicate, if_pos (by norm_num)]
    · show (List.replicate 16777217 (CFloat.finite 0) ++ [CFloat.finite 1])[16777217]? = _
      rw [List.getElem?_append_right (by rw [List.length_replicate]), List.length_replicate]
      rfl
    · exact binary32_round_zero

/-- C5 (amended): for every key-frame list with `count >= 2` whose key frames
are all finite `float` values, `hd_key_frame_interpolate (k, 0.0)` is the
first key frame, and when `count` is at most `2 ^ 24 + 1 = 16777217`, so that
`count - 1` is exact as a `float`, `hd_key_frame_interpolate (k, 1.0)` is the
last key frame.  Every operation is rounded to binary32. -/
theorem C5_interpolate_endpoints_finite (k : HdKeyFrameList_binary32) (hwf : k.wf)
    (h2 : 2 ≤ k.count) (hfin : ∀ a ∈ k.keyframes, CFloat.is_finite_value a) :
    ∃ first last, k.keyframes.head? = some first ∧ k.keyframes.getLast? = some last
      ∧ hd_key_frame_interpolate_binary32 (some k) (CFloat.finite 0) = some first
      ∧ (k.count ≤ 16777217 →
          hd_key_frame_interpolate_binary32 (some k) (CFloat.finite 1) = some last) := by
  have hlen := hwf.1
  have hl : 2 ≤ k.keyframes.length := by omega
  have get : ∀ i, i < k.keyframes.length →
      ∃ q, k.keyframes[i]? = some (CFloat.finite q) ∧ binary32_round q = CFloat.finite q := by
    intro i hi
    obtain ⟨q, hq, hr⟩ := hfin _ (List.getElem_mem hi)
    exact ⟨q, by rw [List.getElem?_eq_getElem hi, hq], hr⟩
  obtain ⟨a0, ha0, hr0⟩ := get 0 (by omega)
  obtain ⟨a1, ha1, -⟩ := get 1 (by omega)
  obtain ⟨b0, hb0, -⟩ := get (k.keyframes.length - 2) (by omega)
  obtain ⟨b1, hb1, hrb⟩ := get (k.keyframes.length - 1) (by omega)
  refine ⟨CFloat.finite a0, CFloat.finite b1, ?_, ?_, ?_, ?_⟩
  · rw [List.head?_eq_getElem?, ha0]
  · rw [List.getLast?_eq_getElem?, hb1]
  · exact hd_key_frame_interpolate_binary32_zero k hwf h2 a0 a1 ha0 ha1 hr0
  · intro hcount
    have e1 : (k.count - 2).toNat = k.keyframes.length - 2 := by omega
    have e2 : (k.count - 2 + 1).toNat = k.keyframes.length - 1 := by omega
    exact hd_key_frame_interpolate_binary32_one k hwf h2 hcount b0 b1 (by rw [e1]; exact hb0)
      (by rw [e2]; exact hb1) hrb

/-- Witness for C5: the three key frames `[3, 0, 7]`. -/
theorem C5_interpolate_endpoints_finite_witness :
    hd_key_frame_interpolate_binary32
        (some ⟨[CFloat.finite 3, CFloat.finite 0, CFloat.finite 7], 3⟩) (CFloat.finite 0)
      = some (CFloat.finite 3)
    ∧ hd_key_frame_interpolate_binary32
        (some ⟨[CFloat.finite 3, CFloat.finite 0, CFloat.finite 7], 3⟩) (CFloat.finite 1)
      = some (CFloat.finite 7) := by
  have h3 : binary32_round 3 = CFloat.finite 3 := by
    have := binary32_round_natCast 3 (by norm_num)
    simpa using this
  have h7 : binary32_round 7 = CFloat.finite 7 := by
    have := binary32_round_natCast 7 (by norm_num)
    simpa using this
  obtain ⟨first, last, hf, hl, h0, h1⟩ := C5_interpolate_endpoints_finite
    ⟨[CFloat.finite 3, CFloat.finite 0, CFloat.finite 7], 3⟩
    ⟨rfl, by unfold isGint; decide⟩ (by decide)
    (by
      intro a ha
      simp only [List.mem_cons, List.mem_singleton, List.not_mem_nil, or_false] at ha
      rcases ha with rfl | rfl | rfl
      · exact ⟨3, rfl, h3⟩
      · exact ⟨0, rfl, binary32_round_zero⟩
      · exact ⟨7, rfl, h7⟩)
  have ef : first = CFloat.finite 3 := by
    have : some (CFloat.finite 3) = some first := hf
    exact (Option.some.inj this).symm
  have el : last = CFloat.finite 7 := by
    have : some (CFloat.finite 7) = some last := hl
    exact (Option.some.inj this).symm
  rw [ef] at h0
  rw [el] at h1
  exact ⟨h0, h1 (by decide)⟩

end HildonDesktop
